import Mathlib

/-!
Verification development for the webm-writer-js repository.

The source components are embedded shallowly:
* `BlobBuffer` (src/BlobBuffer.mjs): the seekable append-or-overwrite byte sink
  (memory mode), with writes carrying one of the JavaScript datum shapes.
* `ArrayBufferDataStream` (file not present under src/, modelled from the spec,
  checked against the test vectors of its unit tests).
* `writeEBML`, `extractKeyframeFromWebP` (src/utils.mjs).
* `WebMWriter` (WebMWriter.mjs): the muxer state machine.

Bytes are `Nat` values below 256; JavaScript byte containers become `List Nat`.
-/

deriving instance DecidableEq for Except

set_option maxHeartbeats 4000000
set_option maxRecDepth 100000

namespace WebmWriter

/-- One datum handed to `BlobBuffer.write`.  JavaScript distinguishes the
shapes only through which size fields (`byteLength`, `length`, `size`) they
expose; all of them carry bytes. -/
inductive JSDatum where
  | str (bytes : List Nat)
  | u8arr (bytes : List Nat)
  | abuf (bytes : List Nat)
  | blob (bytes : List Nat)
deriving DecidableEq, Repr

/-- The bytes a datum denotes (what `convertToUint8Array` would produce). -/
def JSDatum.bytes : JSDatum → List Nat
  | .str b => b
  | .u8arr b => b
  | .abuf b => b
  | .blob b => b

/-- The `byteLength` property: present on `Uint8Array` and `ArrayBuffer`. -/
def JSDatum.byteLengthProp : JSDatum → Option Nat
  | .u8arr b => some b.length
  | .abuf b => some b.length
  | _ => none

/-- The `length` property: present on strings and on `Uint8Array`. -/
def JSDatum.lengthProp : JSDatum → Option Nat
  | .str b => some b.length
  | .u8arr b => some b.length
  | _ => none

/-- The `size` property: present on `Blob`. -/
def JSDatum.sizeProp : JSDatum → Option Nat
  | .blob b => some b.length
  | _ => none

/-- JavaScript truthiness of a possibly-absent number (`undefined` and `0`
are falsy). -/
def jsTruthy : Option Nat → Bool
  | none => false
  | some n => n ≠ 0

/-- JavaScript `a || b`: `a` when truthy, otherwise `b`. -/
def jsOr (a b : Option Nat) : Option Nat :=
  if jsTruthy a then a else b

/-- `measureData` of src/BlobBuffer.mjs:
`let result = data.byteLength || data.length || data.size;` followed by an
integrality check (`undefined` is not an integer). -/
def measureData (d : JSDatum) : Except String Nat :=
  match jsOr d.byteLengthProp (jsOr d.lengthProp d.sizeProp) with
  | some n => .ok n
  | none => .error "Failed to determine size of element"

/-- A buffered chunk of the memory-mode sink: `{offset, data, length}` with
the data already materialised to bytes. -/
structure Chunk where
  offset : Nat
  data : List Nat
deriving DecidableEq, Repr

/-- Memory-mode `BlobBuffer` state: chunk list, seek cursor, high-water mark. -/
structure BlobBuffer where
  buffer : List Chunk := []
  pos : Nat := 0
  length : Nat := 0
deriving DecidableEq, Repr

/-- Splicing `d` into `base` at relative offset `rel`
(JavaScript `entry.data.set(newEntry.data, rel)`). -/
def splice (base : List Nat) (rel : Nat) (d : List Nat) : List Nat :=
  base.take rel ++ d ++ base.drop (rel + d.length)

/-- The chunk-overwrite search loop of `BlobBuffer.write`: returns
`some buffer` when an overlapping chunk was handled (swap or splice),
`none` when no chunk overlapped (caller appends), and an error when the
write crosses a chunk boundary. -/
def overwriteScan (o len : Nat) (d : List Nat) :
    List Chunk → Except String (Option (List Chunk))
  | [] => .ok none
  | e :: rest =>
    if o + len ≤ e.offset ∨ o ≥ e.offset + e.data.length then
      (overwriteScan o len d rest).map (fun r => r.map (fun l => e :: l))
    else if o < e.offset ∨ o + len > e.offset + e.data.length then
      .error "Overwrite crosses blob boundaries"
    else if o = e.offset ∧ len = e.data.length then
      .ok (some ({ offset := e.offset, data := d } :: rest))
    else
      .ok (some ({ offset := e.offset, data := splice e.data (o - e.offset) d } :: rest))

/-- `BlobBuffer.write` (memory mode).  Measures the datum, advances the
cursor and high-water mark, then either appends (`isAppend`) or runs the
overwrite scan, falling through to an append when no chunk overlapped. -/
def BlobBuffer.write (bb : BlobBuffer) (d : JSDatum) : Except String BlobBuffer :=
  match measureData d with
  | .error e => .error e
  | .ok len =>
    if bb.pos ≥ bb.length then
      .ok { buffer := bb.buffer ++ [{ offset := bb.pos, data := d.bytes }],
            pos := bb.pos + len, length := max bb.length (bb.pos + len) }
    else
      match overwriteScan bb.pos len d.bytes bb.buffer with
      | .error e => .error e
      | .ok (some buf2) =>
        .ok { buffer := buf2, pos := bb.pos + len, length := max bb.length (bb.pos + len) }
      | .ok none =>
        .ok { buffer := bb.buffer ++ [{ offset := bb.pos, data := d.bytes }],
              pos := bb.pos + len, length := max bb.length (bb.pos + len) }

/-- `BlobBuffer.seek` restricted to natural offsets (the muxer only seeks to
previously recorded natural positions; the full guard chain including the
negative/NaN cases is modelled separately as `BlobBufferJS.seek`). -/
def BlobBuffer.seek (bb : BlobBuffer) (offset : Nat) : Except String BlobBuffer :=
  if offset > bb.length then .error "Seeking beyond the end of file is not allowed"
  else .ok { bb with pos := offset }

/-- Concatenation of the buffered chunk datas, in list order. -/
def chunksBytes (buffer : List Chunk) : List Nat :=
  (buffer.map Chunk.data).flatten

/-- `BlobBuffer.complete` (memory mode): the returned blob's bytes. -/
def BlobBuffer.complete (bb : BlobBuffer) : List Nat :=
  chunksBytes bb.buffer

/-- One public sink operation. -/
inductive Op where
  | seek (offset : Nat)
  | write (d : JSDatum)
deriving DecidableEq, Repr

/-- Run a list of operations against the sink. -/
def BlobBuffer.runOps (bb : BlobBuffer) : List Op → Except String BlobBuffer
  | [] => .ok bb
  | .seek n :: rest =>
    match bb.seek n with
    | .error e => .error e
    | .ok bb2 => bb2.runOps rest
  | .write d :: rest =>
    match bb.write d with
    | .error e => .error e
    | .ok bb2 => bb2.runOps rest

/-- The specification-level sink: a flat byte array plus a cursor.  A write
replaces the bytes at `[pos, pos+len)`, extending the array as needed, so the
byte at every position is the one most recently written there. -/
def flatWrite (flat : List Nat) (o : Nat) (d : List Nat) : List Nat :=
  flat.take o ++ d ++ flat.drop (o + d.length)

/-- Specification-level run: same seek guard, writes always succeed once the
datum measures. -/
def specStep : Nat × List Nat → Op → Except String (Nat × List Nat)
  | (_, flat), .seek n =>
    if n > flat.length then .error "Seeking beyond the end of file is not allowed"
    else .ok (n, flat)
  | (p, flat), .write d =>
    match measureData d with
    | .error e => .error e
    | .ok len => .ok (p + len, flatWrite flat p d.bytes)

def specRun : Nat × List Nat → List Op → Except String (Nat × List Nat)
  | s, [] => .ok s
  | s, op :: rest =>
    match specStep s op with
    | .error e => .error e
    | .ok s2 => specRun s2 rest

/-! ### Basic facts about measurement and splicing -/

theorem measureData_ok {d : JSDatum} {n : Nat} (h : measureData d = .ok n) :
    n = d.bytes.length := by
  cases d <;>
    simp only [measureData, JSDatum.byteLengthProp, JSDatum.lengthProp, JSDatum.sizeProp,
      jsOr, jsTruthy, JSDatum.bytes] at h ⊢ <;>
    split_ifs at h <;> simp_all

theorem measureData_of_ne_nil {d : JSDatum} (h : d.bytes ≠ []) :
    measureData d = .ok d.bytes.length := by
  cases d <;>
    simp only [measureData, JSDatum.byteLengthProp, JSDatum.lengthProp, JSDatum.sizeProp,
      jsOr, jsTruthy, JSDatum.bytes] at h ⊢ <;>
    split_ifs <;> simp_all

theorem splice_length {base d : List Nat} {rel : Nat} (h : rel + d.length ≤ base.length) :
    (splice base rel d).length = base.length := by
  simp only [splice, List.length_append, List.length_take, List.length_drop]
  omega

theorem splice_nil (base : List Nat) (rel : Nat) : splice base rel [] = base := by
  simp [splice]

theorem splice_full {base d : List Nat} (h : d.length = base.length) :
    splice base 0 d = d := by
  simp [splice, List.drop_eq_nil_of_le, h.ge]

theorem splice_append_left {a b d : List Nat} {rel : Nat} (h : rel + d.length ≤ a.length) :
    splice (a ++ b) rel d = splice a rel d ++ b := by
  simp only [splice, List.take_append_eq_append_take, List.drop_append_eq_append_drop]
  have h1 : rel - a.length = 0 := by omega
  have h2 : rel + d.length - a.length = 0 := by omega
  simp [h1, h2]

theorem splice_append_right {a b d : List Nat} {rel : Nat} (h : a.length ≤ rel) :
    splice (a ++ b) rel d = a ++ splice b (rel - a.length) d := by
  simp only [splice, List.take_append_eq_append_take, List.drop_append_eq_append_drop]
  have h1 : min rel a.length = a.length := by omega
  have h2 : rel + d.length - a.length = rel - a.length + d.length := by omega
  simp [List.take_of_length_le (by omega : a.length ≤ rel), h2,
    List.drop_eq_nil_of_le (by omega : a.length ≤ rel + d.length)]

/-! ### Chunk tiling invariant -/

theorem chunksBytes_nil : chunksBytes [] = [] := rfl

theorem chunksBytes_cons (c : Chunk) (l : List Chunk) :
    chunksBytes (c :: l) = c.data ++ chunksBytes l := by
  simp [chunksBytes]

theorem chunksBytes_append (a b : List Chunk) :
    chunksBytes (a ++ b) = chunksBytes a ++ chunksBytes b := by
  simp [chunksBytes]

/-- Real (nonempty) chunks tile the region starting at `o`, in list order;
zero-length chunks may be interleaved anywhere. -/
def realTiledFrom : Nat → List Chunk → Prop
  | _, [] => True
  | o, c :: rest =>
    (c.data = [] ∧ realTiledFrom o rest) ∨
    (c.data ≠ [] ∧ c.offset = o ∧ realTiledFrom (o + c.data.length) rest)

theorem realTiledFrom_nil (o : Nat) : realTiledFrom o [] := trivial

theorem real_chunk_bounds {s : Nat} {buf : List Chunk} (h : realTiledFrom s buf) :
    ∀ c ∈ buf, c.data ≠ [] → s ≤ c.offset ∧
      c.offset + c.data.length ≤ s + (chunksBytes buf).length := by
  induction buf generalizing s with
  | nil => simp
  | cons e rest ih =>
    intro c hc hcne
    rw [chunksBytes_cons, List.length_append]
    rcases h with ⟨he, hrest⟩ | ⟨_, heo, hrest⟩
    · rcases List.mem_cons.mp hc with rfl | hc
      · exact absurd he hcne
      · have := ih hrest c hc hcne
        simp [he]
        omega
    · rcases List.mem_cons.mp hc with rfl | hc
      · omega
      · have := ih hrest c hc hcne
        omega

theorem realTiledFrom_append_zero {s : Nat} {buf : List Chunk} (h : realTiledFrom s buf)
    (o : Nat) : realTiledFrom s (buf ++ [{ offset := o, data := [] }]) := by
  induction buf generalizing s with
  | nil => exact Or.inl ⟨rfl, trivial⟩
  | cons e rest ih =>
    rcases h with ⟨he, hrest⟩ | ⟨hne, heo, hrest⟩
    · exact Or.inl ⟨he, ih hrest⟩
    · exact Or.inr ⟨hne, heo, ih hrest⟩

theorem realTiledFrom_append_real {s : Nat} {buf : List Chunk} (h : realTiledFrom s buf)
    (d : List Nat) :
    realTiledFrom s (buf ++ [{ offset := s + (chunksBytes buf).length, data := d }]) := by
  induction buf generalizing s with
  | nil =>
    rcases eq_or_ne d [] with rfl | hd
    · exact Or.inl ⟨rfl, trivial⟩
    · exact Or.inr ⟨hd, by simp [chunksBytes_nil], trivial⟩
  | cons e rest ih =>
    rcases h with ⟨he, hrest⟩ | ⟨hne, heo, hrest⟩
    · refine Or.inl ⟨he, ?_⟩
      have := ih hrest
      simpa [chunksBytes_cons, he] using this
    · refine Or.inr ⟨hne, heo, ?_⟩
      have := ih hrest
      have harr : s + (chunksBytes (e :: rest)).length =
          (s + e.data.length) + (chunksBytes rest).length := by
        rw [chunksBytes_cons, List.length_append]; omega
      rw [harr]
      exact this

/-- A write of positive length is *contained* when some nonempty chunk of the
buffer fully covers `[o, o + len)`. -/
def containedAt (o len : Nat) (buf : List Chunk) : Prop :=
  ∃ c ∈ buf, c.data ≠ [] ∧ c.offset ≤ o ∧ o + len ≤ c.offset + c.data.length

/-- Full characterization of the overwrite search loop on a tiled buffer:
a contained write splices the containing chunk; a non-contained write inside
the tiled region crosses a boundary; a write past the region falls through. -/
theorem overwriteScan_spec (d : List Nat) (o : Nat) (hd : d ≠ []) :
    ∀ (buf : List Chunk) (s : Nat),
      realTiledFrom s buf → s ≤ o →
      (∀ z ∈ buf, z.data = [] → z.offset ≤ s + (chunksBytes buf).length ∧
        ∀ c ∈ buf, c.data ≠ [] → z.offset ≤ c.offset ∨ z.offset ≥ c.offset + c.data.length) →
      (containedAt o d.length buf →
        ∃ pre c post, buf = pre ++ c :: post ∧ c.data ≠ [] ∧ c.offset ≤ o ∧
          o + d.length ≤ c.offset + c.data.length ∧
          overwriteScan o d.length d buf =
            .ok (some (pre ++ { offset := c.offset, data := splice c.data (o - c.offset) d } :: post)) ∧
          chunksBytes (pre ++ { offset := c.offset, data := splice c.data (o - c.offset) d } :: post) =
            splice (chunksBytes buf) (o - s) d ∧
          realTiledFrom s
            (pre ++ { offset := c.offset, data := splice c.data (o - c.offset) d } :: post)) ∧
      (¬ containedAt o d.length buf →
        (o < s + (chunksBytes buf).length →
          overwriteScan o d.length d buf = .error "Overwrite crosses blob boundaries") ∧
        (s + (chunksBytes buf).length ≤ o → overwriteScan o d.length d buf = .ok none)) := by
  have hdl : 0 < d.length := List.length_pos.mpr hd
  intro buf
  induction buf with
  | nil =>
    intro s _ hso _
    refine ⟨fun hc => ?_, fun _ => ⟨fun hlt => ?_, fun _ => rfl⟩⟩
    · rcases hc with ⟨c, hc, _⟩; simp at hc
    · rw [chunksBytes_nil] at hlt; simp at hlt; omega
  | cons e rest ih =>
    intro s htiled hso hz
    have hzrest : ∀ z ∈ rest, z.data = [] →
        z.offset ≤ (s + e.data.length) + (chunksBytes rest).length ∧
        ∀ c ∈ rest, c.data ≠ [] → z.offset ≤ c.offset ∨ z.offset ≥ c.offset + c.data.length := by
      intro z hzm hze
      have h1 := hz z (List.mem_cons_of_mem _ hzm) hze
      refine ⟨?_, fun c hcm hcne => h1.2 c (List.mem_cons_of_mem _ hcm) hcne⟩
      rw [chunksBytes_cons, List.length_append] at h1
      omega
    rcases htiled with ⟨he, hrest⟩ | ⟨hne, heo, hrest⟩
    · -- `e` is a zero-length chunk
      have hlen0 : e.data.length = 0 := by simp [he]
      have hcb : chunksBytes (e :: rest) = chunksBytes rest := by
        rw [chunksBytes_cons, he]; rfl
      have hzrest0 : ∀ z ∈ rest, z.data = [] →
          z.offset ≤ s + (chunksBytes rest).length ∧
          ∀ c ∈ rest, c.data ≠ [] → z.offset ≤ c.offset ∨ z.offset ≥ c.offset + c.data.length := by
        intro z hzm hze
        have := hzrest z hzm hze
        constructor
        · omega
        · exact this.2
      have hcont : containedAt o d.length (e :: rest) ↔ containedAt o d.length rest := by
        constructor
        · rintro ⟨c, hcm, hcne, h1, h2⟩
          rcases List.mem_cons.mp hcm with rfl | hcm
          · exact absurd he hcne
          · exact ⟨c, hcm, hcne, h1, h2⟩
        · rintro ⟨c, hcm, hcne, h1, h2⟩
          exact ⟨c, List.mem_cons_of_mem _ hcm, hcne, h1, h2⟩
      by_cases hskip : o + d.length ≤ e.offset ∨ o ≥ e.offset + e.data.length
      · -- the zero chunk is skipped
        have hscan : overwriteScan o d.length d (e :: rest) =
            (overwriteScan o d.length d rest).map (fun r => r.map (fun l => e :: l)) := by
          rw [overwriteScan, if_pos hskip]
        have hih := ih s hrest hso hzrest0
        refine ⟨fun hc => ?_, fun hc => ⟨fun hlt => ?_, fun hge => ?_⟩⟩
        · rcases hih.1 (hcont.mp hc) with ⟨pre, c, post, hbuf, hcne, h1, h2, hv, hflat, htl⟩
          refine ⟨e :: pre, c, post, by simp [hbuf], hcne, h1, h2, ?_, ?_, ?_⟩
          · rw [hscan, hv]; rfl
          · rw [List.cons_append, chunksBytes_cons, hflat, hcb, he]
            rfl
          · exact Or.inl ⟨he, htl⟩
        · rw [hscan, (hih.2 (fun hcc => hc (hcont.mpr hcc))).1 (by rw [hcb] at hlt; omega)]
          rfl
        · rw [hscan, (hih.2 (fun hcc => hc (hcont.mpr hcc))).2 (by rw [hcb] at hge; omega)]
          rfl
      · -- the zero chunk overlaps: the write necessarily crosses its offset
        push_neg at hskip
        have hko : o < e.offset := by omega
        have hscan : overwriteScan o d.length d (e :: rest) =
            .error "Overwrite crosses blob boundaries" := by
          rw [overwriteScan, if_neg (by push_neg; exact ⟨by omega, by omega⟩),
            if_pos (Or.inl hko)]
        have hnc : ¬ containedAt o d.length (e :: rest) := by
          rintro ⟨c, hcm, hcne, h1, h2⟩
          rcases List.mem_cons.mp hcm with rfl | hcm
          · exact hcne he
          · have := (hz e (List.mem_cons_self _ _) he).2 c (List.mem_cons_of_mem _ hcm) hcne
            omega
        refine ⟨fun hc => absurd hc hnc, fun _ => ⟨fun _ => hscan, fun hge => ?_⟩⟩
        · have := (hz e (List.mem_cons_self _ _) he).1
          omega
    · -- `e` is a real chunk starting at `s`
      have hL : 0 < e.data.length := List.length_pos.mpr hne
      by_cases hro : o ≥ s + e.data.length
      · -- the write lies beyond `e`: skip it
        have hskip : o + d.length ≤ e.offset ∨ o ≥ e.offset + e.data.length := by
          right; omega
        have hscan : overwriteScan o d.length d (e :: rest) =
            (overwriteScan o d.length d rest).map (fun r => r.map (fun l => e :: l)) := by
          rw [overwriteScan, if_pos hskip]
        have hih := ih (s + e.data.length) hrest (by omega) hzrest
        have hcont : containedAt o d.length (e :: rest) ↔ containedAt o d.length rest := by
          constructor
          · rintro ⟨c, hcm, hcne, h1, h2⟩
            rcases List.mem_cons.mp hcm with rfl | hcm
            · omega
            · exact ⟨c, hcm, hcne, h1, h2⟩
          · rintro ⟨c, hcm, hcne, h1, h2⟩
            exact ⟨c, List.mem_cons_of_mem _ hcm, hcne, h1, h2⟩
        refine ⟨fun hc => ?_, fun hc => ⟨fun hlt => ?_, fun hge => ?_⟩⟩
        · rcases hih.1 (hcont.mp hc) with ⟨pre, c, post, hbuf, hcne, h1, h2, hv, hflat, htl⟩
          refine ⟨e :: pre, c, post, by simp [hbuf], hcne, h1, h2, ?_, ?_, ?_⟩
          · rw [hscan, hv]; rfl
          · rw [List.cons_append, chunksBytes_cons, hflat, chunksBytes_cons,
              splice_append_right (by omega : e.data.length ≤ o - s)]
            have : o - s - e.data.length = o - (s + e.data.length) := by omega
            rw [this]
          · exact Or.inr ⟨hne, heo, htl⟩
        · rw [hscan, (hih.2 (fun hcc => hc (hcont.mpr hcc))).1
            (by rw [chunksBytes_cons, List.length_append] at hlt; omega)]
          rfl
        · rw [hscan, (hih.2 (fun hcc => hc (hcont.mpr hcc))).2
            (by rw [chunksBytes_cons, List.length_append] at hge; omega)]
          rfl
      · -- the write starts inside `e`
        push_neg at hro
        have hnoskip : ¬ (o + d.length ≤ e.offset ∨ o ≥ e.offset + e.data.length) := by
          push_neg
          constructor <;> omega
        by_cases hcross : o + d.length > e.offset + e.data.length
        · -- crosses the end of `e`
          have hscan : overwriteScan o d.length d (e :: rest) =
              .error "Overwrite crosses blob boundaries" := by
            rw [overwriteScan, if_neg hnoskip, if_pos (Or.inr hcross)]
          have hnc : ¬ containedAt o d.length (e :: rest) := by
            rintro ⟨c, hcm, hcne, h1, h2⟩
            rcases List.mem_cons.mp hcm with rfl | hcm
            · omega
            · have := (real_chunk_bounds hrest c hcm hcne).1
              omega
          refine ⟨fun hc => absurd hc hnc, fun _ => ⟨fun _ => hscan, fun hge => ?_⟩⟩
          rw [chunksBytes_cons, List.length_append] at hge
          omega
        · -- contained in `e`
          push_neg at hcross
          have hcontained : o - e.offset + d.length ≤ e.data.length := by omega
          have hsne : splice e.data (o - e.offset) d ≠ [] := by
            intro habs
            have := splice_length hcontained
            rw [habs] at this
            simp at this
            omega
          have hslen : (splice e.data (o - e.offset) d).length = e.data.length :=
            splice_length hcontained
          have hres : overwriteScan o d.length d (e :: rest) =
              .ok (some ({ offset := e.offset, data := splice e.data (o - e.offset) d } :: rest)) := by
            rw [overwriteScan, if_neg hnoskip, if_neg (by push_neg; constructor <;> omega)]
            by_cases hex : o = e.offset ∧ d.length = e.data.length
            · rw [if_pos hex]
              have : splice e.data (o - e.offset) d = d := by
                rw [hex.1, Nat.sub_self]
                exact splice_full hex.2
              rw [this]
            · rw [if_neg hex]
          refine ⟨fun _ => ?_, fun hc => ?_⟩
          · refine ⟨[], e, rest, by simp, hne, by omega, by omega, hres, ?_, ?_⟩
            · rw [List.nil_append, chunksBytes_cons, chunksBytes_cons]
              have heos : o - e.offset = o - s := by rw [heo]
              rw [heos.symm, splice_append_left (by omega)]
            · refine Or.inr ⟨hsne, heo, ?_⟩
              rw [hslen]
              exact hrest
          · exact absurd ⟨e, List.mem_cons_self _ _, hne, by omega, by omega⟩ hc

/-- The scan for a zero-length write: a no-op splice inside a chunk interior,
or a fall-through when the offset touches no chunk interior. -/
theorem overwriteScan_zero (o : Nat) :
    ∀ (buf : List Chunk) (s : Nat), realTiledFrom s buf →
      overwriteScan o 0 [] buf = .ok (some buf) ∨
      (overwriteScan o 0 [] buf = .ok none ∧
        ∀ c ∈ buf, c.data ≠ [] → o ≤ c.offset ∨ o ≥ c.offset + c.data.length) := by
  intro buf
  induction buf with
  | nil => exact fun s _ => Or.inr ⟨rfl, by simp⟩
  | cons e rest ih =>
    intro s htiled
    rcases htiled with ⟨he, hrest⟩ | ⟨hne, heo, hrest⟩
    · -- zero chunk: always skipped
      have hskip : o + 0 ≤ e.offset ∨ o ≥ e.offset + e.data.length := by
        rw [he]
        simp only [List.length_nil, Nat.add_zero]
        omega
      have hscan : overwriteScan o 0 [] (e :: rest) =
          (overwriteScan o 0 [] rest).map (fun r => r.map (fun l => e :: l)) := by
        rw [overwriteScan, if_pos hskip]
      rcases ih s hrest with hv | ⟨hv, hall⟩
      · left; rw [hscan, hv]; rfl
      · right
        refine ⟨by rw [hscan, hv]; rfl, ?_⟩
        intro c hcm hcne
        rcases List.mem_cons.mp hcm with rfl | hcm
        · exact absurd he hcne
        · exact hall c hcm hcne
    · by_cases hskip : o + 0 ≤ e.offset ∨ o ≥ e.offset + e.data.length
      · have hscan : overwriteScan o 0 [] (e :: rest) =
            (overwriteScan o 0 [] rest).map (fun r => r.map (fun l => e :: l)) := by
          rw [overwriteScan, if_pos hskip]
        rcases ih (s + e.data.length) hrest with hv | ⟨hv, hall⟩
        · left; rw [hscan, hv]; rfl
        · right
          refine ⟨by rw [hscan, hv]; rfl, ?_⟩
          intro c hcm hcne
          rcases List.mem_cons.mp hcm with rfl | hcm
          · omega
          · exact hall c hcm hcne
      · push_neg at hskip
        left
        rw [overwriteScan, if_neg (by push_neg; exact hskip),
          if_neg (by push_neg; constructor <;> omega),
          if_neg (by rintro ⟨h1, h2⟩; have := List.length_pos.mpr hne; omega)]
        have : splice e.data (o - e.offset) [] = e.data := splice_nil _ _
        rw [this]

/-- The reachable-state invariant of the memory sink. -/
structure SinkInv (bb : BlobBuffer) : Prop where
  tiled : realTiledFrom 0 bb.buffer
  len_eq : bb.length = (chunksBytes bb.buffer).length
  pos_le : bb.pos ≤ bb.length
  zsep : ∀ z ∈ bb.buffer, z.data = [] → z.offset ≤ bb.length ∧
    ∀ c ∈ bb.buffer, c.data ≠ [] → z.offset ≤ c.offset ∨ z.offset ≥ c.offset + c.data.length

theorem SinkInv.init : SinkInv {} :=
  ⟨trivial, rfl, Nat.le_refl 0, by simp⟩

theorem flatWrite_append {o : Nat} {flat d : List Nat} (h : flat.length ≤ o) :
    flatWrite flat o d = flat ++ d := by
  rw [flatWrite, List.take_of_length_le h, List.drop_eq_nil_of_le (by omega), List.append_nil]

theorem flatWrite_nil (flat : List Nat) (o : Nat) : flatWrite flat o [] = flat := by
  show flat.take o ++ [] ++ flat.drop (o + 0) = flat
  rw [List.append_nil, Nat.add_zero, List.take_append_drop]

/-- A successful `write` preserves the sink invariant and acts on the
flattened bytes exactly as the flat-array specification does. -/
theorem write_step {bb : BlobBuffer} {d : JSDatum} {bb2 : BlobBuffer}
    (hInv : SinkInv bb) (h : bb.write d = .ok bb2) :
    SinkInv bb2 ∧ bb2.pos = bb.pos + d.bytes.length ∧
    bb2.length = max bb.length (bb.pos + d.bytes.length) ∧
    chunksBytes bb2.buffer = flatWrite (chunksBytes bb.buffer) bb.pos d.bytes := by
  rcases hInv with ⟨htiled, hlen, hpos, hzsep⟩
  cases hm : measureData d with
  | error e => rw [BlobBuffer.write, hm] at h; exact absurd h (by simp)
  | ok len =>
  have hlmeas : len = d.bytes.length := measureData_ok hm
  subst hlmeas
  simp only [BlobBuffer.write, hm] at h
  by_cases hA : bb.pos ≥ bb.length
  · -- pure append at the end of file
    rw [if_pos hA] at h
    have hoe : bb.pos = bb.length := le_antisymm hpos hA
    cases h
    have hflat : chunksBytes (bb.buffer ++ [{ offset := bb.pos, data := d.bytes }]) =
        chunksBytes bb.buffer ++ d.bytes := by
      rw [chunksBytes_append, chunksBytes_cons, chunksBytes_nil, List.append_nil]
    refine ⟨⟨?_, ?_, ?_, ?_⟩, rfl, rfl, ?_⟩
    · rcases eq_or_ne d.bytes [] with hnil | hne
      · rw [hnil]
        exact realTiledFrom_append_zero htiled bb.pos
      · have : bb.pos = 0 + (chunksBytes bb.buffer).length := by
          rw [hoe, hlen]; omega
        rw [this]
        exact realTiledFrom_append_real htiled d.bytes
    · simp only [hflat, List.length_append]
      omega
    · simp only
      omega
    · intro z hz hze
      simp only
      constructor
      · rcases List.mem_append.mp hz with hz | hz
        · have := (hzsep z hz hze).1; omega
        · simp at hz
          rw [hz]; simp
      · intro c hc hcne
        rcases List.mem_append.mp hz with hz | hz
        · rcases List.mem_append.mp hc with hc | hc
          · exact (hzsep z hz hze).2 c hc hcne
          · simp at hc
            have := (hzsep z hz hze).1
            left
            rw [hc]
            simpa [hoe] using this
        · simp at hz
          rcases List.mem_append.mp hc with hc | hc
          · have := (real_chunk_bounds htiled c hc hcne).2
            right
            rw [hz]
            simp only
            rw [hoe, hlen]
            omega
          · simp at hc
            rw [hz] at hze
            rw [hc] at hcne
            simp only at hze
            exact absurd hze hcne
    · rw [hflat, flatWrite_append (by omega)]
  · -- overwrite of existing data
    rw [if_neg hA] at h
    push_neg at hA
    rcases eq_or_ne d.bytes [] with hnil | hne
    · -- zero-length datum (a zero-size Blob): no-op splice or a zero chunk
      rw [hnil] at h ⊢
      simp only [List.length_nil, Nat.add_zero] at h ⊢
      have hmax : max bb.length bb.pos = bb.length := by omega
      rcases overwriteScan_zero bb.pos bb.buffer 0 htiled with hv | ⟨hv, hall⟩
      · rw [hv] at h
        cases h
        exact ⟨⟨htiled, by simp only; omega, by simp only; omega,
          by simpa [hmax] using hzsep⟩, rfl, by simp, by rw [flatWrite_nil]⟩
      · rw [hv] at h
        cases h
        refine ⟨⟨?_, ?_, ?_, ?_⟩, rfl, by simp, ?_⟩
        · exact realTiledFrom_append_zero htiled bb.pos
        · simp only [chunksBytes_append, chunksBytes_cons, chunksBytes_nil, hmax]
          simpa using hlen
        · simp only [hmax]; exact hpos
        · intro z hz hze
          simp only [hmax]
          constructor
          · rcases List.mem_append.mp hz with hz | hz
            · exact (hzsep z hz hze).1
            · simp at hz; rw [hz]; exact hpos
          · intro c hc hcne
            have hcold : c ∈ bb.buffer := by
              rcases List.mem_append.mp hc with hc | hc
              · exact hc
              · simp at hc
                rw [hc] at hcne
                simp at hcne
            rcases List.mem_append.mp hz with hz | hz
            · exact (hzsep z hz hze).2 c hcold hcne
            · simp at hz
              rw [hz]
              exact hall c hcold hcne
        · rw [chunksBytes_append, chunksBytes_cons, chunksBytes_nil, List.append_nil,
            List.append_nil, flatWrite_nil]
    · -- positive-length overwrite: the scan characterization applies
      have hspec := overwriteScan_spec d.bytes bb.pos hne bb.buffer 0 htiled (Nat.zero_le _)
        (by
          intro z hz hze
          refine ⟨?_, (hzsep z hz hze).2⟩
          have := (hzsep z hz hze).1
          omega)
      by_cases hcont : containedAt bb.pos d.bytes.length bb.buffer
      · rcases hspec.1 hcont with ⟨pre, c, post, hbuf, hcne, h1, h2, hv, hflat, htl⟩
        rw [hv] at h
        cases h
        have hcb : c.offset + c.data.length ≤ bb.length := by
          rw [hlen]
          have := (real_chunk_bounds htiled c (by rw [hbuf]; simp) hcne).2
          omega
        have hmax : max bb.length (bb.pos + d.bytes.length) = bb.length := by omega
        have hsplen : (splice c.data (bb.pos - c.offset) d.bytes).length = c.data.length :=
          splice_length (by omega)
        have hsne : splice c.data (bb.pos - c.offset) d.bytes ≠ [] := by
          intro habs
          rw [habs] at hsplen
          have := List.length_pos.mpr hcne
          simp at hsplen
          omega
        have hflat2 : chunksBytes (pre ++ { offset := c.offset, data := splice c.data (bb.pos - c.offset) d.bytes } :: post) = flatWrite (chunksBytes bb.buffer) bb.pos d.bytes := by
          rw [hflat, Nat.sub_zero]; rfl
        refine ⟨⟨htl, ?_, ?_, ?_⟩, rfl, rfl, hflat2⟩
        · simp only [hmax, hflat2, flatWrite]
          simp only [List.length_append, List.length_take, List.length_drop]
          rw [hlen]
          have : bb.pos + d.bytes.length ≤ (chunksBytes bb.buffer).length := by omega
          omega
        · simp only [hmax]; omega
        · intro z hz hze
          simp only [hmax]
          have hznew : z ≠ { offset := c.offset, data := splice c.data (bb.pos - c.offset) d.bytes } := by
            intro habs
            rw [habs] at hze
            exact hsne hze
          have hzold : z ∈ bb.buffer := by
            rw [hbuf]
            rcases List.mem_append.mp hz with hz | hz
            · exact List.mem_append.mpr (Or.inl hz)
            · rcases List.mem_cons.mp hz with hz | hz
              · exact absurd hz hznew
              · exact List.mem_append.mpr (Or.inr (List.mem_cons_of_mem _ hz))
          refine ⟨(hzsep z hzold hze).1, ?_⟩
          intro c2 hc2 hc2ne
          rcases List.mem_append.mp hc2 with hc2 | hc2
          · exact (hzsep z hzold hze).2 c2 (by rw [hbuf]; exact List.mem_append.mpr (Or.inl hc2)) hc2ne
          · rcases List.mem_cons.mp hc2 with hc2 | hc2
            · rw [hc2]
              simp only [hsplen]
              exact (hzsep z hzold hze).2 c (by rw [hbuf]; simp) hcne
            · exact (hzsep z hzold hze).2 c2
                (by rw [hbuf]; exact List.mem_append.mpr (Or.inr (List.mem_cons_of_mem _ hc2))) hc2ne
      · exfalso
        have h2 := hspec.2 hcont
        rw [h2.1 (by omega)] at h
        simp at h

/-- Simulation: a successful concrete run is matched by the flat-array
specification run, step by step. -/
theorem runOps_sim {bb : BlobBuffer} (hInv : SinkInv bb) :
    ∀ (ops : List Op) {bb2 : BlobBuffer}, bb.runOps ops = .ok bb2 →
      SinkInv bb2 ∧ specRun (bb.pos, chunksBytes bb.buffer) ops =
        .ok (bb2.pos, chunksBytes bb2.buffer) := by
  intro ops
  induction ops generalizing bb with
  | nil =>
    intro bb2 h
    rw [BlobBuffer.runOps] at h
    cases h
    exact ⟨hInv, rfl⟩
  | cons op rest ih =>
    intro bb2 h
    cases op with
    | seek n =>
      rw [BlobBuffer.runOps] at h
      by_cases hg : n > bb.length
      · rw [BlobBuffer.seek, if_pos hg] at h
        simp at h
      · rw [BlobBuffer.seek, if_neg hg] at h
        have hInv2 : SinkInv { bb with pos := n } :=
          ⟨hInv.tiled, hInv.len_eq, by simp only; omega, by
            intro z hz hze
            exact hInv.zsep z hz hze⟩
        have hrec := ih hInv2 h
        refine ⟨hrec.1, ?_⟩
        rw [specRun, specStep, if_neg (by rw [← hInv.len_eq]; exact hg)]
        exact hrec.2
    | write d =>
      rw [BlobBuffer.runOps] at h
      cases hw : bb.write d with
      | error e => rw [hw] at h; simp at h
      | ok bbw =>
        rw [hw] at h
        have hstep := write_step hInv hw
        have hrec := ih hstep.1 h
        refine ⟨hrec.1, ?_⟩
        have hm : measureData d = .ok d.bytes.length := by
          cases hm2 : measureData d with
          | error e => rw [BlobBuffer.write, hm2] at hw; simp at hw
          | ok len => rw [← measureData_ok hm2]
        simp only [specRun, specStep, hm]
        rw [← hstep.2.2.2, ← hstep.2.1]
        exact hrec.2

/-- C1: for every sequence of writes and seeks accepted by a memory-mode
`BlobBuffer`, the blob returned by `complete()` equals the concatenation of
the writes in positional order accounting for overwrites (the flat-array
semantics, where each byte at position `p` is the one most recently written
to offset `p`), and the blob's size equals the sink's `length`. -/
theorem c1_memory_sink_materialization (ops : List Op) (bb : BlobBuffer)
    (h : BlobBuffer.runOps {} ops = .ok bb) :
    ∃ p flat, specRun (0, []) ops = .ok (p, flat) ∧
      bb.complete = flat ∧ bb.complete.length = bb.length ∧ bb.pos = p := by
  have hsim := runOps_sim SinkInv.init ops h
  exact ⟨bb.pos, chunksBytes bb.buffer, hsim.2, rfl, hsim.1.len_eq.symm, rfl⟩

/-- C1 witness: the scenario of the BlobBuffer unit test, with an in-chunk
overwrite, evaluated concretely. -/
theorem c1_witness :
    ∃ p flat,
      specRun (0, []) [.write (.u8arr [72, 101, 108, 108, 111, 44, 32]),
        .write (.str [119, 111, 114, 108, 100]), .write (.u8arr [63, 33]),
        .write (.abuf [63, 33]), .seek 2, .write (.str [45, 109, 97, 110])] = .ok (p, flat) ∧
      BlobBuffer.complete { buffer := [{ offset := 0, data := [72, 101, 45, 109, 97, 110, 32] }, { offset := 7, data := [119, 111, 114, 108, 100] }, { offset := 12, data := [63, 33] }, { offset := 14, data := [63, 33] }], pos := 6, length := 16 } = flat ∧
      (BlobBuffer.complete { buffer := [{ offset := 0, data := [72, 101, 45, 109, 97, 110, 32] }, { offset := 7, data := [119, 111, 114, 108, 100] }, { offset := 12, data := [63, 33] }, { offset := 14, data := [63, 33] }], pos := 6, length := 16 }).length = 16 ∧
      (6 : Nat) = p :=
  c1_memory_sink_materialization _ _ (by decide)

/-- The sink invariant holds in every reachable state. -/
theorem reachable_SinkInv {bb : BlobBuffer}
    (h : ∃ ops, BlobBuffer.runOps {} ops = .ok bb) : SinkInv bb := by
  rcases h with ⟨ops, h⟩
  exact (runOps_sim SinkInv.init ops h).1

/-- C2 (amended): on a reachable memory-mode sink, a write of positive
length `l` at offset `o < length` succeeds iff `o + l <= length` and
`[o, o+l)` lies within a single existing chunk; an overlap that crosses a
chunk boundary fails with the overwrite-crossing error; on success the new
bytes are spliced into the containing chunk at the relative offset (an exact
replacement degenerates to swapping the whole data).  Zero-length writes are
excluded: they fail size measurement (or degenerate, for a zero-size Blob). -/
theorem c2_amended_overwrite_containment (bb : BlobBuffer) (d : JSDatum)
    (hreach : ∃ ops, BlobBuffer.runOps {} ops = .ok bb)
    (hlt : bb.pos < bb.length) (hd : d.bytes ≠ []) :
    ((∃ bb2, bb.write d = .ok bb2) ↔
      (bb.pos + d.bytes.length ≤ bb.length ∧
        containedAt bb.pos d.bytes.length bb.buffer)) ∧
    (¬ containedAt bb.pos d.bytes.length bb.buffer →
      bb.write d = .error "Overwrite crosses blob boundaries") ∧
    (∀ bb2, bb.write d = .ok bb2 →
      ∃ pre c post, bb.buffer = pre ++ c :: post ∧ c.data ≠ [] ∧
        c.offset ≤ bb.pos ∧ bb.pos + d.bytes.length ≤ c.offset + c.data.length ∧
        bb2.buffer = pre ++ { offset := c.offset, data := splice c.data (bb.pos - c.offset) d.bytes } :: post ∧
        (bb.pos = c.offset ∧ d.bytes.length = c.data.length →
          splice c.data (bb.pos - c.offset) d.bytes = d.bytes)) := by
  have hInv := reachable_SinkInv hreach
  have hm := measureData_of_ne_nil hd
  have hA : ¬ bb.pos ≥ bb.length := by omega
  have hspec := overwriteScan_spec d.bytes bb.pos hd bb.buffer 0 hInv.tiled (Nat.zero_le _)
    (by
      intro z hz hze
      refine ⟨?_, (hInv.zsep z hz hze).2⟩
      have h1 := (hInv.zsep z hz hze).1
      have h2 := hInv.len_eq
      omega)
  have hwrite_eq : bb.write d =
      (match overwriteScan bb.pos d.bytes.length d.bytes bb.buffer with
        | .error e => .error e
        | .ok (some buf2) => .ok { buffer := buf2, pos := bb.pos + d.bytes.length, length := max bb.length (bb.pos + d.bytes.length) }
        | .ok none => .ok { buffer := bb.buffer ++ [{ offset := bb.pos, data := d.bytes }], pos := bb.pos + d.bytes.length, length := max bb.length (bb.pos + d.bytes.length) }) := by
    simp only [BlobBuffer.write, hm]
    rw [if_neg hA]
  by_cases hcont : containedAt bb.pos d.bytes.length bb.buffer
  · rcases hspec.1 hcont with ⟨pre, c, post, hbuf, hcne, h1, h2, hv, hflat, htl⟩
    have hok : bb.write d = .ok { buffer := pre ++ { offset := c.offset, data := splice c.data (bb.pos - c.offset) d.bytes } :: post, pos := bb.pos + d.bytes.length, length := max bb.length (bb.pos + d.bytes.length) } := by
      rw [hwrite_eq, hv]
    have hbound : bb.pos + d.bytes.length ≤ bb.length := by
      have := (real_chunk_bounds hInv.tiled c (by rw [hbuf]; simp) hcne).2
      have := hInv.len_eq
      omega
    refine ⟨⟨fun _ => ⟨hbound, hcont⟩, fun _ => ⟨_, hok⟩⟩, fun hnc => absurd hcont hnc, ?_⟩
    intro bb2 hw
    rw [hok] at hw
    cases hw
    refine ⟨pre, c, post, hbuf, hcne, h1, h2, rfl, ?_⟩
    rintro ⟨he1, he2⟩
    rw [he1, Nat.sub_self]
    exact splice_full he2
  · have herr : bb.write d = .error "Overwrite crosses blob boundaries" := by
      rw [hwrite_eq, (hspec.2 hcont).1 (by have := hInv.len_eq; omega)]
    refine ⟨⟨?_, ?_⟩, fun _ => herr, ?_⟩
    · rintro ⟨bb2, hw⟩
      rw [herr] at hw
      simp at hw
    · rintro ⟨_, hc⟩
      exact absurd hc hcont
    · intro bb2 hw
      rw [herr] at hw
      simp at hw

/-- C2 counterexample: the claim as stated fails at length zero.  In the
reachable state below, `pos = 1 < length = 5`, `pos + 0 <= length`, and
`[1, 1)` lies within the single existing chunk, yet the write of an empty
`Uint8Array` fails (in size measurement) rather than succeeding. -/
theorem c2_counterexample :
    BlobBuffer.runOps {} [.write (.u8arr [104, 101, 108, 108, 111]), .seek 1] =
      .ok { buffer := [{ offset := 0, data := [104, 101, 108, 108, 111] }], pos := 1, length := 5 } ∧
    (1 : Nat) < 5 ∧ 1 + (0 : Nat) ≤ 5 ∧
    containedAt 1 0 [{ offset := 0, data := [104, 101, 108, 108, 111] }] ∧
    BlobBuffer.write { buffer := [{ offset := 0, data := [104, 101, 108, 108, 111] }], pos := 1, length := 5 } (.u8arr []) =
      .error "Failed to determine size of element" := by
  refine ⟨by decide, by decide, by decide,
    ⟨{ offset := 0, data := [104, 101, 108, 108, 111] }, by decide, by decide, by decide, by decide⟩,
    by decide⟩

/-- C2 witness: a concrete in-chunk overwrite on a reachable state, where the
amended theorem's equivalence produces the successful splice. -/
theorem c2_witness :
    ∃ bb2, BlobBuffer.write { buffer := [{ offset := 0, data := [104, 101, 108, 108, 111] }], pos := 1, length := 5 } (.u8arr [120, 121]) = .ok bb2 :=
  (c2_amended_overwrite_containment _ (.u8arr [120, 121])
    ⟨[.write (.u8arr [104, 101, 108, 108, 111]), .seek 1], by decide⟩
    (by decide) (by decide)).1.mpr
    ⟨by decide, { offset := 0, data := [104, 101, 108, 108, 111] }, by decide, by decide, by decide, by decide⟩

/-! ### The full JavaScript seek guard chain (C9) -/

/-- A JavaScript number: NaN or a (rational) value.  Infinities do not arise
in the seek paths modelled here. -/
inductive JSNum where
  | nan
  | val (q : Rat)
deriving DecidableEq, Repr

/-- JavaScript `<`: any comparison involving NaN is false. -/
def jsLT : JSNum → JSNum → Bool
  | .val a, .val b => a < b
  | _, _ => false

/-- JavaScript `>`: any comparison involving NaN is false. -/
def jsGT : JSNum → JSNum → Bool
  | .val a, .val b => a > b
  | _, _ => false

/-- JavaScript `isNaN`. -/
def JSNum.isNaN : JSNum → Bool
  | .nan => true
  | .val _ => false

/-- The cursor/length pair of a `BlobBuffer`, with JavaScript number
semantics (fractional offsets allowed). -/
structure BlobBufferJS where
  pos : Rat := 0
  length : Rat := 0
deriving DecidableEq, Repr

/-- `BlobBuffer.seek` with its full guard chain, returning the post-state
(a throw leaves the object unchanged) together with an optional error. -/
def BlobBufferJS.seek (bb : BlobBufferJS) (offset : JSNum) : BlobBufferJS × Option String :=
  if jsLT offset (.val 0) then (bb, some "Offset may not be negative")
  else if offset.isNaN then (bb, some "Offset may not be NaN")
  else if jsGT offset (.val bb.length) then
    (bb, some "Seeking beyond the end of file is not allowed")
  else
    match offset with
    | .val q => ({ bb with pos := q }, none)
    | .nan => (bb, none)

/-- Case equation for `seek` at a non-NaN offset. -/
theorem seek_val_eq (bb : BlobBufferJS) (q : Rat) :
    bb.seek (.val q) =
      if q < 0 then (bb, some "Offset may not be negative")
      else if bb.length < q then (bb, some "Seeking beyond the end of file is not allowed")
      else ({ bb with pos := q }, none) := by
  rw [BlobBufferJS.seek]
  simp only [jsLT, jsGT, JSNum.isNaN, Bool.false_eq_true, if_false, decide_eq_true_eq]


/-- C9: `seek(offset)` succeeds and sets `pos` to `offset` iff
`0 <= offset <= length` and `offset` is not NaN; a negative offset fails with
the negative-offset error, NaN with the NaN error, `offset > length` with the
seek-beyond-end error; on any failure the state (hence `pos`) is unchanged. -/
theorem c9_seek_guards (bb : BlobBufferJS) (offset : JSNum) :
    ((bb.seek offset).2 = none ↔
      ∃ q, offset = .val q ∧ 0 ≤ q ∧ q ≤ bb.length) ∧
    (∀ q, offset = .val q → 0 ≤ q → q ≤ bb.length →
      bb.seek offset = ({ bb with pos := q }, none)) ∧
    (∀ q, offset = .val q → q < 0 →
      bb.seek offset = (bb, some "Offset may not be negative")) ∧
    (offset = .nan → bb.seek offset = (bb, some "Offset may not be NaN")) ∧
    (∀ q, offset = .val q → 0 ≤ q → bb.length < q →
      bb.seek offset = (bb, some "Seeking beyond the end of file is not allowed")) ∧
    ((bb.seek offset).2 ≠ none → (bb.seek offset).1 = bb) := by
  cases offset with
  | nan =>
    refine ⟨?_, ?_, ?_, ?_, ?_, ?_⟩ <;>
      simp [BlobBufferJS.seek, jsLT, jsGT, JSNum.isNaN]
  | val q =>
    rw [seek_val_eq]
    refine ⟨?_, ?_, ?_, ?_, ?_, ?_⟩
    · split_ifs with h1 h2 <;> simp
      · intro h; linarith
      · intro h; linarith
      · exact ⟨by linarith, by linarith⟩
    · intro r hr h0 hle
      cases hr
      rw [if_neg (by linarith), if_neg (by linarith)]
    · intro r hr hneg
      cases hr
      rw [if_pos hneg]
    · intro h; cases h
    · intro r hr h0 hgt
      cases hr
      rw [if_neg (by linarith), if_pos hgt]
    · split_ifs with h1 h2 <;> simp

/-- C9 witness: a concrete successful seek through the guard chain. -/
theorem c9_witness :
    BlobBufferJS.seek { pos := 3, length := 10 } (.val 5) = ({ pos := 5, length := 10 }, none) :=
  (c9_seek_guards { pos := 3, length := 10 } (.val 5)).2.1 5 rfl (by norm_num) (by norm_num)

/-! ### Size measurement of zero-length data (C10) -/

/-- C10 counterexample: a zero-size Blob does *not* fail the size probe.
`byteLength` and `length` are absent on a Blob, so the `||`-chain returns the
measured `size`, which is the integer `0`; the write then records a
zero-length chunk. -/
theorem c10_counterexample :
    measureData (.blob []) = .ok 0 ∧
    BlobBuffer.write {} (.blob []) =
      .ok { buffer := [{ offset := 0, data := [] }], pos := 0, length := 0 } := by
  constructor <;> decide

/-- C10 (amended): a zero-length string, `Uint8Array` or `ArrayBuffer` fails
`write` with the size-measurement error (their measured `0` is falsy, so the
probe falls through to an absent property), but a zero-size Blob measures `0`
and is recorded as a zero-length chunk. -/
theorem c10_amended_measure_empty (bb : BlobBuffer) :
    bb.write (.str []) = .error "Failed to determine size of element" ∧
    bb.write (.u8arr []) = .error "Failed to determine size of element" ∧
    bb.write (.abuf []) = .error "Failed to determine size of element" ∧
    (bb.pos ≥ bb.length →
      bb.write (.blob []) =
        .ok { buffer := bb.buffer ++ [{ offset := bb.pos, data := [] }],
              pos := bb.pos, length := max bb.length bb.pos }) := by
  refine ⟨rfl, rfl, rfl, fun hA => ?_⟩
  have hm : measureData (.blob []) = .ok 0 := rfl
  simp only [BlobBuffer.write, hm]
  rw [if_pos hA]
  simp [JSDatum.bytes]

/-- C10 witness: the amended statement at a concrete sink state. -/
theorem c10_witness :
    BlobBuffer.write { buffer := [], pos := 0, length := 0 } (.blob []) =
      .ok { buffer := [{ offset := 0, data := [] }], pos := 0, length := max 0 0 } :=
  (c10_amended_measure_empty { buffer := [], pos := 0, length := 0 }).2.2.2 (by decide)

/-! ### Byte stream writer (`ArrayBufferDataStream`)

The file ArrayBufferDataStream.mjs is not under src/: only its unit tests and
its callers are.  The definitions in this section are therefore modelled from
the spec (section 4.A) and checked against the unit-test vectors. -/

/-- Big-endian base-256 digits of `n`, exactly `w` bytes wide (the low
`8w` bits of `n`). -/
def beBytes : Nat → Nat → List Nat
  | 0, _ => []
  | w + 1, n => beBytes w (n / 256) ++ [n % 256]

/-- The value of a big-endian byte list. -/
def beValue : List Nat → Nat
  | [] => 0
  | b :: rest => b * 256 ^ rest.length + beValue rest

/-- Modelled from the spec: the fixed-capacity scratch byte stream of
ArrayBufferDataStream.mjs (absent from src/), as a byte list plus cursor;
writes overwrite at the cursor and advance it. -/
structure ArrayBufferDataStream where
  data : List Nat
  pos : Nat
deriving DecidableEq, Repr

/-- Modelled from the spec: `write_bytes(bs)` writes at the cursor
(overwriting existing bytes after a backward seek) and advances it. -/
def ArrayBufferDataStream.writeBytes (s : ArrayBufferDataStream) (bs : List Nat) :
    ArrayBufferDataStream :=
  { data := s.data.take s.pos ++ bs ++ s.data.drop (s.pos + bs.length),
    pos := s.pos + bs.length }

/-- Modelled from the spec: `write_byte(b)`. -/
def ArrayBufferDataStream.writeByte (s : ArrayBufferDataStream) (b : Nat) :
    ArrayBufferDataStream :=
  s.writeBytes [b]

/-- Modelled from the spec: `seek(p)` sets the cursor. -/
def ArrayBufferDataStream.seek (s : ArrayBufferDataStream) (p : Nat) :
    ArrayBufferDataStream :=
  { s with pos := p }

/-- Modelled from the spec: `as_bytes()` snapshots `[0..pos)`. -/
def ArrayBufferDataStream.getAsDataArray (s : ArrayBufferDataStream) : List Nat :=
  s.data.take s.pos

/-- Modelled from the spec: `measure_unsigned_int(n)`, 1 to 5 bytes. -/
def measureUnsignedInt (n : Nat) : Nat :=
  if n < 2 ^ 8 then 1
  else if n < 2 ^ 16 then 2
  else if n < 2 ^ 24 then 3
  else if n < 2 ^ 32 then 4
  else 5

/-- Modelled from the spec: `write_unsigned_int_be(n, width?)`; an omitted
width defaults to `measure_unsigned_int(n)`. -/
def ArrayBufferDataStream.writeUnsignedIntBE (s : ArrayBufferDataStream) (n : Nat)
    (w : Option Nat) : ArrayBufferDataStream :=
  s.writeBytes (beBytes (match w with | some k => k | none => measureUnsignedInt n) n)

/-- Modelled from the spec: the byte width chosen by `write_ebml_var_int`,
the smallest `w` with `n < 2^(7w) - 1` (avoiding the all-ones encoding). -/
def ebmlVarIntWidth (n : Nat) : Nat :=
  if n < 2 ^ 7 - 1 then 1
  else if n < 2 ^ 14 - 1 then 2
  else if n < 2 ^ 21 - 1 then 3
  else if n < 2 ^ 28 - 1 then 4
  else if n < 2 ^ 35 - 1 then 5
  else if n < 2 ^ 42 - 1 then 6
  else if n < 2 ^ 49 - 1 then 7
  else 8

/-- Modelled from the spec: the EBML varint encoding of `n` forced to `w`
bytes: marker bit `1` at bit position `7w`, then `n` in the remaining bits. -/
def ebmlVarIntWidthBytes (n w : Nat) : List Nat :=
  beBytes w (n + 2 ^ (7 * w))

/-- Modelled from the spec: the natural-width EBML varint encoding of `n`. -/
def ebmlVarIntBytes (n : Nat) : List Nat :=
  ebmlVarIntWidthBytes n (ebmlVarIntWidth n)

/-- Modelled from the spec: `write_ebml_var_int(n)`. -/
def ArrayBufferDataStream.writeEBMLVarInt (s : ArrayBufferDataStream) (n : Nat) :
    ArrayBufferDataStream :=
  s.writeBytes (ebmlVarIntBytes n)

/-- Modelled from the spec: `write_ebml_var_int_width(n, w)`. -/
def ArrayBufferDataStream.writeEBMLVarIntWidth (s : ArrayBufferDataStream) (n w : Nat) :
    ArrayBufferDataStream :=
  s.writeBytes (ebmlVarIntWidthBytes n w)

/-- Modelled from the spec: `write_u16_be(n)` (block timecodes; negative
values wrap as two's complement). -/
def ArrayBufferDataStream.writeU16BE (s : ArrayBufferDataStream) (t : Int) :
    ArrayBufferDataStream :=
  s.writeBytes (beBytes 2 (t.emod 65536).toNat)

/-- Modelled from the spec: stands for the IEEE-754 big-endian encoding of a
64-bit float.  No claim inspects these bytes, only their count, so the
value-to-bytes map is abstracted to a fixed 8-byte output. -/
def float64BE (_q : Rat) : List Nat :=
  List.replicate 8 0

/-- Modelled from the spec: the 32-bit analogue of `float64BE`. -/
def float32BE (_q : Rat) : List Nat :=
  List.replicate 4 0

/-- Modelled from the spec: `write_double_be(n)`. -/
def ArrayBufferDataStream.writeDoubleBE (s : ArrayBufferDataStream) (q : Rat) :
    ArrayBufferDataStream :=
  s.writeBytes (float64BE q)

/-- Modelled from the spec: `write_float_be(n)`. -/
def ArrayBufferDataStream.writeFloatBE (s : ArrayBufferDataStream) (q : Rat) :
    ArrayBufferDataStream :=
  s.writeBytes (float32BE q)

/-- The varint encoder reproduces every vector of the unit tests
(part_001, "Supports writing EMBL variable-length integers"). -/
theorem ebmlVarIntBytes_test_vectors :
    ebmlVarIntBytes 0 = [0x80] ∧ ebmlVarIntBytes 1 = [0x81] ∧
    ebmlVarIntBytes 2 = [0x82] ∧ ebmlVarIntBytes 126 = [0xFE] ∧
    ebmlVarIntBytes 127 = [0x40, 0x7F] ∧ ebmlVarIntBytes 128 = [0x40, 0x80] ∧
    ebmlVarIntBytes 16382 = [0x7F, 0xFE] ∧
    ebmlVarIntBytes 16383 = [0x20, 0x3F, 0xFF] ∧
    ebmlVarIntBytes 16384 = [0x20, 0x40, 0x00] ∧
    ebmlVarIntBytes 2097150 = [0x3F, 0xFF, 0xFE] ∧
    ebmlVarIntBytes 2097151 = [0x10, 0x1F, 0xFF, 0xFF] ∧
    ebmlVarIntBytes 2097152 = [0x10, 0x20, 0x00, 0x00] ∧
    ebmlVarIntBytes 268435454 = [0x1F, 0xFF, 0xFF, 0xFE] ∧
    ebmlVarIntBytes 268435455 = [0x08, 0x0F, 0xFF, 0xFF, 0xFF] ∧
    ebmlVarIntBytes 268435456 = [0x08, 0x10, 0x00, 0x00, 0x00] ∧
    ebmlVarIntBytes 34359738366 = [0x0F, 0xFF, 0xFF, 0xFF, 0xFE] := by
  decide

/-- The big-endian encoder reproduces every vector of the unit tests
(part_001, "Supports writing big-endian integers"). -/
theorem beBytes_test_vectors :
    beBytes (measureUnsignedInt 0) 0 = [0x00] ∧
    beBytes (measureUnsignedInt 255) 255 = [0xFF] ∧
    beBytes (measureUnsignedInt 256) 256 = [0x01, 0x00] ∧
    beBytes (measureUnsignedInt 65535) 65535 = [0xFF, 0xFF] ∧
    beBytes (measureUnsignedInt 65536) 65536 = [0x01, 0x00, 0x00] ∧
    beBytes (measureUnsignedInt 4294967295) 4294967295 = [0xFF, 0xFF, 0xFF, 0xFF] ∧
    beBytes (measureUnsignedInt 4294967296) 4294967296 = [0x01, 0x00, 0x00, 0x00, 0x00] ∧
    beBytes (measureUnsignedInt 1099511627775) 1099511627775 = [0xFF, 0xFF, 0xFF, 0xFF, 0xFF] := by
  decide

theorem beBytes_length (w n : Nat) : (beBytes w n).length = w := by
  induction w generalizing n with
  | zero => rfl
  | succ w ih => simp [beBytes, ih]

theorem ebmlVarIntWidthBytes_length (n w : Nat) :
    (ebmlVarIntWidthBytes n w).length = w :=
  beBytes_length w _

/-! ### EBML tree serializer (`writeEBML` of src/utils.mjs) -/

/-- `EBML_SIZE_UNKNOWN` of src/utils.mjs. -/
def EBML_SIZE_UNKNOWN : Int := -1

/-- `EBML_SIZE_UNKNOWN_5_BYTES` of src/utils.mjs. -/
def EBML_SIZE_UNKNOWN_5_BYTES : Int := -2

/-- The duck-typed values accepted by `writeEBML`: arrays of siblings, raw
strings and byte arrays, and `{id, size?, data}` elements whose payload is
again such a value (numbers and tagged floats are only meaningful as payload;
at top level they hit the bad-datatype error, as in the source).  `size` is
`none` for an absent field. -/
inductive EBMLValue where
  | list (children : List EBMLValue)
  | str (bytes : List Nat)
  | bytes (b : List Nat)
  | uint (n : Nat)
  | float32 (value : Rat)
  | float64 (value : Rat)
  | elem (id : Nat) (size : Option Int) (data : EBMLValue)
deriving Repr

/-- The offset/size fields that `writeEBML` assigns into the visited nodes:
for each element, the absolute offsets of its id byte and of its first
payload byte, and the final `size` field. -/
inductive EBMLAnn where
  | list (l : List EBMLAnn)
  | leaf
  | elem (offset dataOffset : Nat) (size : Option Int) (sub : EBMLAnn)
deriving Repr

def EBMLAnn.offset : EBMLAnn → Nat
  | .elem o _ _ _ => o
  | _ => 0

def EBMLAnn.dataOffset : EBMLAnn → Nat
  | .elem _ d _ _ => d
  | _ => 0

def EBMLAnn.size : EBMLAnn → Option Int
  | .elem _ _ s _ => s
  | _ => none

def EBMLAnn.children : EBMLAnn → List EBMLAnn
  | .list l => l
  | .elem _ _ _ (.list l) => l
  | _ => []

def EBMLAnn.child (a : EBMLAnn) (i : Nat) : EBMLAnn :=
  a.children.getD i .leaf

mutual

/-- `writeEBML(buffer, bufferFileOffset, ebml)` of src/utils.mjs, returning
the updated stream and the annotations assigned into the tree. -/
def writeEBML (s : ArrayBufferDataStream) (bufferFileOffset : Nat) :
    EBMLValue → Except String (ArrayBufferDataStream × EBMLAnn)
  | .list l =>
    match writeEBMLList s bufferFileOffset l with
    | .error e => .error e
    | .ok (s2, anns) => .ok (s2, .list anns)
  | .str b => .ok (s.writeBytes b, .leaf)
  | .bytes b => .ok (s.writeBytes b, .leaf)
  | .uint _ => .error "Bad EBML datatype"
  | .float32 _ => .error "Bad EBML datatype"
  | .float64 _ => .error "Bad EBML datatype"
  | .elem id size d =>
    if id = 0 then .error "Bad EBML datatype"
    else
      let offset := s.pos + bufferFileOffset
      let s1 := s.writeUnsignedIntBE id none
      match d with
      | .list children =>
        if size = some EBML_SIZE_UNKNOWN then
          match writeEBMLList (s1.writeByte 0xFF) bufferFileOffset children with
          | .error e => .error e
          | .ok (s2, anns) =>
            .ok (s2, .elem offset (s1.pos + 1 + bufferFileOffset) size (.list anns))
        else if size = some EBML_SIZE_UNKNOWN_5_BYTES then
          match writeEBMLList (s1.writeBytes [0x0F, 0xFF, 0xFF, 0xFF, 0xFF])
              bufferFileOffset children with
          | .error e => .error e
          | .ok (s2, anns) =>
            .ok (s2, .elem offset (s1.pos + 5 + bufferFileOffset) size (.list anns))
        else
          let sizePos := s1.pos
          let s2 := s1.writeBytes [0, 0, 0, 0]
          match writeEBMLList s2 bufferFileOffset children with
          | .error e => .error e
          | .ok (s3, anns) =>
            let dataEnd := s3.pos
            let sz := dataEnd - s2.pos
            let s4 := ((s3.seek sizePos).writeEBMLVarIntWidth sz 4).seek dataEnd
            .ok (s4, .elem offset (s2.pos + bufferFileOffset) (some (sz : Int)) (.list anns))
      | .str b =>
        let s2 := s1.writeEBMLVarInt b.length
        .ok (s2.writeBytes b, .elem offset (s2.pos + bufferFileOffset) size .leaf)
      | .uint n =>
        let w : Nat := match size with
          | some k => if k = 0 then measureUnsignedInt n else k.toNat
          | none => measureUnsignedInt n
        let s2 := s1.writeEBMLVarInt w
        .ok (s2.writeUnsignedIntBE n (some w),
          .elem offset (s2.pos + bufferFileOffset) (some (w : Int)) .leaf)
      | .float64 q =>
        let s2 := s1.writeEBMLVarInt 8
        .ok (s2.writeDoubleBE q, .elem offset (s2.pos + bufferFileOffset) size .leaf)
      | .float32 q =>
        let s2 := s1.writeEBMLVarInt 4
        .ok (s2.writeFloatBE q, .elem offset (s2.pos + bufferFileOffset) size .leaf)
      | .bytes b =>
        let s2 := s1.writeEBMLVarInt b.length
        .ok (s2.writeBytes b, .elem offset (s2.pos + bufferFileOffset) size .leaf)
      | .elem _ _ _ => .error "Bad EBML datatype"

/-- Sibling traversal of `writeEBML` over an array. -/
def writeEBMLList (s : ArrayBufferDataStream) (bufferFileOffset : Nat) :
    List EBMLValue → Except String (ArrayBufferDataStream × List EBMLAnn)
  | [] => .ok (s, [])
  | e :: rest =>
    match writeEBML s bufferFileOffset e with
    | .error er => .error er
    | .ok (s2, a) =>
      match writeEBMLList s2 bufferFileOffset rest with
      | .error er => .error er
      | .ok (s3, anns) => .ok (s3, a :: anns)

end

theorem writeBytes_append {s : ArrayBufferDataStream} (h : s.pos = s.data.length)
    (bs : List Nat) :
    s.writeBytes bs = { data := s.data ++ bs, pos := (s.data ++ bs).length } := by
  rw [ArrayBufferDataStream.writeBytes, h]
  congr 1
  · rw [List.take_of_length_le (Nat.le_refl _), List.drop_eq_nil_of_le (by omega),
      List.append_nil]
  · simp

theorem writeBytes2_append {s : ArrayBufferDataStream} (h : s.pos = s.data.length)
    (a b : List Nat) :
    (s.writeBytes a).writeBytes b =
      { data := s.data ++ a ++ b, pos := (s.data ++ a ++ b).length } := by
  rw [writeBytes_append h]
  exact writeBytes_append rfl b

theorem writeBytes3_append {s : ArrayBufferDataStream} (h : s.pos = s.data.length)
    (a b c : List Nat) :
    ((s.writeBytes a).writeBytes b).writeBytes c =
      { data := s.data ++ a ++ b ++ c, pos := (s.data ++ a ++ b ++ c).length } := by
  rw [writeBytes2_append h]
  exact writeBytes_append rfl c

theorem exists_append3 (A x y z : List Nat) : ∃ ex, A ++ x ++ y ++ z = A ++ ex :=
  ⟨x ++ (y ++ z), by simp⟩

mutual

/-- Successful serialization from an end-of-data cursor only ever appends
(patched placeholders lie inside the newly appended region), and leaves the
cursor at the end again. -/
theorem writeEBML_append (e : EBMLValue) :
    ∀ (s : ArrayBufferDataStream) (off : Nat), s.pos = s.data.length →
      ∀ r, writeEBML s off e = .ok r →
        r.1.pos = r.1.data.length ∧ ∃ ex, r.1.data = s.data ++ ex := by
  intro s off hpos r h
  cases e with
  | list l =>
    simp only [writeEBML] at h
    cases hl : writeEBMLList s off l with
    | error er => rw [hl] at h; simp at h
    | ok p =>
      rw [hl] at h
      cases h
      exact writeEBMLList_append l s off hpos p hl
  | str b =>
    simp only [writeEBML] at h
    cases h
    rw [writeBytes_append hpos b]
    exact ⟨rfl, b, rfl⟩
  | bytes b =>
    simp only [writeEBML] at h
    cases h
    rw [writeBytes_append hpos b]
    exact ⟨rfl, b, rfl⟩
  | uint n => simp only [writeEBML] at h; simp at h
  | float32 q => simp only [writeEBML] at h; simp at h
  | float64 q => simp only [writeEBML] at h; simp at h
  | elem id size d =>
    cases d with
    | list children =>
      simp only [writeEBML] at h
      by_cases hid : id = 0
      · rw [if_pos hid] at h; simp at h
      rw [if_neg hid] at h
      simp only [ArrayBufferDataStream.writeUnsignedIntBE, ArrayBufferDataStream.writeByte,
        writeBytes_append hpos] at h
      by_cases hu : size = some EBML_SIZE_UNKNOWN
      · rw [if_pos hu, writeBytes_append rfl] at h
        simp only at h
        cases hl : writeEBMLList { data := s.data ++ beBytes (measureUnsignedInt id) id ++ [0xFF], pos := (s.data ++ beBytes (measureUnsignedInt id) id ++ [0xFF]).length } off children with
        | error er => rw [hl] at h; simp at h
        | ok p =>
          rw [hl] at h
          cases h
          have hrec := writeEBMLList_append children _ off rfl p hl
          refine ⟨hrec.1, ?_⟩
          rcases hrec.2 with ⟨ex, hex⟩
          exact ⟨beBytes (measureUnsignedInt id) id ++ ([0xFF] ++ ex), by simp [hex]⟩
      rw [if_neg hu] at h
      by_cases hu5 : size = some EBML_SIZE_UNKNOWN_5_BYTES
      · rw [if_pos hu5, writeBytes_append rfl] at h
        simp only at h
        cases hl : writeEBMLList { data := s.data ++ beBytes (measureUnsignedInt id) id ++ [0x0F, 0xFF, 0xFF, 0xFF, 0xFF], pos := (s.data ++ beBytes (measureUnsignedInt id) id ++ [0x0F, 0xFF, 0xFF, 0xFF, 0xFF]).length } off children with
        | error er => rw [hl] at h; simp at h
        | ok p =>
          rw [hl] at h
          cases h
          have hrec := writeEBMLList_append children _ off rfl p hl
          refine ⟨hrec.1, ?_⟩
          rcases hrec.2 with ⟨ex, hex⟩
          exact ⟨beBytes (measureUnsignedInt id) id ++ ([0x0F, 0xFF, 0xFF, 0xFF, 0xFF] ++ ex), by simp [hex]⟩
      rw [if_neg hu5, writeBytes_append rfl] at h
      simp only at h
      cases hl : writeEBMLList { data := s.data ++ beBytes (measureUnsignedInt id) id ++ [0, 0, 0, 0], pos := (s.data ++ beBytes (measureUnsignedInt id) id ++ [0, 0, 0, 0]).length } off children with
      | error er => rw [hl] at h; simp at h
      | ok p =>
        rw [hl] at h
        cases h
        have hrec := writeEBMLList_append children _ off rfl p hl
        rcases hrec.2 with ⟨ex, hex⟩
        simp only at hex
        have hexlen : p.1.data.length =
            (s.data ++ beBytes (measureUnsignedInt id) id).length + 4 + ex.length := by
          rw [hex]
          simp only [List.length_append, List.length_cons, List.length_nil]
        constructor
        · simp only [ArrayBufferDataStream.seek, ArrayBufferDataStream.writeEBMLVarIntWidth,
            ArrayBufferDataStream.writeBytes, List.length_append, List.length_take,
            List.length_drop, ebmlVarIntWidthBytes_length, List.length_cons, List.length_nil]
          rw [hrec.1]
          simp only [List.length_append] at hexlen
          omega
        · refine ⟨beBytes (measureUnsignedInt id) id ++
            (ebmlVarIntWidthBytes (p.1.pos - (s.data ++ beBytes (measureUnsignedInt id) id ++ [0, 0, 0, 0]).length) 4 ++ ex), ?_⟩
          simp only [ArrayBufferDataStream.seek, ArrayBufferDataStream.writeEBMLVarIntWidth,
            ArrayBufferDataStream.writeBytes]
          rw [hex]
          rw [List.append_assoc (s.data ++ beBytes (measureUnsignedInt id) id) [0, 0, 0, 0] ex]
          rw [List.take_left' rfl]
          have hd4 : ((s.data ++ beBytes (measureUnsignedInt id) id) ++ ([0, 0, 0, 0] ++ ex)).drop ((s.data ++ beBytes (measureUnsignedInt id) id).length + (ebmlVarIntWidthBytes (p.1.pos - (s.data ++ beBytes (measureUnsignedInt id) id ++ [0, 0, 0, 0]).length) 4).length) = ex := by
            rw [ebmlVarIntWidthBytes_length, List.drop_append_eq_append_drop,
              List.drop_eq_nil_of_le (by omega)]
            simp
          rw [hd4]
          simp
    | str b =>
      simp only [writeEBML] at h
      by_cases hid : id = 0
      · rw [if_pos hid] at h; simp at h
      rw [if_neg hid] at h
      simp only [ArrayBufferDataStream.writeUnsignedIntBE,
        ArrayBufferDataStream.writeEBMLVarInt] at h
      cases h
      rw [writeBytes3_append hpos]
      exact ⟨rfl, exists_append3 _ _ _ _⟩
    | uint n =>
      simp only [writeEBML] at h
      by_cases hid : id = 0
      · rw [if_pos hid] at h; simp at h
      rw [if_neg hid] at h
      simp only [ArrayBufferDataStream.writeUnsignedIntBE,
        ArrayBufferDataStream.writeEBMLVarInt] at h
      cases h
      rw [writeBytes3_append hpos]
      exact ⟨rfl, exists_append3 _ _ _ _⟩
    | float64 q =>
      simp only [writeEBML] at h
      by_cases hid : id = 0
      · rw [if_pos hid] at h; simp at h
      rw [if_neg hid] at h
      simp only [ArrayBufferDataStream.writeUnsignedIntBE,
        ArrayBufferDataStream.writeEBMLVarInt, ArrayBufferDataStream.writeDoubleBE] at h
      cases h
      rw [writeBytes3_append hpos]
      exact ⟨rfl, exists_append3 _ _ _ _⟩
    | float32 q =>
      simp only [writeEBML] at h
      by_cases hid : id = 0
      · rw [if_pos hid] at h; simp at h
      rw [if_neg hid] at h
      simp only [ArrayBufferDataStream.writeUnsignedIntBE,
        ArrayBufferDataStream.writeEBMLVarInt, ArrayBufferDataStream.writeFloatBE] at h
      cases h
      rw [writeBytes3_append hpos]
      exact ⟨rfl, exists_append3 _ _ _ _⟩
    | bytes b =>
      simp only [writeEBML] at h
      by_cases hid : id = 0
      · rw [if_pos hid] at h; simp at h
      rw [if_neg hid] at h
      simp only [ArrayBufferDataStream.writeUnsignedIntBE,
        ArrayBufferDataStream.writeEBMLVarInt] at h
      cases h
      rw [writeBytes3_append hpos]
      exact ⟨rfl, exists_append3 _ _ _ _⟩
    | elem id2 sz2 d2 =>
      simp only [writeEBML] at h
      by_cases hid : id = 0
      · rw [if_pos hid] at h; simp at h
      rw [if_neg hid] at h
      simp at h

/-- Sibling version of `writeEBML_append`. -/
theorem writeEBMLList_append (l : List EBMLValue) :
    ∀ (s : ArrayBufferDataStream) (off : Nat), s.pos = s.data.length →
      ∀ (r : ArrayBufferDataStream × List EBMLAnn), writeEBMLList s off l = .ok r →
        r.1.pos = r.1.data.length ∧ ∃ ex, r.1.data = s.data ++ ex := by
  intro s off hpos r h
  cases l with
  | nil =>
    simp only [writeEBMLList] at h
    cases h
    exact ⟨hpos, [], by simp⟩
  | cons e rest =>
    simp only [writeEBMLList] at h
    cases he : writeEBML s off e with
    | error er => rw [he] at h; simp at h
    | ok p =>
      rw [he] at h
      simp only at h
      cases hrest : writeEBMLList p.1 off rest with
      | error er => rw [hrest] at h; simp at h
      | ok p2 =>
        rw [hrest] at h
        cases h
        have ha := writeEBML_append e s off hpos p he
        have hb := writeEBMLList_append rest p.1 off ha.1 p2 hrest
        refine ⟨hb.1, ?_⟩
        rcases ha.2 with ⟨ex1, hex1⟩
        rcases hb.2 with ⟨ex2, hex2⟩
        exact ⟨ex1 ++ ex2, by simp [hex2, hex1]⟩

end


mutual

/-- Well-shaped EBML values: ids are nonzero and payloads are not themselves
elements (the shapes the muxer builds). -/
def validTop : EBMLValue → Prop
  | .list l => validTopList l
  | .str _ => True
  | .bytes _ => True
  | .uint _ => False
  | .float32 _ => False
  | .float64 _ => False
  | .elem id _ d => id ≠ 0 ∧ validElemData d

def validElemData : EBMLValue → Prop
  | .list l => validTopList l
  | .elem _ _ _ => False
  | .str _ => True
  | .bytes _ => True
  | .uint _ => True
  | .float32 _ => True
  | .float64 _ => True

def validTopList : List EBMLValue → Prop
  | [] => True
  | e :: rest => validTop e ∧ validTopList rest

end

mutual

/-- Serialization always succeeds on well-shaped values. -/
theorem writeEBML_ok (e : EBMLValue) : validTop e →
    ∀ (s : ArrayBufferDataStream) (off : Nat), ∃ r, writeEBML s off e = .ok r := by
  intro hv s off
  cases e with
  | list l =>
    rcases writeEBMLList_ok l hv s off with ⟨r, hr⟩
    exact ⟨(r.1, .list r.2), by simp only [writeEBML]; rw [hr]⟩
  | str b => exact ⟨_, rfl⟩
  | bytes b => exact ⟨_, rfl⟩
  | uint n => exact absurd hv (by simp [validTop])
  | float32 q => exact absurd hv (by simp [validTop])
  | float64 q => exact absurd hv (by simp [validTop])
  | elem id size d =>
    rcases hv with ⟨hid, hd⟩
    cases d with
    | list children =>
      by_cases hu : size = some EBML_SIZE_UNKNOWN
      · rcases writeEBMLList_ok children hd ((s.writeUnsignedIntBE id none).writeByte 0xFF) off with ⟨r, hr⟩
        exact ⟨_, by simp only [writeEBML, if_neg hid, if_pos hu]; rw [hr]⟩
      by_cases hu5 : size = some EBML_SIZE_UNKNOWN_5_BYTES
      · rcases writeEBMLList_ok children hd ((s.writeUnsignedIntBE id none).writeBytes [0x0F, 0xFF, 0xFF, 0xFF, 0xFF]) off with ⟨r, hr⟩
        exact ⟨_, by simp only [writeEBML, if_neg hid, if_neg hu, if_pos hu5]; rw [hr]⟩
      · rcases writeEBMLList_ok children hd ((s.writeUnsignedIntBE id none).writeBytes [0, 0, 0, 0]) off with ⟨r, hr⟩
        exact ⟨_, by simp only [writeEBML, if_neg hid, if_neg hu, if_neg hu5]; rw [hr]⟩
    | str b => exact ⟨_, by simp only [writeEBML, if_neg hid]; rfl⟩
    | uint n => exact ⟨_, by simp only [writeEBML, if_neg hid]; rfl⟩
    | float64 q => exact ⟨_, by simp only [writeEBML, if_neg hid]; rfl⟩
    | float32 q => exact ⟨_, by simp only [writeEBML, if_neg hid]; rfl⟩
    | bytes b => exact ⟨_, by simp only [writeEBML, if_neg hid]; rfl⟩
    | elem id2 sz2 d2 => exact absurd hd (by simp [validElemData])

/-- Sibling version of `writeEBML_ok`. -/
theorem writeEBMLList_ok (l : List EBMLValue) : validTopList l →
    ∀ (s : ArrayBufferDataStream) (off : Nat), ∃ r, writeEBMLList s off l = .ok r := by
  intro hv s off
  cases l with
  | nil => exact ⟨(s, []), rfl⟩
  | cons e rest =>
    rcases writeEBML_ok e hv.1 s off with ⟨p, hp⟩
    rcases writeEBMLList_ok rest hv.2 p.1 off with ⟨p2, hp2⟩
    refine ⟨(p2.1, p.2 :: p2.2), ?_⟩
    simp only [writeEBMLList]
    rw [hp]
    simp only
    rw [hp2]

end

theorem measureUnsignedInt_pos (n : Nat) : 0 < measureUnsignedInt n := by
  rw [measureUnsignedInt]
  split_ifs <;> omega

theorem writeEBML_children_unknown (s : ArrayBufferDataStream) (off id : Nat)
    (size : Option Int) (l : List EBMLValue) (hpos : s.pos = s.data.length) (hid : id ≠ 0)
    (hu : size = some EBML_SIZE_UNKNOWN) :
    ∀ r, writeEBML s off (.elem id size (.list l)) = .ok r →
      ∃ cb anns st,
        writeEBMLList { data := s.data ++ beBytes (measureUnsignedInt id) id ++ [0xFF], pos := (s.data ++ beBytes (measureUnsignedInt id) id ++ [0xFF]).length } off l = .ok (st, anns) ∧
        st.data = s.data ++ beBytes (measureUnsignedInt id) id ++ [0xFF] ++ cb ∧
        r.1 = st ∧
        r.1.data = s.data ++ beBytes (measureUnsignedInt id) id ++ [0xFF] ++ cb ∧
        r.1.pos = r.1.data.length ∧
        r.2 = .elem (s.data.length + off) (s.data.length + measureUnsignedInt id + 1 + off)
          size (.list anns) := by
  intro r h
  simp only [writeEBML, if_neg hid, if_pos hu, ArrayBufferDataStream.writeUnsignedIntBE,
    ArrayBufferDataStream.writeByte, writeBytes_append hpos] at h
  rw [writeBytes_append rfl] at h
  cases hl : writeEBMLList { data := s.data ++ beBytes (measureUnsignedInt id) id ++ [0xFF], pos := (s.data ++ beBytes (measureUnsignedInt id) id ++ [0xFF]).length } off l with
  | error er => rw [hl] at h; simp at h
  | ok p =>
    rw [hl] at h
    simp only at h
    cases h
    have hrec := writeEBMLList_append l _ off rfl p hl
    rcases hrec.2 with ⟨ex, hex⟩
    simp only at hex
    refine ⟨ex, p.2, p.1, by rw [Prod.mk.eta], hex, rfl, hex, hrec.1, ?_⟩
    simp only [hpos, List.length_append, beBytes_length]

theorem writeEBML_children_unknown5 (s : ArrayBufferDataStream) (off id : Nat)
    (size : Option Int) (l : List EBMLValue) (hpos : s.pos = s.data.length) (hid : id ≠ 0)
    (hu : size ≠ some EBML_SIZE_UNKNOWN) (hu5 : size = some EBML_SIZE_UNKNOWN_5_BYTES) :
    ∀ r, writeEBML s off (.elem id size (.list l)) = .ok r →
      ∃ cb anns st,
        writeEBMLList { data := s.data ++ beBytes (measureUnsignedInt id) id ++ [0x0F, 0xFF, 0xFF, 0xFF, 0xFF], pos := (s.data ++ beBytes (measureUnsignedInt id) id ++ [0x0F, 0xFF, 0xFF, 0xFF, 0xFF]).length } off l = .ok (st, anns) ∧
        st.data = s.data ++ beBytes (measureUnsignedInt id) id ++ [0x0F, 0xFF, 0xFF, 0xFF, 0xFF] ++ cb ∧
        r.1 = st ∧
        r.1.data = s.data ++ beBytes (measureUnsignedInt id) id ++ [0x0F, 0xFF, 0xFF, 0xFF, 0xFF] ++ cb ∧
        r.1.pos = r.1.data.length ∧
        r.2 = .elem (s.data.length + off) (s.data.length + measureUnsignedInt id + 5 + off)
          size (.list anns) := by
  intro r h
  simp only [writeEBML, if_neg hid, if_neg hu, if_pos hu5, ArrayBufferDataStream.writeUnsignedIntBE,
    writeBytes_append hpos] at h
  rw [writeBytes_append rfl] at h
  cases hl : writeEBMLList { data := s.data ++ beBytes (measureUnsignedInt id) id ++ [0x0F, 0xFF, 0xFF, 0xFF, 0xFF], pos := (s.data ++ beBytes (measureUnsignedInt id) id ++ [0x0F, 0xFF, 0xFF, 0xFF, 0xFF]).length } off l with
  | error er => rw [hl] at h; simp at h
  | ok p =>
    rw [hl] at h
    simp only at h
    cases h
    have hrec := writeEBMLList_append l _ off rfl p hl
    rcases hrec.2 with ⟨ex, hex⟩
    simp only at hex
    refine ⟨ex, p.2, p.1, by rw [Prod.mk.eta], hex, rfl, hex, hrec.1, ?_⟩
    simp only [hpos, List.length_append, beBytes_length]

theorem writeEBML_children_normal (s : ArrayBufferDataStream) (off id : Nat)
    (size : Option Int) (l : List EBMLValue) (hpos : s.pos = s.data.length) (hid : id ≠ 0)
    (hu : size ≠ some EBML_SIZE_UNKNOWN) (hu5 : size ≠ some EBML_SIZE_UNKNOWN_5_BYTES) :
    ∀ r, writeEBML s off (.elem id size (.list l)) = .ok r →
      ∃ cb anns st,
        writeEBMLList { data := s.data ++ beBytes (measureUnsignedInt id) id ++ [0, 0, 0, 0], pos := (s.data ++ beBytes (measureUnsignedInt id) id ++ [0, 0, 0, 0]).length } off l = .ok (st, anns) ∧
        st.data = s.data ++ beBytes (measureUnsignedInt id) id ++ [0, 0, 0, 0] ++ cb ∧
        r.1.data = s.data ++ beBytes (measureUnsignedInt id) id ++ ebmlVarIntWidthBytes cb.length 4 ++ cb ∧
        (ebmlVarIntWidthBytes cb.length 4).length = 4 ∧
        r.1.pos = r.1.data.length ∧
        r.1.pos = st.pos ∧
        r.2 = .elem (s.data.length + off) (s.data.length + measureUnsignedInt id + 4 + off)
          (some (cb.length : Int)) (.list anns) := by
  intro r h
  simp only [writeEBML, if_neg hid, if_neg hu, if_neg hu5, ArrayBufferDataStream.writeUnsignedIntBE,
    writeBytes_append hpos] at h
  rw [writeBytes_append rfl] at h
  cases hl : writeEBMLList { data := s.data ++ beBytes (measureUnsignedInt id) id ++ [0, 0, 0, 0], pos := (s.data ++ beBytes (measureUnsignedInt id) id ++ [0, 0, 0, 0]).length } off l with
  | error er => rw [hl] at h; simp at h
  | ok p =>
    rw [hl] at h
    simp only at h
    cases h
    have hrec := writeEBMLList_append l _ off rfl p hl
    rcases hrec.2 with ⟨ex, hex⟩
    simp only at hex
    have hexlen : p.1.data.length = (s.data ++ beBytes (measureUnsignedInt id) id).length + 4 + ex.length := by
      rw [hex]
      simp only [List.length_append, List.length_cons, List.length_nil]
    have hsz : p.1.pos - (s.data ++ beBytes (measureUnsignedInt id) id ++ [0, 0, 0, 0]).length = ex.length := by
      rw [hrec.1, hexlen]
      simp only [List.length_append, List.length_cons, List.length_nil]
      omega
    refine ⟨ex, p.2, p.1, by rw [Prod.mk.eta], hex, ?_, ?_, ?_, ?_, ?_⟩
    · simp only [ArrayBufferDataStream.seek, ArrayBufferDataStream.writeEBMLVarIntWidth,
        ArrayBufferDataStream.writeBytes, hsz]
      rw [hex]
      rw [List.append_assoc (s.data ++ beBytes (measureUnsignedInt id) id) [0, 0, 0, 0] ex]
      rw [List.take_left' rfl]
      have hd4 : ((s.data ++ beBytes (measureUnsignedInt id) id) ++ ([0, 0, 0, 0] ++ ex)).drop ((s.data ++ beBytes (measureUnsignedInt id) id).length + (ebmlVarIntWidthBytes ex.length 4).length) = ex := by
        rw [ebmlVarIntWidthBytes_length, List.drop_append_eq_append_drop,
          List.drop_eq_nil_of_le (by omega)]
        simp
      rw [hd4]
    · exact ebmlVarIntWidthBytes_length _ _
    · simp only [ArrayBufferDataStream.seek, ArrayBufferDataStream.writeEBMLVarIntWidth,
        ArrayBufferDataStream.writeBytes, hsz]
      rw [hrec.1]
      simp only [List.length_append, List.length_take, List.length_drop,
        ebmlVarIntWidthBytes_length, List.length_cons, List.length_nil]
      simp only [List.length_append] at hexlen
      omega
    · rfl
    · rw [hsz]
      simp only [hpos, List.length_append, beBytes_length]
      rfl

/-- In every `elem` case of `writeEBML`, the assigned `offset` points at the
first id byte and the assigned `dataOffset` at the first payload byte (just
past the id bytes and the size field `sf`). -/
theorem writeEBML_elem_offsets (s : ArrayBufferDataStream) (off id : Nat)
    (size : Option Int) (d : EBMLValue) (hpos : s.pos = s.data.length) :
    ∀ r, writeEBML s off (.elem id size d) = .ok r →
      ∃ sf pb, r.1.data = s.data ++ beBytes (measureUnsignedInt id) id ++ sf ++ pb ∧
        r.2.offset = s.data.length + off ∧
        r.2.dataOffset = s.data.length + measureUnsignedInt id + sf.length + off := by
  intro r h
  by_cases hid : id = 0
  · cases d <;> simp only [writeEBML, if_pos hid, reduceCtorEq] at h
  · cases d with
    | list l =>
      by_cases hu : size = some EBML_SIZE_UNKNOWN
      · obtain ⟨cb, anns, st, hl, hst, hr1, hdat, hp, hann⟩ :=
          writeEBML_children_unknown s off id size l hpos hid hu r h
        exact ⟨[0xFF], cb, hdat, by simp [hann, EBMLAnn.offset],
          by simp [hann, EBMLAnn.dataOffset]⟩
      · by_cases hu5 : size = some EBML_SIZE_UNKNOWN_5_BYTES
        · obtain ⟨cb, anns, st, hl, hst, hr1, hdat, hp, hann⟩ :=
            writeEBML_children_unknown5 s off id size l hpos hid hu hu5 r h
          exact ⟨[0x0F, 0xFF, 0xFF, 0xFF, 0xFF], cb, hdat, by simp [hann, EBMLAnn.offset],
            by simp [hann, EBMLAnn.dataOffset]⟩
        · obtain ⟨cb, anns, st, hl, hst, hdat, hvl, hp, hpst, hann⟩ :=
            writeEBML_children_normal s off id size l hpos hid hu hu5 r h
          refine ⟨ebmlVarIntWidthBytes cb.length 4, cb, hdat, by simp [hann, EBMLAnn.offset], ?_⟩
          simp [hann, EBMLAnn.dataOffset, ebmlVarIntWidthBytes_length]
    | str b =>
      simp only [writeEBML, if_neg hid, ArrayBufferDataStream.writeUnsignedIntBE,
        ArrayBufferDataStream.writeEBMLVarInt] at h
      rw [writeBytes3_append hpos, writeBytes2_append hpos] at h
      simp only at h
      cases h
      refine ⟨ebmlVarIntBytes b.length, b, by simp, by simp [EBMLAnn.offset, hpos], ?_⟩
      simp only [EBMLAnn.dataOffset, List.length_append, beBytes_length]
    | bytes b =>
      simp only [writeEBML, if_neg hid, ArrayBufferDataStream.writeUnsignedIntBE,
        ArrayBufferDataStream.writeEBMLVarInt] at h
      rw [writeBytes3_append hpos, writeBytes2_append hpos] at h
      simp only at h
      cases h
      refine ⟨ebmlVarIntBytes b.length, b, by simp, by simp [EBMLAnn.offset, hpos], ?_⟩
      simp only [EBMLAnn.dataOffset, List.length_append, beBytes_length]
    | uint n =>
      simp only [writeEBML, if_neg hid, ArrayBufferDataStream.writeUnsignedIntBE,
        ArrayBufferDataStream.writeEBMLVarInt] at h
      rw [writeBytes3_append hpos, writeBytes2_append hpos] at h
      simp only at h
      cases h
      refine ⟨_, _, rfl, by simp [EBMLAnn.offset, hpos], ?_⟩
      simp only [EBMLAnn.dataOffset, List.length_append, beBytes_length]
    | float32 q =>
      simp only [writeEBML, if_neg hid, ArrayBufferDataStream.writeUnsignedIntBE,
        ArrayBufferDataStream.writeEBMLVarInt, ArrayBufferDataStream.writeFloatBE] at h
      rw [writeBytes3_append hpos, writeBytes2_append hpos] at h
      simp only at h
      cases h
      refine ⟨ebmlVarIntBytes 4, float32BE q, by simp, by simp [EBMLAnn.offset, hpos], ?_⟩
      simp only [EBMLAnn.dataOffset, List.length_append, beBytes_length]
    | float64 q =>
      simp only [writeEBML, if_neg hid, ArrayBufferDataStream.writeUnsignedIntBE,
        ArrayBufferDataStream.writeEBMLVarInt, ArrayBufferDataStream.writeDoubleBE] at h
      rw [writeBytes3_append hpos, writeBytes2_append hpos] at h
      simp only at h
      cases h
      refine ⟨ebmlVarIntBytes 8, float64BE q, by simp, by simp [EBMLAnn.offset, hpos], ?_⟩
      simp only [EBMLAnn.dataOffset, List.length_append, beBytes_length]
    | elem i2 s2 d2 =>
      simp only [writeEBML, if_neg hid, reduceCtorEq] at h

/-- C3: for an element node whose data is a list of children: with size
UNKNOWN the serializer emits the single byte 0xFF before the children and
never patches it (the final stream is exactly the post-children stream);
with size UNKNOWN_5_BYTES it emits the five bytes 0F FF FF FF FF and does
not patch them; otherwise it emits four zero bytes, writes the children,
back-patches that position with the fixed-4-byte EBML varint of the payload
length (cursor after children minus cursor before) and restores the cursor
to the end; and in every element case the node's offset and dataOffset are
the absolute file offsets of the element's first id byte and of its first
payload byte. -/
theorem c3_children_size_policy :
    (∀ (s : ArrayBufferDataStream) (off id : Nat) (size : Option Int)
       (l : List EBMLValue) (r : ArrayBufferDataStream × EBMLAnn),
       s.pos = s.data.length → id ≠ 0 → size = some EBML_SIZE_UNKNOWN →
       writeEBML s off (.elem id size (.list l)) = .ok r →
       ∃ cb anns st,
         writeEBMLList { data := s.data ++ beBytes (measureUnsignedInt id) id ++ [0xFF], pos := (s.data ++ beBytes (measureUnsignedInt id) id ++ [0xFF]).length } off l = .ok (st, anns) ∧
         st.data = s.data ++ beBytes (measureUnsignedInt id) id ++ [0xFF] ++ cb ∧
         r.1 = st ∧
         r.1.data = s.data ++ beBytes (measureUnsignedInt id) id ++ [0xFF] ++ cb ∧
         r.1.pos = r.1.data.length ∧
         r.2 = .elem (s.data.length + off) (s.data.length + measureUnsignedInt id + 1 + off) size (.list anns)) ∧
    (∀ (s : ArrayBufferDataStream) (off id : Nat) (size : Option Int)
       (l : List EBMLValue) (r : ArrayBufferDataStream × EBMLAnn),
       s.pos = s.data.length → id ≠ 0 → size ≠ some EBML_SIZE_UNKNOWN →
       size = some EBML_SIZE_UNKNOWN_5_BYTES →
       writeEBML s off (.elem id size (.list l)) = .ok r →
       ∃ cb anns st,
         writeEBMLList { data := s.data ++ beBytes (measureUnsignedInt id) id ++ [0x0F, 0xFF, 0xFF, 0xFF, 0xFF], pos := (s.data ++ beBytes (measureUnsignedInt id) id ++ [0x0F, 0xFF, 0xFF, 0xFF, 0xFF]).length } off l = .ok (st, anns) ∧
         st.data = s.data ++ beBytes (measureUnsignedInt id) id ++ [0x0F, 0xFF, 0xFF, 0xFF, 0xFF] ++ cb ∧
         r.1 = st ∧
         r.1.data = s.data ++ beBytes (measureUnsignedInt id) id ++ [0x0F, 0xFF, 0xFF, 0xFF, 0xFF] ++ cb ∧
         r.1.pos = r.1.data.length ∧
         r.2 = .elem (s.data.length + off) (s.data.length + measureUnsignedInt id + 5 + off) size (.list anns)) ∧
    (∀ (s : ArrayBufferDataStream) (off id : Nat) (size : Option Int)
       (l : List EBMLValue) (r : ArrayBufferDataStream × EBMLAnn),
       s.pos = s.data.length → id ≠ 0 → size ≠ some EBML_SIZE_UNKNOWN →
       size ≠ some EBML_SIZE_UNKNOWN_5_BYTES →
       writeEBML s off (.elem id size (.list l)) = .ok r →
       ∃ cb anns st,
         writeEBMLList { data := s.data ++ beBytes (measureUnsignedInt id) id ++ [0, 0, 0, 0], pos := (s.data ++ beBytes (measureUnsignedInt id) id ++ [0, 0, 0, 0]).length } off l = .ok (st, anns) ∧
         st.data = s.data ++ beBytes (measureUnsignedInt id) id ++ [0, 0, 0, 0] ++ cb ∧
         r.1.data = s.data ++ beBytes (measureUnsignedInt id) id ++ ebmlVarIntWidthBytes cb.length 4 ++ cb ∧
         (ebmlVarIntWidthBytes cb.length 4).length = 4 ∧
         r.1.pos = r.1.data.length ∧
         r.1.pos = st.pos ∧
         r.2 = .elem (s.data.length + off) (s.data.length + measureUnsignedInt id + 4 + off) (some (cb.length : Int)) (.list anns)) ∧
    (∀ (s : ArrayBufferDataStream) (off id : Nat) (size : Option Int)
       (d : EBMLValue) (r : ArrayBufferDataStream × EBMLAnn),
       s.pos = s.data.length →
       writeEBML s off (.elem id size d) = .ok r →
       ∃ sf pb, r.1.data = s.data ++ beBytes (measureUnsignedInt id) id ++ sf ++ pb ∧
         r.2.offset = s.data.length + off ∧
         r.2.dataOffset = s.data.length + measureUnsignedInt id + sf.length + off) := by
  refine ⟨?_, ?_, ?_, ?_⟩
  · intro s off id size l r hpos hid hu h
    exact writeEBML_children_unknown s off id size l hpos hid hu r h
  · intro s off id size l r hpos hid hu hu5 h
    exact writeEBML_children_unknown5 s off id size l hpos hid hu hu5 r h
  · intro s off id size l r hpos hid hu hu5 h
    exact writeEBML_children_normal s off id size l hpos hid hu hu5 r h
  · intro s off id size d r hpos h
    exact writeEBML_elem_offsets s off id size d hpos r h

/-- All four parts of the size policy instantiated on concrete small trees
(ids 0xEC and 0xE7, children [Uint8Array [1, 2]], uint payload 1). -/
theorem c3_witness :
    (∃ cb, ([0xEC, 0xFF, 1, 2] : List Nat) = beBytes (measureUnsignedInt 0xEC) 0xEC ++ [0xFF] ++ cb) ∧
    (∃ cb, ([0xEC, 0x0F, 0xFF, 0xFF, 0xFF, 0xFF, 1, 2] : List Nat) = beBytes (measureUnsignedInt 0xEC) 0xEC ++ [0x0F, 0xFF, 0xFF, 0xFF, 0xFF] ++ cb) ∧
    (∃ cb, ([0xEC, 0x10, 0x00, 0x00, 0x02, 1, 2] : List Nat) = beBytes (measureUnsignedInt 0xEC) 0xEC ++ ebmlVarIntWidthBytes cb.length 4 ++ cb) ∧
    (∃ sf pb, ([0xE7, 0x81, 1] : List Nat) = beBytes (measureUnsignedInt 0xE7) 0xE7 ++ sf ++ pb ∧
      (EBMLAnn.elem 0 2 (some 1) EBMLAnn.leaf).offset = 0 ∧
      (EBMLAnn.elem 0 2 (some 1) EBMLAnn.leaf).dataOffset = measureUnsignedInt 0xE7 + sf.length) := by
  obtain ⟨t1, t2, t3, t4⟩ := c3_children_size_policy
  refine ⟨?_, ?_, ?_, ?_⟩
  · obtain ⟨cb, anns, st, h1, h2, h3, h4, h5, h6⟩ :=
      t1 ⟨[], 0⟩ 0 0xEC (some EBML_SIZE_UNKNOWN) [.str [1, 2]]
        (⟨[0xEC, 0xFF, 1, 2], 4⟩, .elem 0 2 (some EBML_SIZE_UNKNOWN) (.list [.leaf]))
        rfl (by decide) rfl rfl
    exact ⟨cb, h4⟩
  · obtain ⟨cb, anns, st, h1, h2, h3, h4, h5, h6⟩ :=
      t2 ⟨[], 0⟩ 0 0xEC (some EBML_SIZE_UNKNOWN_5_BYTES) [.str [1, 2]]
        (⟨[0xEC, 0x0F, 0xFF, 0xFF, 0xFF, 0xFF, 1, 2], 8⟩, .elem 0 6 (some EBML_SIZE_UNKNOWN_5_BYTES) (.list [.leaf]))
        rfl (by decide) (by decide) rfl rfl
    exact ⟨cb, h4⟩
  · obtain ⟨cb, anns, st, h1, h2, h3, h4, h5, h6, h7⟩ :=
      t3 ⟨[], 0⟩ 0 0xEC none [.str [1, 2]]
        (⟨[0xEC, 0x10, 0x00, 0x00, 0x02, 1, 2], 7⟩, .elem 0 5 (some 2) (.list [.leaf]))
        rfl (by decide) (by decide) (by decide) rfl
    exact ⟨cb, h3⟩
  · obtain ⟨sf, pb, h1, h2, h3⟩ :=
      t4 ⟨[], 0⟩ 0 0xE7 none (.uint 1)
        (⟨[0xE7, 0x81, 1], 3⟩, .elem 0 2 (some 1) .leaf)
        rfl rfl
    exact ⟨sf, pb, h1, h2, h3⟩


/-- `byteStringToUint32LE(string)` of src/utils.mjs: little-endian u32 of the
first four char codes (`a | b<<8 | c<<16 | d<<24 >>> 0`; the caller always
passes a 4-character substring, so the out-of-range-index default is never
consulted). -/
def byteStringToUint32LE (s : List Nat) : Nat :=
  s.getD 0 0 + 256 * s.getD 1 0 + 65536 * s.getD 2 0 + 16777216 * s.getD 3 0

/-- `webP.indexOf('VP8', start)`: the first index `i ≥ start` at which the
3-byte substring "VP8" (86 80 56) occurs in full, `none` for JS `-1`. -/
def indexOfVP8From (l : List Nat) (start : Nat) : Option Nat :=
  (List.range (l.length + 1)).find? fun i =>
    decide (start ≤ i) && decide ((l.drop i).take 3 = [86, 80, 56])

/-- The chunk-scanning `while` loop of `extractKeyframeFromWebP`
(src/utils.mjs): while `cursor < webP.length - 8`, read a 4-byte FourCC and a
4-byte little-endian length, return the payload on "VP8 " (86 80 56 32), set
the alpha flag on "ALPH" (65 76 80 72), and otherwise skip `length` bytes
plus one padding byte when `length` is odd.  The loop advances the cursor by
at least 8 per iteration and runs only while `cursor + 8 < length`, so any
fuel with `length ≤ cursor + 8 + 8 * fuel` is enough; `extractScanGo_stable`
below proves the result does not depend on the fuel choice. -/
def extractScanGo (l : List Nat) : Nat → Nat → Bool → Except String (List Nat × Bool)
  | 0, _, _ =>
    .error "Failed to find VP8 keyframe in WebP image, is this image mistakenly encoded in the Lossless WebP format?"
  | fuel + 1, cursor, hasAlpha =>
    if cursor + 8 < l.length then
      let fourCC := (l.drop cursor).take 4
      let chunkLength := byteStringToUint32LE ((l.drop (cursor + 4)).take 4)
      if fourCC = [86, 80, 56, 32] then
        .ok ((l.drop (cursor + 8)).take chunkLength, hasAlpha)
      else
        extractScanGo l fuel
          (cursor + 8 + chunkLength + (if chunkLength % 2 = 1 then 1 else 0))
          (if fourCC = [65, 76, 80, 72] then true else hasAlpha)
    else
      .error "Failed to find VP8 keyframe in WebP image, is this image mistakenly encoded in the Lossless WebP format?"

/-- The scan loop entered at `cursor` (fuel `l.length` always suffices, see
`extractScanGo_stable`). -/
def extractScan (l : List Nat) (cursor : Nat) (hasAlpha : Bool) :
    Except String (List Nat × Bool) :=
  extractScanGo l l.length cursor hasAlpha

/-- `extractKeyframeFromWebP(webP)` of src/utils.mjs: find the first "VP8"
substring at or after byte 12, fail if absent, then scan chunks from there. -/
def extractKeyframeFromWebP (l : List Nat) : Except String (List Nat × Bool) :=
  match indexOfVP8From l 12 with
  | none => .error "Bad image format, does this browser support WebP?"
  | some cursor => extractScan l cursor false

/-- Fuel irrelevance: any two sufficient fuels give the same scan result. -/
theorem extractScanGo_stable (l : List Nat) :
    ∀ f1 f2 cursor a, l.length ≤ cursor + 8 + 8 * f1 → l.length ≤ cursor + 8 + 8 * f2 →
      extractScanGo l f1 cursor a = extractScanGo l f2 cursor a := by
  intro f1
  induction f1 with
  | zero =>
    intro f2 cursor a h1 h2
    cases f2 with
    | zero => rfl
    | succ f2 =>
      rw [extractScanGo, extractScanGo, if_neg (by omega)]
  | succ f1 ih =>
    intro f2 cursor a h1 h2
    cases f2 with
    | zero =>
      rw [extractScanGo, extractScanGo, if_neg (by omega)]
    | succ f2 =>
      rw [extractScanGo, extractScanGo]
      by_cases hg : cursor + 8 < l.length
      · rw [if_pos hg, if_pos hg]
        simp only
        by_cases hv : (l.drop cursor).take 4 = [86, 80, 56, 32]
        · rw [if_pos hv, if_pos hv]
        · rw [if_neg hv, if_neg hv]
          exact ih f2 _ _ (by omega) (by omega)
      · rw [if_neg hg, if_neg hg]

/-- Spec-side chunk list: the (FourCC, payload) pairs visited from `c`
(fuelled like `extractScanGo`). -/
def specChunksGo (l : List Nat) : Nat → Nat → List (List Nat × List Nat)
  | 0, _ => []
  | fuel + 1, c =>
    if c + 8 < l.length then
      ((l.drop c).take 4,
        (l.drop (c + 8)).take (byteStringToUint32LE ((l.drop (c + 4)).take 4))) ::
        specChunksGo l fuel
          (c + 8 + byteStringToUint32LE ((l.drop (c + 4)).take 4) +
            (if byteStringToUint32LE ((l.drop (c + 4)).take 4) % 2 = 1 then 1 else 0))
    else []

/-- Spec-side chunk list from `c`. -/
def specChunks (l : List Nat) (c : Nat) : List (List Nat × List Nat) :=
  specChunksGo l l.length c

/-- The chunks before the first "VP8 " chunk, paired with its payload. -/
def splitFirstVP8 : List (List Nat × List Nat) → Option (List (List Nat × List Nat) × List Nat)
  | [] => none
  | (cc, pl) :: rest =>
    if cc = [86, 80, 56, 32] then some ([], pl)
    else
      match splitFirstVP8 rest with
      | none => none
      | some (pre, p) => some ((cc, pl) :: pre, p)

/-- The scan loop returns the first "VP8 " chunk's payload, with the alpha
flag accumulated over the chunks before it. -/
theorem extractScanGo_spec (l : List Nat) :
    ∀ fuel c a, extractScanGo l fuel c a =
      match splitFirstVP8 (specChunksGo l fuel c) with
      | none =>
        .error "Failed to find VP8 keyframe in WebP image, is this image mistakenly encoded in the Lossless WebP format?"
      | some (pre, p) =>
        .ok (p, a || pre.any fun q => q.1 = [65, 76, 80, 72]) := by
  intro fuel
  induction fuel with
  | zero => intro c a; rfl
  | succ fuel ih =>
    intro c a
    rw [extractScanGo, specChunksGo]
    by_cases hg : c + 8 < l.length
    · rw [if_pos hg, if_pos hg]
      simp only
      by_cases hv : (l.drop c).take 4 = [86, 80, 56, 32]
      · rw [if_pos hv, splitFirstVP8, if_pos hv]
        simp
      · rw [if_neg hv, splitFirstVP8, if_neg hv]
        rw [ih]
        cases hs : splitFirstVP8 (specChunksGo l fuel
            (c + 8 + byteStringToUint32LE ((l.drop (c + 4)).take 4) +
              (if byteStringToUint32LE ((l.drop (c + 4)).take 4) % 2 = 1 then 1 else 0))) with
        | none => rfl
        | some pr =>
          simp only
          by_cases ha : (l.drop c).take 4 = [65, 76, 80, 72]
          · rw [if_pos ha]
            simp [ha]
          · rw [if_neg ha]
            simp [ha, Bool.or_assoc]
    · rw [if_neg hg, if_neg hg]
      rfl

/-- C5 (amended): the extractor first locates the "VP8" substring at or
after byte 12 and starts its 8-byte-header chunk scan THERE (not at byte 12);
it returns the first "VP8 " chunk's payload, with has_alpha true iff an
"ALPH" chunk occurs among the chunks scanned from that start position;
skipped chunks advance by length plus odd padding; it errors when the "VP8"
substring is absent or no "VP8 " chunk is met while 8-byte headers fit
strictly inside the input. -/
theorem c5_amended_webp_extractor (l : List Nat) :
    extractKeyframeFromWebP l =
      match indexOfVP8From l 12 with
      | none => .error "Bad image format, does this browser support WebP?"
      | some c =>
        match splitFirstVP8 (specChunks l c) with
        | none =>
          .error "Failed to find VP8 keyframe in WebP image, is this image mistakenly encoded in the Lossless WebP format?"
        | some (pre, p) => .ok (p, pre.any fun q => q.1 = [65, 76, 80, 72]) := by
  rw [extractKeyframeFromWebP]
  cases hix : indexOfVP8From l 12 with
  | none => rfl
  | some c =>
    simp only [extractScan, specChunks, extractScanGo_spec]
    cases hs : splitFirstVP8 (specChunksGo l l.length c) with
    | none => rfl
    | some pr => simp

/-- The claim's version of the extractor, following the claim's words: the
chunk scan starts at byte 12 (directly after the RIFF/WEBP file header). -/
def extractKeyframeFromWebP_claimed (l : List Nat) : Except String (List Nat × Bool) :=
  match indexOfVP8From l 12 with
  | none => .error "Bad image format, does this browser support WebP?"
  | some _ => extractScan l 12 false

/-- A well-formed WebP layout whose ALPH chunk precedes the VP8 chunk:
RIFF header, then "ALPH" (length 0), then "VP8 " (length 1, payload 0xAA). -/
def webpAlphaExample : List Nat :=
  [82, 73, 70, 70, 21, 0, 0, 0, 87, 69, 66, 80,
   65, 76, 80, 72, 0, 0, 0, 0,
   86, 80, 56, 32, 1, 0, 0, 0, 170]

/-- C5 counterexample: the code jumps to `indexOf('VP8', 12)` and so never
sees the preceding ALPH chunk — it reports has_alpha = false where the
claimed scan-from-byte-12 semantics reports true. -/
theorem c5_counterexample :
    extractKeyframeFromWebP webpAlphaExample = .ok ([170], false) ∧
    extractKeyframeFromWebP_claimed webpAlphaExample = .ok ([170], true) := by
  constructor <;> rfl


/-! ## The muxer (WebMWriter.mjs, src/unnamed/part_002)

The muxer is modelled for its memory-mode, non-transparent happy path: the
browser-side canvas/WebP encoding (`renderAsWebP`, `extractKeyframeFromWebP`
pre-processing, the alpha-channel machinery) is environmental, so `addFrame`
takes the already-extracted VP8 keyframe bytes directly and the `alpha`
argument is not supplied.  Everything downstream of that point — option
validation, cluster accumulation and flushing, EBML tree construction,
header/cues serialization and the three completion rewrites — follows the
source statement by statement. -/

/-- JavaScript truthiness of a possibly-absent (`null`/`undefined`) number
option: absent and `0` are falsy. -/
def jsTruthyQ : Option Rat → Bool
  | none => false
  | some q => decide (q ≠ 0)

/-- Rational addition in a kernel-computable normal form (the core `Rat`
arithmetic operations are irreducible to the kernel; `mkRat` is not).
`qAdd_eq` identifies it with the ordinary `+`. -/
def qAdd (a b : Rat) : Rat := mkRat (a.num * b.den + b.num * a.den) (a.den * b.den)

/-- Rational division in kernel-computable form; `qDiv_eq` identifies it
with `/` away from zero. -/
def qDiv (a b : Rat) : Rat := Rat.divInt (a.num * b.den) (a.den * b.num)

theorem qAdd_eq (a b : Rat) : qAdd a b = a + b := by
  rw [qAdd, Rat.mkRat_eq_div]
  push_cast
  conv_rhs => rw [← Rat.num_div_den a, ← Rat.num_div_den b]
  have hda : ((a.den : ℚ)) ≠ 0 := by exact_mod_cast a.den_nz
  have hdb : ((b.den : ℚ)) ≠ 0 := by exact_mod_cast b.den_nz
  field_simp

theorem qDiv_eq (a b : Rat) (hb : b ≠ 0) : qDiv a b = a / b := by
  rw [qDiv, Rat.divInt_eq_div]
  push_cast
  conv_rhs => rw [← Rat.num_div_den a, ← Rat.num_div_den b]
  have hda : ((a.den : ℚ)) ≠ 0 := by exact_mod_cast a.den_nz
  have hdb : ((b.den : ℚ)) ≠ 0 := by exact_mod_cast b.den_nz
  have hbn : ((b.num : ℚ)) ≠ 0 := by exact_mod_cast Rat.num_ne_zero.mpr hb
  field_simp

/-- `Math.round(x)` (round half up). -/
def jsRound (q : Rat) : Int := (qAdd q (mkRat 1 2)).floor

/-- The muxer options after `extend(optionDefaults, options)`: field defaults
are `optionDefaults`, a user-supplied field replaces the default.  `none`
models `null`/`undefined`. -/
structure MuxOptions where
  quality : Rat := mkRat 19 20
  transparent : Bool := false
  alphaQuality : Option Rat := none
  frameDuration : Option Rat := none
  frameRate : Option Rat := none
deriving DecidableEq, Repr

/-- `Math.min(a, b)` on rationals. -/
def jsMin (a b : Rat) : Rat := if a ≤ b then a else b

/-- `Math.max(a, b)` on rationals. -/
def jsMax (a b : Rat) : Rat := if b ≤ a then a else b

/-- `Math.max(Math.min(q, 0.99999), 0)`. -/
def clampQuality (q : Rat) : Rat := jsMax (jsMin q (mkRat 99999 100000)) 0

/-- `validateOptions()` of WebMWriter.mjs: derive `frameDuration` from
`frameRate` when the former is falsy, else keep it; throw when both are
falsy; then clamp `quality` (and `alphaQuality`, defaulting it to the
clamped quality when undefined). -/
def validateOptions (o : MuxOptions) : Except String MuxOptions :=
  match (if jsTruthyQ o.frameDuration then some o
         else if jsTruthyQ o.frameRate then
           some { o with frameDuration := some (qDiv 1000 (o.frameRate.getD 0)) }
         else none) with
  | none => .error "Missing required frameDuration or frameRate setting"
  | some o1 =>
    let o2 := { o1 with quality := clampQuality o1.quality }
    match o2.alphaQuality with
    | none => .ok { o2 with alphaQuality := some o2.quality }
    | some aq => .ok { o2 with alphaQuality := some (clampQuality aq) }

/-- A cluster-buffered frame: the keyframe bytes, its duration in
milliseconds, and the fields `addFrameToCluster` assigns. -/
structure Frame where
  frame : List Nat
  duration : Rat
  trackNumber : Nat := 0
  timecode : Int := 0
deriving DecidableEq, Repr

def DEFAULT_TRACK_NUMBER : Nat := 1

def MAX_CLUSTER_DURATION_MSEC : Rat := 5000

/-- The muxer's closure state.  The positions stored into the mutated EBML
nodes (`seekPoints.*.positionEBML.data`, `ebmlSegment.offset/dataOffset`,
`seekHead.dataOffset`, `segmentDuration.dataOffset`) are kept as plain
numbers; cue points are kept as (cluster time, segment-relative offset)
pairs and rebuilt into EBML values by `writeCues`. -/
structure MuxState where
  options : MuxOptions
  writtenHeader : Bool := false
  videoWidth : Nat := 0
  videoHeight : Nat := 0
  clusterFrameBuffer : List Frame := []
  clusterStartTime : Rat := 0
  clusterDuration : Rat := 0
  posCues : Nat := 0
  posSegmentInfo : Nat := 0
  posTracks : Nat := 0
  segmentOffset : Nat := 0
  segmentDataOffset : Nat := 0
  seekHeadDataOffset : Nat := 0
  segmentDurationDataOffset : Nat := 0
  cues : List (Nat × Nat) := []
  blobBuffer : BlobBuffer := {}
deriving DecidableEq, Repr

/-- One `Seek` entry of the SeekHead (SeekID bytes, SeekPosition with its
5-byte reserved size). -/
def seekValue (idBytes : List Nat) (pos : Nat) : EBMLValue :=
  .elem 0x4DBB none (.list [.elem 0x53AB none (.bytes idBytes),
    .elem 0x53AC (some 5) (.uint pos)])

/-- `seekHead.data` for the current position values, in the `seekPoints`
iteration order Cues, SegmentInfo, Tracks. -/
def seekHeadChildren (cuesPos infoPos tracksPos : Nat) : List EBMLValue :=
  [seekValue [0x1C, 0x53, 0xBB, 0x6B] cuesPos,
   seekValue [0x15, 0x49, 0xA9, 0x66] infoPos,
   seekValue [0x16, 0x54, 0xAE, 0x6B] tracksPos]

/-- `createSeekHead()`. -/
def seekHeadValue (cuesPos infoPos tracksPos : Nat) : EBMLValue :=
  .elem 0x114D9B74 none (.list (seekHeadChildren cuesPos infoPos tracksPos))

/-- The EBML document header of `writeHeader()` ("webm" DocType). -/
def ebmlHeaderValue : EBMLValue :=
  .elem 0x1a45dfa3 none (.list [
    .elem 0x4286 none (.uint 1),
    .elem 0x42f7 none (.uint 1),
    .elem 0x42f2 none (.uint 4),
    .elem 0x42f3 none (.uint 8),
    .elem 0x4282 none (.str [119, 101, 98, 109]),
    .elem 0x4287 none (.uint 2),
    .elem 0x4285 none (.uint 2)])

/-- "webm-writer-js". -/
def webmWriterJsBytes : List Nat :=
  [119, 101, 98, 109, 45, 119, 114, 105, 116, 101, 114, 45, 106, 115]

/-- The `segmentInfo` element (TimecodeScale 1e6, app names, Duration 0). -/
def segmentInfoValue : EBMLValue :=
  .elem 0x1549a966 none (.list [
    .elem 0x2ad7b1 none (.uint 1000000),
    .elem 0x4d80 none (.str webmWriterJsBytes),
    .elem 0x5741 none (.str webmWriterJsBytes),
    .elem 0x4489 none (.float64 0)])

/-- `videoProperties` (PixelWidth, PixelHeight, AlphaMode when
transparent). -/
def videoPropertiesValue (w h : Nat) (transparent : Bool) : List EBMLValue :=
  [.elem 0xb0 none (.uint w), .elem 0xba none (.uint h)] ++
    (if transparent then [.elem 0x53C0 none (.uint 1)] else [])

/-- The `tracks` element of `writeHeader()`. -/
def tracksValue (w h : Nat) (transparent : Bool) : EBMLValue :=
  .elem 0x1654ae6b none (.list [
    .elem 0xae none (.list [
      .elem 0xd7 none (.uint DEFAULT_TRACK_NUMBER),
      .elem 0x73c5 none (.uint DEFAULT_TRACK_NUMBER),
      .elem 0x9c none (.uint 0),
      .elem 0x22b59c none (.str [117, 110, 100]),
      .elem 0x86 none (.str [86, 95, 86, 80, 56]),
      .elem 0x258688 none (.str [86, 80, 56]),
      .elem 0x83 none (.uint 1),
      .elem 0xe0 none (.list (videoPropertiesValue w h transparent))])])

/-- The root `ebmlSegment` (size UNKNOWN_5_BYTES, to be patched at
completion). -/
def ebmlSegmentValue (cuesPos infoPos tracksPos w h : Nat) (transparent : Bool) :
    EBMLValue :=
  .elem 0x18538067 (some EBML_SIZE_UNKNOWN_5_BYTES)
    (.list [seekHeadValue cuesPos infoPos tracksPos, segmentInfoValue,
      tracksValue w h transparent])

/-- `writeHeader()`: serialize `[ebmlHeader, ebmlSegment]` at the current
file position, write it through, then record every offset the muxer later
needs (the seek-position values for SegmentInfo and Tracks become known
here; Cues stays at its initial 0 until `writeCues`). -/
def writeHeader (st : MuxState) : Except String MuxState :=
  match writeEBMLList ⟨[], 0⟩ st.blobBuffer.pos
      [ebmlHeaderValue,
        ebmlSegmentValue st.posCues st.posSegmentInfo st.posTracks
          st.videoWidth st.videoHeight st.options.transparent] with
  | .error e => .error e
  | .ok (stream, anns) =>
    match st.blobBuffer.write (.u8arr stream.getAsDataArray) with
    | .error e => .error e
    | .ok bb2 =>
      let segAnn := anns.getD 1 .leaf
      .ok { st with
        blobBuffer := bb2,
        segmentOffset := segAnn.offset,
        segmentDataOffset := segAnn.dataOffset,
        seekHeadDataOffset := (segAnn.child 0).dataOffset,
        segmentDurationDataOffset := ((segAnn.child 1).child 3).dataOffset,
        posSegmentInfo := (segAnn.child 1).offset - segAnn.dataOffset,
        posTracks := (segAnn.child 2).offset - segAnn.dataOffset,
        writtenHeader := true }

/-- `createSimpleBlockForKeyframe()`: a SimpleBlock whose payload is the
4-byte block header (1-byte track varint, u16 timecode, keyframe flag 0x80)
followed by the keyframe bytes. -/
def createSimpleBlockForKeyframe (f : Frame) : Except String EBMLValue :=
  if 0 < f.trackNumber ∧ f.trackNumber < 127 then
    .ok (.elem 0xA3 none (.list [
      .bytes (ebmlVarIntBytes f.trackNumber ++
        beBytes 2 (f.timecode.emod 65536).toNat ++ [0x80]),
      .str f.frame]))
  else .error "TrackNumber must be > 0 and < 127"

/-- Except-valued map (the `for` loop pushing one container per frame). -/
def mapExcept (f : Frame → Except String EBMLValue) :
    List Frame → Except String (List EBMLValue)
  | [] => .ok []
  | a :: rest =>
    match f a with
    | .error e => .error e
    | .ok b =>
      match mapExcept f rest with
      | .error e => .error e
      | .ok bs => .ok (b :: bs)

/-- `createCluster()` plus the pushed frame containers. -/
def createClusterValue (timecode : Nat) (blocks : List EBMLValue) : EBMLValue :=
  .elem 0x1f43b675 none (.list (.elem 0xe7 none (.uint timecode) :: blocks))

/-- `flushClusterFrameBuffer()`: serialize the buffered frames as a Cluster,
append it, record a cue point at the cluster's offset, then advance the
cluster clock. -/
def flushClusterFrameBuffer (st : MuxState) : Except String MuxState :=
  if st.clusterFrameBuffer.length = 0 then .ok st
  else
    match mapExcept createSimpleBlockForKeyframe st.clusterFrameBuffer with
    | .error e => .error e
    | .ok blocks =>
      match writeEBML ⟨[], 0⟩ st.blobBuffer.pos
          (createClusterValue (jsRound st.clusterStartTime).toNat blocks) with
      | .error e => .error e
      | .ok (stream, ann) =>
        match st.blobBuffer.write (.u8arr stream.getAsDataArray) with
        | .error e => .error e
        | .ok bb2 =>
          .ok { st with blobBuffer := bb2, cues := st.cues ++ [((jsRound st.clusterStartTime).toNat, ann.offset - st.segmentDataOffset)], clusterFrameBuffer := [], clusterStartTime := qAdd st.clusterStartTime st.clusterDuration, clusterDuration := 0 }

/-- `addFrameToCluster()`: stamp the frame, buffer it, accumulate the
cluster duration, and flush when it reaches 5000 ms. -/
def addFrameToCluster (st : MuxState) (f : Frame) : Except String MuxState :=
  let f2 : Frame :=
    { f with trackNumber := DEFAULT_TRACK_NUMBER, timecode := jsRound st.clusterDuration }
  let st2 := { st with clusterFrameBuffer := st.clusterFrameBuffer ++ [f2],
                       clusterDuration := qAdd st.clusterDuration f.duration }
  if st2.clusterDuration ≥ MAX_CLUSTER_DURATION_MSEC then flushClusterFrameBuffer st2
  else .ok st2

/-- `addFrame(frame, alpha, overrideFrameDuration)` for a non-transparent
keyframe with `alpha` not supplied: write the header first if needed
(capturing the frame's dimensions), pick the frame duration (the override
when truthy, else the validated `options.frameDuration`), and hand the frame
to the cluster. -/
def addFrame (st : MuxState) (kf : List Nat) (w h : Nat) (overrideDur : Option Rat) :
    Except String MuxState :=
  match (if st.writtenHeader then .ok st
         else writeHeader { st with videoWidth := w, videoHeight := h }) with
  | .error e => .error e
  | .ok st1 =>
    addFrameToCluster st1
      { frame := kf,
        duration := if jsTruthyQ overrideDur then overrideDur.getD 0
                    else st1.options.frameDuration.getD 0 }

/-- One CuePoint (CueTime, CueTrackPositions with track and cluster
position). -/
def cueValue (time pos : Nat) : EBMLValue :=
  .elem 0xBB none (.list [
    .elem 0xB3 none (.uint time),
    .elem 0xB7 none (.list [
      .elem 0xF7 none (.uint DEFAULT_TRACK_NUMBER),
      .elem 0xF1 none (.uint pos)])])

/-- `writeCues()`: append the Cues element and record its position into the
SeekHead's Cues entry. -/
def writeCues (st : MuxState) : Except String MuxState :=
  match writeEBML ⟨[], 0⟩ st.blobBuffer.pos
      (.elem 0x1C53BB6B none (.list (st.cues.map fun c => cueValue c.1 c.2))) with
  | .error e => .error e
  | .ok (stream, ann) =>
    match st.blobBuffer.write (.u8arr stream.getAsDataArray) with
    | .error e => .error e
    | .ok bb2 =>
      .ok { st with blobBuffer := bb2, posCues := ann.offset - st.segmentDataOffset }

/-- `rewriteSeekHead()`: re-serialize the SeekHead's children with the now
known positions, overwrite them in place at `seekHead.dataOffset`, and
restore the cursor. -/
def rewriteSeekHead (st : MuxState) : Except String MuxState :=
  let oldPos := st.blobBuffer.pos
  match writeEBMLList ⟨[], 0⟩ st.seekHeadDataOffset
      (seekHeadChildren st.posCues st.posSegmentInfo st.posTracks) with
  | .error e => .error e
  | .ok (stream, _) =>
    match st.blobBuffer.seek st.seekHeadDataOffset with
    | .error e => .error e
    | .ok bb1 =>
      match bb1.write (.u8arr stream.getAsDataArray) with
      | .error e => .error e
      | .ok bb2 =>
        match bb2.seek oldPos with
        | .error e => .error e
        | .ok bb3 => .ok { st with blobBuffer := bb3 }

/-- `rewriteDuration()`: overwrite the Duration element's float64 payload
with the final `clusterStartTime` and restore the cursor. -/
def rewriteDuration (st : MuxState) : Except String MuxState :=
  let oldPos := st.blobBuffer.pos
  match st.blobBuffer.seek st.segmentDurationDataOffset with
  | .error e => .error e
  | .ok bb1 =>
    match bb1.write (.u8arr (float64BE st.clusterStartTime)) with
    | .error e => .error e
    | .ok bb2 =>
      match bb2.seek oldPos with
      | .error e => .error e
      | .ok bb3 => .ok { st with blobBuffer := bb3 }

/-- `rewriteSegmentLength()`: overwrite the Segment's id and its 5-byte-wide
size varint (`blobBuffer.pos - ebmlSegment.dataOffset`) at
`ebmlSegment.offset`, then restore the cursor. -/
def rewriteSegmentLength (st : MuxState) : Except String MuxState :=
  let oldPos := st.blobBuffer.pos
  let patch := beBytes (measureUnsignedInt 0x18538067) 0x18538067 ++
    ebmlVarIntWidthBytes (oldPos - st.segmentDataOffset) 5
  match st.blobBuffer.seek st.segmentOffset with
  | .error e => .error e
  | .ok bb1 =>
    match bb1.write (.u8arr patch) with
    | .error e => .error e
    | .ok bb2 =>
      match bb2.seek oldPos with
      | .error e => .error e
      | .ok bb3 => .ok { st with blobBuffer := bb3 }

/-- `complete()`: header if missing, flush, cues, the three rewrites, then
the materialized blob. -/
def complete (st : MuxState) : Except String (MuxState × List Nat) :=
  match (if st.writtenHeader then .ok st else writeHeader st) with
  | .error e => .error e
  | .ok st1 =>
    match flushClusterFrameBuffer st1 with
    | .error e => .error e
    | .ok st2 =>
      match writeCues st2 with
      | .error e => .error e
      | .ok st3 =>
        match rewriteSeekHead st3 with
        | .error e => .error e
        | .ok st4 =>
          match rewriteDuration st4 with
          | .error e => .error e
          | .ok st5 =>
            match rewriteSegmentLength st5 with
            | .error e => .error e
            | .ok st6 => .ok (st6, st6.blobBuffer.complete)

/-- `new WebMWriter(options)`: extend the defaults and validate. -/
def WebMWriterInit (o : MuxOptions) : Except String MuxState :=
  match validateOptions o with
  | .error e => .error e
  | .ok o2 => .ok { options := o2 }

/-- A run of `addFrame` calls (keyframe bytes, dimensions, optional duration
override). -/
def addFrames (st : MuxState) : List (List Nat × Nat × Nat × Option Rat) →
    Except String MuxState
  | [] => .ok st
  | (kf, w, h, od) :: rest =>
    match addFrame st kf w h od with
    | .error e => .error e
    | .ok st2 => addFrames st2 rest

/-- Construction followed by a sequence of `addFrame` calls. -/
def muxRun (o : MuxOptions) (calls : List (List Nat × Nat × Nat × Option Rat)) :
    Except String MuxState :=
  match WebMWriterInit o with
  | .error e => .error e
  | .ok st => addFrames st calls

/-! ## C8: frame timing validation -/

/-- C8 (amended): construction succeeds iff at least one of `frameDuration`
and `frameRate` is truthy (present and nonzero); a truthy `frameDuration`
always wins, even when `frameRate` is also set, so both-set does not fail;
when only `frameRate` is truthy, `frameDuration` becomes `1000 / frameRate`;
when both are falsy validation throws the missing-frame-timing error. -/
theorem c8_frame_timing_validation (o : MuxOptions) :
    ((∃ o2, validateOptions o = .ok o2) ↔
      (jsTruthyQ o.frameDuration = true ∨ jsTruthyQ o.frameRate = true)) ∧
    (jsTruthyQ o.frameDuration = true →
      ∃ o2, validateOptions o = .ok o2 ∧ o2.frameDuration = o.frameDuration) ∧
    (jsTruthyQ o.frameDuration = false → ∀ r, o.frameRate = some r → r ≠ 0 →
      ∃ o2, validateOptions o = .ok o2 ∧ o2.frameDuration = some (1000 / r)) ∧
    (jsTruthyQ o.frameDuration = false → jsTruthyQ o.frameRate = false →
      validateOptions o = .error "Missing required frameDuration or frameRate setting") := by
  obtain ⟨q, t, aq, fd, fr⟩ := o
  simp only
  by_cases hfd : jsTruthyQ fd
  · have hok : ∃ o2, validateOptions ⟨q, t, aq, fd, fr⟩ = .ok o2 ∧ o2.frameDuration = fd := by
      rw [validateOptions, if_pos hfd]
      cases aq
      · exact ⟨_, rfl, rfl⟩
      · exact ⟨_, rfl, rfl⟩
    refine ⟨⟨fun _ => Or.inl hfd, fun _ => ?_⟩, fun _ => hok,
      fun hf => absurd hfd (by rw [hf]; simp), fun hf => absurd hfd (by rw [hf]; simp)⟩
    exact ⟨hok.choose, hok.choose_spec.1⟩
  · have hfd2 : jsTruthyQ fd = false := by simpa using hfd
    by_cases hfr : jsTruthyQ fr
    · have hok : ∃ o2, validateOptions ⟨q, t, aq, fd, fr⟩ = .ok o2 ∧
          o2.frameDuration = some (qDiv 1000 (fr.getD 0)) := by
        rw [validateOptions, if_neg hfd, if_pos hfr]
        cases aq
        · exact ⟨_, rfl, rfl⟩
        · exact ⟨_, rfl, rfl⟩
      refine ⟨⟨fun _ => Or.inr hfr, fun _ => ⟨hok.choose, hok.choose_spec.1⟩⟩,
        fun hf => absurd hf (by rw [hfd2]; simp), fun _ r hr hrne => ?_, fun _ hf => absurd hfr (by rw [hf]; simp)⟩
      refine ⟨hok.choose, hok.choose_spec.1, ?_⟩
      rw [hok.choose_spec.2, hr]
      show some (qDiv 1000 r) = some (1000 / r)
      rw [qDiv_eq 1000 r hrne]
    · have hfr2 : jsTruthyQ fr = false := by simpa using hfr
      have herr : validateOptions ⟨q, t, aq, fd, fr⟩ =
          .error "Missing required frameDuration or frameRate setting" := by
        rw [validateOptions, if_neg hfd, if_neg hfr]
      refine ⟨⟨?_, fun hor => ?_⟩, fun hf => absurd hf (by rw [hfd2]; simp),
        fun _ r hr hrne => ?_, fun _ _ => herr⟩
      · rintro ⟨o2, ho2⟩
        rw [herr] at ho2
        exact absurd ho2 (by simp)
      · rcases hor with hor | hor
        · rw [hfd2] at hor; exact absurd hor (by simp)
        · rw [hfr2] at hor; exact absurd hor (by simp)
      · rw [hr] at hfr2
        simp [jsTruthyQ] at hfr2
        exact absurd hfr2 hrne

/-! ## C6: cluster duration accounting -/

/-- Total duration of the buffered frames. -/
def durSum (fs : List Frame) : Rat := (fs.map Frame.duration).sum

theorem durSum_append_one (fs : List Frame) (f : Frame) :
    durSum (fs ++ [f]) = durSum fs + f.duration := by
  simp [durSum]

/-- C6: `addFrameToCluster` flushes the pending cluster exactly when the
accumulated duration reaches or exceeds 5000 ms, so a flushed cluster's total
duration is below 5000 plus the last frame's duration, and after every call
either the buffer is empty or the accumulated duration is below 5000 ms. -/
theorem c6_cluster_duration_flush (st : MuxState) (f : Frame) (st' : MuxState)
    (hsum : st.clusterDuration = durSum st.clusterFrameBuffer)
    (hlow : st.clusterFrameBuffer = [] ∨ st.clusterDuration < MAX_CLUSTER_DURATION_MSEC)
    (hnn : 0 ≤ f.duration)
    (h : addFrameToCluster st f = .ok st') :
    ((MAX_CLUSTER_DURATION_MSEC ≤ st.clusterDuration + f.duration →
       st'.clusterFrameBuffer = [] ∧ st'.clusterDuration = 0 ∧
       durSum (st.clusterFrameBuffer ++
         [{ f with trackNumber := DEFAULT_TRACK_NUMBER, timecode := jsRound st.clusterDuration }]) <
         MAX_CLUSTER_DURATION_MSEC + f.duration) ∧
     (st.clusterDuration + f.duration < MAX_CLUSTER_DURATION_MSEC →
       st'.clusterFrameBuffer = st.clusterFrameBuffer ++
         [{ f with trackNumber := DEFAULT_TRACK_NUMBER, timecode := jsRound st.clusterDuration }] ∧
       st'.clusterDuration = st.clusterDuration + f.duration)) ∧
    st'.clusterDuration = durSum st'.clusterFrameBuffer ∧
    (st'.clusterFrameBuffer = [] ∨ st'.clusterDuration < MAX_CLUSTER_DURATION_MSEC) := by
  have hdlow : st.clusterDuration < MAX_CLUSTER_DURATION_MSEC := by
    rcases hlow with he | hlt
    · rw [hsum, he]
      simp [durSum, MAX_CLUSTER_DURATION_MSEC]
    · exact hlt
  rw [addFrameToCluster] at h
  simp only [qAdd_eq] at h
  by_cases hge : MAX_CLUSTER_DURATION_MSEC ≤ st.clusterDuration + f.duration
  · rw [if_pos (by simpa using hge)] at h
    rw [flushClusterFrameBuffer] at h
    simp only at h
    rw [if_neg (by simp)] at h
    rcases hmE : mapExcept createSimpleBlockForKeyframe (st.clusterFrameBuffer ++
        [{ f with trackNumber := DEFAULT_TRACK_NUMBER, timecode := jsRound st.clusterDuration }]) with e | blocks
    · rw [hmE] at h; exact absurd h (by simp)
    · rw [hmE] at h
      simp only at h
      rcases hwE : writeEBML ⟨[], 0⟩ st.blobBuffer.pos
          (createClusterValue (jsRound st.clusterStartTime).toNat blocks) with e | p
      · rw [hwE] at h; exact absurd h (by simp)
      · rw [hwE] at h
        simp only at h
        rcases hbE : st.blobBuffer.write (.u8arr p.1.getAsDataArray) with e | bb2
        · rw [hbE] at h; exact absurd h (by simp)
        · rw [hbE] at h
          simp only at h
          cases h
          refine ⟨⟨fun _ => ⟨rfl, rfl, ?_⟩, fun hlt => absurd hge (by simpa using hlt)⟩, by simp [durSum], Or.inl rfl⟩
          rw [durSum_append_one, ← hsum]
          simp only
          linarith
  · rw [if_neg (by simpa using hge)] at h
    cases h
    push_neg at hge
    refine ⟨⟨fun hge2 => absurd hge2 (by simpa using hge), fun _ => ⟨rfl, rfl⟩⟩, ?_, Or.inr (by simpa using hge)⟩
    simp only [durSum_append_one, ← hsum]

/-! ## C7: behaviour after complete() -/

theorem flush_fields {st st' : MuxState} (h : flushClusterFrameBuffer st = .ok st') :
    st'.writtenHeader = st.writtenHeader ∧ st'.options = st.options ∧
    st'.clusterFrameBuffer = [] ∨ st' = st := by
  rw [flushClusterFrameBuffer] at h
  by_cases he : st.clusterFrameBuffer.length = 0
  · rw [if_pos he] at h; cases h; exact Or.inr rfl
  · rw [if_neg he] at h
    rcases hmE : mapExcept createSimpleBlockForKeyframe st.clusterFrameBuffer with e | blocks
    · rw [hmE] at h; exact absurd h (by simp)
    · rw [hmE] at h
      simp only at h
      rcases hwE : writeEBML ⟨[], 0⟩ st.blobBuffer.pos
          (createClusterValue (jsRound st.clusterStartTime).toNat blocks) with e | p
      · rw [hwE] at h; exact absurd h (by simp)
      · rw [hwE] at h
        simp only at h
        rcases hbE : st.blobBuffer.write (.u8arr p.1.getAsDataArray) with e | bb2
        · rw [hbE] at h; exact absurd h (by simp)
        · rw [hbE] at h
          simp only at h
          cases h
          exact Or.inl ⟨rfl, rfl, rfl⟩

theorem writeCues_fields {st st' : MuxState} (h : writeCues st = .ok st') :
    st'.writtenHeader = st.writtenHeader ∧ st'.options = st.options ∧
    st'.clusterFrameBuffer = st.clusterFrameBuffer ∧
    st'.clusterDuration = st.clusterDuration := by
  rw [writeCues] at h
  rcases hwE : writeEBML ⟨[], 0⟩ st.blobBuffer.pos
      (.elem 0x1C53BB6B none (.list (st.cues.map fun c => cueValue c.1 c.2))) with e | p
  · rw [hwE] at h; exact absurd h (by simp)
  · rw [hwE] at h
    simp only at h
    rcases hbE : st.blobBuffer.write (.u8arr p.1.getAsDataArray) with e | bb2
    · rw [hbE] at h; exact absurd h (by simp)
    · rw [hbE] at h
      simp only at h
      cases h
      exact ⟨rfl, rfl, rfl, rfl⟩

theorem rewriteSeekHead_fields {st st' : MuxState} (h : rewriteSeekHead st = .ok st') :
    ∃ bb, st' = { st with blobBuffer := bb } := by
  rw [rewriteSeekHead] at h
  rcases hwE : writeEBMLList ⟨[], 0⟩ st.seekHeadDataOffset
      (seekHeadChildren st.posCues st.posSegmentInfo st.posTracks) with e | p
  · rw [hwE] at h; exact absurd h (by simp)
  · rw [hwE] at h
    simp only at h
    rcases h1 : st.blobBuffer.seek st.seekHeadDataOffset with e | bb1
    · rw [h1] at h; exact absurd h (by simp)
    · rw [h1] at h
      simp only at h
      rcases h2 : bb1.write (.u8arr p.1.getAsDataArray) with e | bb2
      · rw [h2] at h; exact absurd h (by simp)
      · rw [h2] at h
        simp only at h
        rcases h3 : bb2.seek st.blobBuffer.pos with e | bb3
        · rw [h3] at h; exact absurd h (by simp)
        · rw [h3] at h
          simp only at h
          cases h
          exact ⟨bb3, rfl⟩

theorem rewriteDuration_fields {st st' : MuxState} (h : rewriteDuration st = .ok st') :
    ∃ bb, st' = { st with blobBuffer := bb } := by
  rw [rewriteDuration] at h
  rcases h1 : st.blobBuffer.seek st.segmentDurationDataOffset with e | bb1
  · rw [h1] at h; exact absurd h (by simp)
  · rw [h1] at h
    simp only at h
    rcases h2 : bb1.write (.u8arr (float64BE st.clusterStartTime)) with e | bb2
    · rw [h2] at h; exact absurd h (by simp)
    · rw [h2] at h
      simp only at h
      rcases h3 : bb2.seek st.blobBuffer.pos with e | bb3
      · rw [h3] at h; exact absurd h (by simp)
      · rw [h3] at h
        simp only at h
        cases h
        exact ⟨bb3, rfl⟩

theorem rewriteSegmentLength_fields {st st' : MuxState} (h : rewriteSegmentLength st = .ok st') :
    ∃ bb, st' = { st with blobBuffer := bb } := by
  rw [rewriteSegmentLength] at h
  rcases h1 : st.blobBuffer.seek st.segmentOffset with e | bb1
  · rw [h1] at h; exact absurd h (by simp)
  · rw [h1] at h
    simp only at h
    rcases h2 : bb1.write (.u8arr (beBytes (measureUnsignedInt 0x18538067) 0x18538067 ++
        ebmlVarIntWidthBytes (st.blobBuffer.pos - st.segmentDataOffset) 5)) with e | bb2
    · rw [h2] at h; exact absurd h (by simp)
    · rw [h2] at h
      simp only at h
      rcases h3 : bb2.seek st.blobBuffer.pos with e | bb3
      · rw [h3] at h; exact absurd h (by simp)
      · rw [h3] at h
        simp only at h
        cases h
        exact ⟨bb3, rfl⟩

theorem writeHeader_fields {st st' : MuxState} (h : writeHeader st = .ok st') :
    st'.writtenHeader = true ∧ st'.options = st.options ∧
    st'.clusterFrameBuffer = st.clusterFrameBuffer ∧
    st'.clusterDuration = st.clusterDuration := by
  unfold writeHeader at h
  generalize hwE : writeEBMLList ⟨[], 0⟩ st.blobBuffer.pos
      [ebmlHeaderValue, ebmlSegmentValue st.posCues st.posSegmentInfo st.posTracks
        st.videoWidth st.videoHeight st.options.transparent] = res at h
  rcases res with e | p
  · exact absurd h (by simp)
  · simp only at h
    rcases hbE : st.blobBuffer.write (.u8arr p.1.getAsDataArray) with e | bb2
    · rw [hbE] at h; exact absurd h (by simp)
    · rw [hbE] at h
      simp only at h
      cases h
      exact ⟨rfl, rfl, rfl, rfl⟩

/-- C7 (amended): the muxer keeps no completed flag, so after a successful
`complete()` the state still has `writtenHeader = true` and a further
`addFrame` succeeds whenever the pending cluster duration plus the frame
duration stays below the 5000 ms flush threshold; further calls do not fail. -/
theorem c7_after_complete (st st2 : MuxState) (bytes : List Nat)
    (h : complete st = .ok (st2, bytes)) :
    st2.writtenHeader = true ∧
    ∀ (kf : List Nat) (w hgt : Nat),
      st2.clusterDuration + st2.options.frameDuration.getD 0 < MAX_CLUSTER_DURATION_MSEC →
      ∃ st3, addFrame st2 kf w hgt none = .ok st3 := by
  unfold complete at h
  generalize hs1 : (if st.writtenHeader = true then Except.ok st else writeHeader st) = r1 at h
  rcases r1 with e | st1
  · exact absurd h (by simp)
  have hwh1 : st1.writtenHeader = true := by
    by_cases hw : st.writtenHeader = true
    · rw [if_pos hw] at hs1
      injection hs1 with hs1
      rw [← hs1]; exact hw
    · rw [if_neg hw] at hs1
      exact (writeHeader_fields hs1).1
  simp only at h
  generalize hs2 : flushClusterFrameBuffer st1 = r2 at h
  rcases r2 with e | stf
  · exact absurd h (by simp)
  have hwhf : stf.writtenHeader = true := by
    rcases flush_fields hs2 with ⟨hw, _, _⟩ | heq
    · rw [hw]; exact hwh1
    · rw [heq]; exact hwh1
  simp only at h
  generalize hs3 : writeCues stf = r3 at h
  rcases r3 with e | stc
  · exact absurd h (by simp)
  have hwhc : stc.writtenHeader = true := by
    rw [(writeCues_fields hs3).1]; exact hwhf
  simp only at h
  generalize hs4 : rewriteSeekHead stc = r4 at h
  rcases r4 with e | st4
  · exact absurd h (by simp)
  have hwh4 : st4.writtenHeader = true := by
    rcases rewriteSeekHead_fields hs4 with ⟨bb, rfl⟩
    exact hwhc
  simp only at h
  generalize hs5 : rewriteDuration st4 = r5 at h
  rcases r5 with e | st5
  · exact absurd h (by simp)
  have hwh5 : st5.writtenHeader = true := by
    rcases rewriteDuration_fields hs5 with ⟨bb, rfl⟩
    exact hwh4
  simp only at h
  generalize hs6 : rewriteSegmentLength st5 = r6 at h
  rcases r6 with e | st6
  · exact absurd h (by simp)
  have hwh6 : st6.writtenHeader = true := by
    rcases rewriteSegmentLength_fields hs6 with ⟨bb, rfl⟩
    exact hwh5
  simp only [Except.ok.injEq, Prod.mk.injEq] at h
  obtain ⟨h1, h2⟩ := h
  subst h1
  refine ⟨hwh6, fun kf w hgt hlt => ?_⟩
  unfold addFrame
  rw [if_pos hwh6]
  simp only
  unfold addFrameToCluster
  simp only [jsTruthyQ, Bool.false_eq_true, if_false]
  rw [if_neg ?hge]
  case hge =>
    simp only [ge_iff_le, not_le, qAdd_eq]
    exact hlt
  exact ⟨_, rfl⟩

/-- The serialized bytes of one `Seek` entry: the ids and the back-patched
size field are fixed, only the 5-byte position payload varies, so a Seek
entry always serializes to 21 bytes. -/
def seekValueBytes (idB : List Nat) (v : Nat) : List Nat :=
  [0x4D, 0xBB, 0x10, 0x00, 0x00, 0x0F, 0x53, 0xAB, 0x84] ++ idB ++
    [0x53, 0xAC, 0x85] ++ beBytes 5 v

theorem seekValueBytes_length (idB : List Nat) (h : idB.length = 4) (v : Nat) :
    (seekValueBytes idB v).length = 21 := by
  simp [seekValueBytes, h, beBytes_length]

theorem seekValue_inner_serialize (idB : List Nat) (hlen : idB.length = 4) (v : Nat)
    (s : ArrayBufferDataStream) (off : Nat) (hpos : s.pos = s.data.length) :
    ∃ anns, writeEBMLList s off
        [.elem 0x53AB none (.bytes idB), .elem 0x53AC (some 5) (.uint v)] =
      .ok (⟨s.data ++ [0x53, 0xAB] ++ [0x84] ++ idB ++ [0x53, 0xAC] ++ [0x85] ++ beBytes 5 v,
        (s.data ++ [0x53, 0xAB] ++ [0x84] ++ idB ++ [0x53, 0xAC] ++ [0x85] ++ beBytes 5 v).length⟩,
        anns) := by
  exact ⟨_, by
    rw [writeEBMLList]
    simp only [writeEBML, if_neg (by decide : ¬(0x53AB = 0)),
      ArrayBufferDataStream.writeUnsignedIntBE, ArrayBufferDataStream.writeEBMLVarInt]
    rw [show beBytes (measureUnsignedInt 0x53AB) 0x53AB = [0x53, 0xAB] from by decide,
      hlen, show ebmlVarIntBytes 4 = [0x84] from by decide]
    rw [writeBytes3_append hpos]
    rw [writeEBMLList]
    simp only [writeEBML, if_neg (by decide : ¬(0x53AC = 0)),
      ArrayBufferDataStream.writeUnsignedIntBE, ArrayBufferDataStream.writeEBMLVarInt]
    rw [if_neg (by decide : ¬((5 : Int) = 0)),
      show ((5 : Int).toNat) = 5 from rfl,
      show beBytes (measureUnsignedInt 0x53AC) 0x53AC = [0x53, 0xAC] from by decide,
      show ebmlVarIntBytes 5 = [0x85] from by decide]
    rw [writeBytes3_append rfl]
    rw [writeEBMLList]⟩

theorem seekValue_serialize (idB : List Nat) (hlen : idB.length = 4) (v : Nat)
    (s : ArrayBufferDataStream) (off : Nat) (hpos : s.pos = s.data.length) :
    ∃ ann, writeEBML s off (seekValue idB v) =
      .ok (⟨s.data ++ seekValueBytes idB v, (s.data ++ seekValueBytes idB v).length⟩, ann) := by
  obtain ⟨r, hr⟩ := writeEBML_ok (seekValue idB v)
    (by rw [seekValue]; exact ⟨by decide, ⟨by decide, trivial⟩, ⟨by decide, trivial⟩, trivial⟩) s off
  obtain ⟨rs, rann⟩ := r
  rw [seekValue] at hr
  obtain ⟨cb, anns, st, hl, hst, hdat, hvl, hp, hpst, hann⟩ :=
    writeEBML_children_normal s off 0x4DBB none _ hpos (by decide) (by decide) (by decide) _ hr
  rw [show beBytes (measureUnsignedInt 0x4DBB) 0x4DBB = [0x4D, 0xBB] from by decide] at hl hst hdat
  obtain ⟨anns2, hEval⟩ := seekValue_inner_serialize idB hlen v
    ⟨s.data ++ [0x4D, 0xBB] ++ [0, 0, 0, 0], (s.data ++ [0x4D, 0xBB] ++ [0, 0, 0, 0]).length⟩ off rfl
  rw [hEval] at hl
  simp only [Except.ok.injEq, Prod.mk.injEq] at hl
  obtain ⟨hl1, hl2⟩ := hl
  rw [← hl1] at hst
  simp only at hst
  have hcb : cb = [0x53, 0xAB] ++ [0x84] ++ idB ++ [0x53, 0xAC] ++ [0x85] ++ beBytes 5 v := by
    have h2 := hst.symm
    simp only [List.append_assoc] at h2 ⊢
    exact List.append_cancel_left (List.append_cancel_left (List.append_cancel_left h2))
  have hcblen : cb.length = 15 := by
    rw [hcb]
    simp [hlen, beBytes_length]
  refine ⟨rann, ?_⟩
  rw [seekValue, hr]
  have hdata : rs.data = s.data ++ seekValueBytes idB v := by
    rw [hdat, hcblen, hcb,
      show ebmlVarIntWidthBytes 15 4 = [0x10, 0x00, 0x00, 0x0F] from by decide,
      seekValueBytes]
    simp [List.append_assoc]
  have hpos2 : rs.pos = (s.data ++ seekValueBytes idB v).length := by
    rw [← hdata]
    exact hp
  congr 1
  obtain ⟨d, p⟩ := rs
  simp only at hdata hpos2
  rw [hdata, hpos2]

/-- The SeekHead children always serialize to exactly 63 bytes, no matter
what position values are stored (SeekPosition payloads are fixed 5-byte
uints): this is what lets `rewriteSeekHead` overwrite them in place. -/
theorem seekHeadChildren_serialize (c i t : Nat) (s : ArrayBufferDataStream) (off : Nat)
    (hpos : s.pos = s.data.length) :
    ∃ anns st2, writeEBMLList s off (seekHeadChildren c i t) = .ok (st2, anns) ∧
      st2.data = s.data ++ (seekValueBytes [0x1C, 0x53, 0xBB, 0x6B] c ++
        (seekValueBytes [0x15, 0x49, 0xA9, 0x66] i ++ seekValueBytes [0x16, 0x54, 0xAE, 0x6B] t)) ∧
      st2.pos = st2.data.length ∧
      st2.data.length = s.data.length + 63 := by
  obtain ⟨a1, h1⟩ := seekValue_serialize [0x1C, 0x53, 0xBB, 0x6B] (by decide) c s off hpos
  obtain ⟨a2, h2⟩ := seekValue_serialize [0x15, 0x49, 0xA9, 0x66] (by decide) i
    ⟨s.data ++ seekValueBytes [0x1C, 0x53, 0xBB, 0x6B] c,
      (s.data ++ seekValueBytes [0x1C, 0x53, 0xBB, 0x6B] c).length⟩ off rfl
  simp only at h2
  obtain ⟨a3, h3⟩ := seekValue_serialize [0x16, 0x54, 0xAE, 0x6B] (by decide) t
    ⟨s.data ++ seekValueBytes [0x1C, 0x53, 0xBB, 0x6B] c ++ seekValueBytes [0x15, 0x49, 0xA9, 0x66] i,
      (s.data ++ seekValueBytes [0x1C, 0x53, 0xBB, 0x6B] c ++ seekValueBytes [0x15, 0x49, 0xA9, 0x66] i).length⟩ off rfl
  simp only at h3
  refine ⟨[a1, a2, a3],
    ⟨s.data ++ seekValueBytes [0x1C, 0x53, 0xBB, 0x6B] c ++ seekValueBytes [0x15, 0x49, 0xA9, 0x66] i ++ seekValueBytes [0x16, 0x54, 0xAE, 0x6B] t,
      (s.data ++ seekValueBytes [0x1C, 0x53, 0xBB, 0x6B] c ++ seekValueBytes [0x15, 0x49, 0xA9, 0x66] i ++ seekValueBytes [0x16, 0x54, 0xAE, 0x6B] t).length⟩,
    ?_, ?_, ?_, ?_⟩
  · rw [seekHeadChildren, writeEBMLList, h1]
    simp only
    rw [writeEBMLList, h2]
    simp only
    rw [writeEBMLList, h3]
    simp only
    rw [writeEBMLList]
  · simp [List.append_assoc]
  · rfl
  · simp [List.append_assoc, seekValueBytes_length [0x1C, 0x53, 0xBB, 0x6B] (by decide),
      seekValueBytes_length [0x15, 0x49, 0xA9, 0x66] (by decide),
      seekValueBytes_length [0x16, 0x54, 0xAE, 0x6B] (by decide)]

/-- A successful write never disturbs the first chunk's offset or length:
appends leave it alone and a contained overwrite replaces a chunk's data
with bytes of the same length. -/
theorem write_first_chunk {bb : BlobBuffer} {d : JSDatum} {bb2 : BlobBuffer}
    (hInv : SinkInv bb) (h : bb.write d = .ok bb2) {c : Chunk} {rest : List Chunk}
    (hbuf : bb.buffer = c :: rest) :
    ∃ c2 rest2, bb2.buffer = c2 :: rest2 ∧ c2.offset = c.offset ∧
      c2.data.length = c.data.length := by
  rcases hInv with ⟨htiled, hlen, hpos, hzsep⟩
  cases hm : measureData d with
  | error e => rw [BlobBuffer.write, hm] at h; exact absurd h (by simp)
  | ok len =>
  have hlmeas : len = d.bytes.length := measureData_ok hm
  subst hlmeas
  simp only [BlobBuffer.write, hm] at h
  by_cases hA : bb.pos ≥ bb.length
  · rw [if_pos hA] at h
    cases h
    exact ⟨c, rest ++ [{ offset := bb.pos, data := d.bytes }], by simp [hbuf], rfl, rfl⟩
  · rw [if_neg hA] at h
    push_neg at hA
    rcases eq_or_ne d.bytes [] with hnil | hne
    · rw [hnil] at h
      simp only [List.length_nil, Nat.add_zero] at h
      rcases overwriteScan_zero bb.pos bb.buffer 0 htiled with hv | ⟨hv, hall⟩
      · rw [hv] at h
        cases h
        exact ⟨c, rest, hbuf, rfl, rfl⟩
      · rw [hv] at h
        cases h
        exact ⟨c, rest ++ [{ offset := bb.pos, data := [] }], by simp [hbuf], rfl, rfl⟩
    · have hspec := overwriteScan_spec d.bytes bb.pos hne bb.buffer 0 htiled (Nat.zero_le _)
        (by
          intro z hz hze
          refine ⟨?_, (hzsep z hz hze).2⟩
          have := (hzsep z hz hze).1
          omega)
      by_cases hcont : containedAt bb.pos d.bytes.length bb.buffer
      · rcases hspec.1 hcont with ⟨pre, c0, post, hbuf0, hcne, h1, h2, hv, hflat, htl⟩
        rw [hv] at h
        cases h
        have hsplen : (splice c0.data (bb.pos - c0.offset) d.bytes).length = c0.data.length :=
          splice_length (by omega)
        cases pre with
        | nil =>
          simp only [List.nil_append] at hbuf0 ⊢
          rw [hbuf] at hbuf0
          injection hbuf0 with he1 he2
          exact ⟨_, post, rfl, by rw [he1], by rw [hsplen, he1]⟩
        | cons p pre2 =>
          rw [hbuf] at hbuf0
          injection hbuf0 with he1 he2
          exact ⟨p, pre2 ++ { offset := c0.offset, data := splice c0.data (bb.pos - c0.offset) d.bytes } :: post, by simp, by rw [he1], by rw [he1]⟩
      · exfalso
        have h2 := hspec.2 hcont
        rw [h2.1 (by omega)] at h
        simp at h

/-- A successful seek just moves the cursor (and stays within the file). -/
theorem seek_ok {bb : BlobBuffer} {n : Nat} {bb2 : BlobBuffer}
    (h : bb.seek n = .ok bb2) : bb2 = { bb with pos := n } ∧ n ≤ bb.length := by
  rw [BlobBuffer.seek] at h
  by_cases hg : n > bb.length
  · rw [if_pos hg] at h; exact absurd h (by simp)
  · rw [if_neg hg] at h
    cases h
    exact ⟨rfl, by omega⟩

theorem flatWrite_length {flat patch : List Nat} {o : Nat}
    (h : o + patch.length ≤ flat.length) :
    (flatWrite flat o patch).length = flat.length := by
  rw [flatWrite]
  simp only [List.length_append, List.length_take, List.length_drop]
  omega

theorem flatWrite_drop_take {flat patch : List Nat} {o i j : Nat}
    (h : o + patch.length ≤ flat.length) (hij : i + j ≤ patch.length) :
    ((flatWrite flat o patch).drop (o + i)).take j = (patch.drop i).take j := by
  rw [flatWrite]
  rw [show flat.take o ++ patch ++ flat.drop (o + patch.length) =
    flat.take o ++ (patch ++ flat.drop (o + patch.length)) from by simp]
  rw [List.drop_append_eq_append_drop,
    List.drop_eq_nil_of_le (by rw [List.length_take]; omega), List.nil_append,
    List.length_take, show min o flat.length = o from by omega,
    show o + i - o = i from by omega,
    List.drop_append_eq_append_drop,
    List.take_append_eq_append_take,
    List.length_drop,
    show j - (patch.length - i) = 0 from by omega,
    List.take_zero, List.append_nil]

/-- `beValue` of a big-endian encoding recovers the value modulo the width. -/
theorem beValue_append_one (l : List Nat) (b : Nat) :
    beValue (l ++ [b]) = beValue l * 256 + b := by
  induction l with
  | nil => simp [beValue]
  | cons x rest ih =>
    simp only [List.cons_append, beValue]
    rw [show rest.append [b] = rest ++ [b] from rfl, ih]
    simp only [List.length_append, List.length_cons, List.length_nil]
    rw [pow_succ]
    ring

theorem beValue_beBytes (w m : Nat) : beValue (beBytes w m) = m % 256 ^ w := by
  induction w generalizing m with
  | zero => simp [beBytes, beValue, Nat.mod_one]
  | succ w ih =>
    rw [beBytes, beValue_append_one, ih]
    rw [pow_succ', Nat.mod_mul]
    ring

/-- The sink-side invariant the muxer maintains from `writeHeader` on,
phrased over the recorded offsets and the buffer: it is what the segment
size back-patch of `complete()` relies on. -/
structure SinkC4Inv (segO segDO shDO sdDO : Nat) (bb : BlobBuffer) : Prop where
  sink : SinkInv bb
  posEnd : bb.pos = bb.length
  segData : segDO = segO + 9
  segBound : segDO ≤ bb.length
  shBound : shDO + 63 ≤ bb.length
  sdBound : sdDO + 8 ≤ bb.length
  headChunk : ∃ c rest, bb.buffer = c :: rest ∧ c.offset = 0 ∧ segO + 9 ≤ c.data.length

/-- The muxer state invariant: header written and the sink invariant at the
recorded offsets. -/
@[reducible] def MuxC4Inv (st : MuxState) : Prop :=
  st.writtenHeader = true ∧
  SinkC4Inv st.segmentOffset st.segmentDataOffset st.seekHeadDataOffset
    st.segmentDurationDataOffset st.blobBuffer

/-- An append-position write preserves the sink shape facts. -/
theorem bb_append_write {bb : BlobBuffer} {d : JSDatum} {bb2 : BlobBuffer}
    (hInv : SinkInv bb) (hpe : bb.pos = bb.length) (h : bb.write d = .ok bb2) :
    SinkInv bb2 ∧ bb2.pos = bb2.length ∧ bb.length ≤ bb2.length ∧
    (∀ c rest, bb.buffer = c :: rest → ∃ c2 rest2, bb2.buffer = c2 :: rest2 ∧
      c2.offset = c.offset ∧ c2.data.length = c.data.length) := by
  have hs := write_step hInv h
  refine ⟨hs.1, ?_, ?_, fun c rest hb => write_first_chunk hInv h hb⟩
  · rw [hs.2.1, hs.2.2.1, hpe]
    omega
  · rw [hs.2.2.1]
    omega

/-- The seek/overwrite/seek-back pattern of the three rewrite functions. -/
theorem bb_rewrite_pattern {bb : BlobBuffer} {p : Nat} {d : JSDatum} {bb1 bb2 bb3 : BlobBuffer}
    (hInv : SinkInv bb) (hpe : bb.pos = bb.length)
    (hb : p + d.bytes.length ≤ bb.length)
    (h1 : bb.seek p = .ok bb1) (h2 : bb1.write d = .ok bb2)
    (h3 : bb2.seek bb.pos = .ok bb3) :
    SinkInv bb3 ∧ bb3.pos = bb.pos ∧ bb3.length = bb.length ∧ bb3.pos = bb3.length ∧
    chunksBytes bb3.buffer = flatWrite (chunksBytes bb.buffer) p d.bytes ∧
    (∀ c rest, bb.buffer = c :: rest → ∃ c2 rest2, bb3.buffer = c2 :: rest2 ∧
      c2.offset = c.offset ∧ c2.data.length = c.data.length) := by
  obtain ⟨h1e, hple⟩ := seek_ok h1
  subst h1e
  have hInv1 : SinkInv { bb with pos := p } :=
    ⟨hInv.tiled, hInv.len_eq, by simp only; omega, hInv.zsep⟩
  have hs := write_step hInv1 h2
  have hl2 : bb2.length = bb.length := by
    rw [hs.2.2.1]
    simp only
    omega
  obtain ⟨h3e, hple3⟩ := seek_ok h3
  subst h3e
  have hflat : chunksBytes bb2.buffer = flatWrite (chunksBytes bb.buffer) p d.bytes := hs.2.2.2
  refine ⟨⟨hs.1.tiled, by simp only [hl2 ▸ hs.1.len_eq]; exact hl2 ▸ hs.1.len_eq, ?_, ?_⟩,
    rfl, by simp only [hl2], by simp only [hl2, hpe], hflat,
    fun c rest hb2 => ?_⟩
  · simp only
    omega
  · intro z hz hze
    simp only
    exact hs.1.zsep z hz hze
  · exact write_first_chunk hInv1 h2 hb2

theorem SinkC4Inv.appendWrite {segO segDO shDO sdDO : Nat} {bb : BlobBuffer}
    {d : JSDatum} {bb2 : BlobBuffer}
    (hInv : SinkC4Inv segO segDO shDO sdDO bb) (h : bb.write d = .ok bb2) :
    SinkC4Inv segO segDO shDO sdDO bb2 := by
  obtain ⟨hs, hpe2, hlen, hfc⟩ := bb_append_write hInv.sink hInv.posEnd h
  obtain ⟨c, rest, hb, hco, hcl⟩ := hInv.headChunk
  obtain ⟨c2, rest2, hb2, hc2o, hc2l⟩ := hfc c rest hb
  refine ⟨hs, hpe2, hInv.segData, ?_, ?_, ?_, c2, rest2, hb2, by rw [hc2o, hco], by rw [hc2l]; omega⟩
  · have := hInv.segBound; omega
  · have := hInv.shBound; omega
  · have := hInv.sdBound; omega

theorem SinkC4Inv.rewriteStep {segO segDO shDO sdDO : Nat} {bb : BlobBuffer}
    {p : Nat} {d : JSDatum} {bb1 bb2 bb3 : BlobBuffer}
    (hInv : SinkC4Inv segO segDO shDO sdDO bb) (hb : p + d.bytes.length ≤ bb.length)
    (h1 : bb.seek p = .ok bb1) (h2 : bb1.write d = .ok bb2)
    (h3 : bb2.seek bb.pos = .ok bb3) :
    SinkC4Inv segO segDO shDO sdDO bb3 ∧ bb3.length = bb.length ∧ bb3.pos = bb.pos ∧
    chunksBytes bb3.buffer = flatWrite (chunksBytes bb.buffer) p d.bytes := by
  obtain ⟨hs, hpos3, hlen3, hpe3, hflat, hfc⟩ :=
    bb_rewrite_pattern hInv.sink hInv.posEnd hb h1 h2 h3
  obtain ⟨c, rest, hcb, hco, hcl⟩ := hInv.headChunk
  obtain ⟨c2, rest2, hb2, hc2o, hc2l⟩ := hfc c rest hcb
  refine ⟨⟨hs, hpe3, hInv.segData, ?_, ?_, ?_, c2, rest2, hb2, by rw [hc2o, hco],
      by rw [hc2l]; omega⟩, hlen3, hpos3, hflat⟩
  · rw [hlen3]; exact hInv.segBound
  · rw [hlen3]; exact hInv.shBound
  · rw [hlen3]; exact hInv.sdBound

theorem getAsDataArray_of_end {s : ArrayBufferDataStream} (h : s.pos = s.data.length) :
    s.getAsDataArray = s.data := by
  rw [ArrayBufferDataStream.getAsDataArray, h, List.take_length]

theorem flush_inv {st st' : MuxState} (hInv : MuxC4Inv st)
    (h : flushClusterFrameBuffer st = .ok st') : MuxC4Inv st' := by
  rw [flushClusterFrameBuffer] at h
  by_cases he : st.clusterFrameBuffer.length = 0
  · rw [if_pos he] at h
    cases h
    exact hInv
  · rw [if_neg he] at h
    rcases hmE : mapExcept createSimpleBlockForKeyframe st.clusterFrameBuffer with e | blocks
    · rw [hmE] at h; exact absurd h (by simp)
    · rw [hmE] at h
      simp only at h
      rcases hwE : writeEBML ⟨[], 0⟩ st.blobBuffer.pos
          (createClusterValue (jsRound st.clusterStartTime).toNat blocks) with e | p
      · rw [hwE] at h; exact absurd h (by simp)
      · rw [hwE] at h
        simp only at h
        rcases hbE : st.blobBuffer.write (.u8arr p.1.getAsDataArray) with e | bb2
        · rw [hbE] at h; exact absurd h (by simp)
        · rw [hbE] at h
          simp only at h
          cases h
          exact ⟨hInv.1, hInv.2.appendWrite hbE⟩

theorem writeCues_inv {st st' : MuxState} (hInv : MuxC4Inv st)
    (h : writeCues st = .ok st') : MuxC4Inv st' := by
  rw [writeCues] at h
  rcases hwE : writeEBML ⟨[], 0⟩ st.blobBuffer.pos
      (.elem 0x1C53BB6B none (.list (st.cues.map fun c => cueValue c.1 c.2))) with e | p
  · rw [hwE] at h; exact absurd h (by simp)
  · rw [hwE] at h
    simp only at h
    rcases hbE : st.blobBuffer.write (.u8arr p.1.getAsDataArray) with e | bb2
    · rw [hbE] at h; exact absurd h (by simp)
    · rw [hbE] at h
      simp only at h
      cases h
      exact ⟨hInv.1, hInv.2.appendWrite hbE⟩

theorem rewriteSeekHead_inv {st st' : MuxState} (hInv : MuxC4Inv st)
    (h : rewriteSeekHead st = .ok st') :
    MuxC4Inv st' ∧ st'.blobBuffer.length = st.blobBuffer.length ∧
    st'.blobBuffer.pos = st.blobBuffer.pos := by
  rw [rewriteSeekHead] at h
  rcases hwE : writeEBMLList ⟨[], 0⟩ st.seekHeadDataOffset
      (seekHeadChildren st.posCues st.posSegmentInfo st.posTracks) with e | p
  · rw [hwE] at h; exact absurd h (by simp)
  · rw [hwE] at h
    simp only at h
    obtain ⟨anns, st2, hser, hdat, hpe, hlen⟩ :=
      seekHeadChildren_serialize st.posCues st.posSegmentInfo st.posTracks
        ⟨[], 0⟩ st.seekHeadDataOffset rfl
    rw [hwE] at hser
    simp only [Except.ok.injEq] at hser
    rw [hser] at h
    simp only at h
    have hplen : (JSDatum.u8arr st2.getAsDataArray).bytes.length = 63 := by
      simp only [JSDatum.bytes]
      rw [getAsDataArray_of_end hpe]
      simp only [List.length_nil] at hlen
      omega
    rcases h1 : st.blobBuffer.seek st.seekHeadDataOffset with e | bb1
    · rw [h1] at h; exact absurd h (by simp)
    · rw [h1] at h
      simp only at h
      rcases h2 : bb1.write (.u8arr st2.getAsDataArray) with e | bb2
      · rw [h2] at h; exact absurd h (by simp)
      · rw [h2] at h
        simp only at h
        rcases h3 : bb2.seek st.blobBuffer.pos with e | bb3
        · rw [h3] at h; exact absurd h (by simp)
        · rw [h3] at h
          simp only at h
          cases h
          have hstep := hInv.2.rewriteStep (by rw [hplen]; exact hInv.2.shBound) h1 h2 h3
          exact ⟨⟨hInv.1, hstep.1⟩, hstep.2.1, hstep.2.2.1⟩

theorem rewriteDuration_inv {st st' : MuxState} (hInv : MuxC4Inv st)
    (h : rewriteDuration st = .ok st') :
    MuxC4Inv st' ∧ st'.blobBuffer.length = st.blobBuffer.length ∧
    st'.blobBuffer.pos = st.blobBuffer.pos := by
  rw [rewriteDuration] at h
  rcases h1 : st.blobBuffer.seek st.segmentDurationDataOffset with e | bb1
  · rw [h1] at h; exact absurd h (by simp)
  · rw [h1] at h
    simp only at h
    rcases h2 : bb1.write (.u8arr (float64BE st.clusterStartTime)) with e | bb2
    · rw [h2] at h; exact absurd h (by simp)
    · rw [h2] at h
      simp only at h
      rcases h3 : bb2.seek st.blobBuffer.pos with e | bb3
      · rw [h3] at h; exact absurd h (by simp)
      · rw [h3] at h
        simp only at h
        cases h
        have hstep := hInv.2.rewriteStep
          (by simp only [JSDatum.bytes, float64BE, List.length_replicate]; exact hInv.2.sdBound)
          h1 h2 h3
        exact ⟨⟨hInv.1, hstep.1⟩, hstep.2.1, hstep.2.2.1⟩

theorem rewriteSegmentLength_spec {st st' : MuxState} (hInv : MuxC4Inv st)
    (h : rewriteSegmentLength st = .ok st') :
    MuxC4Inv st' ∧
    st'.segmentOffset = st.segmentOffset ∧
    st'.segmentDataOffset = st.segmentDataOffset ∧
    st'.blobBuffer.length = st.blobBuffer.length ∧
    chunksBytes st'.blobBuffer.buffer =
      flatWrite (chunksBytes st.blobBuffer.buffer) st.segmentOffset
        (beBytes (measureUnsignedInt 0x18538067) 0x18538067 ++
          ebmlVarIntWidthBytes (st.blobBuffer.pos - st.segmentDataOffset) 5) := by
  rw [rewriteSegmentLength] at h
  rcases h1 : st.blobBuffer.seek st.segmentOffset with e | bb1
  · rw [h1] at h; exact absurd h (by simp)
  · rw [h1] at h
    simp only at h
    rcases h2 : bb1.write (.u8arr (beBytes (measureUnsignedInt 0x18538067) 0x18538067 ++
        ebmlVarIntWidthBytes (st.blobBuffer.pos - st.segmentDataOffset) 5)) with e | bb2
    · rw [h2] at h; exact absurd h (by simp)
    · rw [h2] at h
      simp only at h
      rcases h3 : bb2.seek st.blobBuffer.pos with e | bb3
      · rw [h3] at h; exact absurd h (by simp)
      · rw [h3] at h
        simp only at h
        cases h
        have hstep := hInv.2.rewriteStep
          (by
            simp only [JSDatum.bytes, List.length_append, beBytes_length,
              ebmlVarIntWidthBytes_length]
            rw [show measureUnsignedInt 0x18538067 = 4 from by decide]
            have hx1 := hInv.2.segData
            have hx2 := hInv.2.segBound
            omega)
          h1 h2 h3
        exact ⟨⟨hInv.1, hstep.1⟩, rfl, rfl, hstep.2.1, hstep.2.2.2⟩

/-- The 39 serialized bytes of the EBML document header. -/
def headerEH : List Nat :=
  [26, 69, 223, 163, 16, 0, 0, 31, 66, 134, 129, 1, 66, 247, 129, 1, 66, 242, 129, 4,
   66, 243, 129, 8, 66, 130, 132, 119, 101, 98, 109, 66, 135, 129, 2, 66, 133, 129, 2]

/-- Header bytes after the Segment id and its 5-byte unknown-size marker. -/
def headerP48 : List Nat :=
  [26, 69, 223, 163, 16, 0, 0, 31, 66, 134, 129, 1, 66, 247, 129, 1, 66, 242, 129, 4, 66, 243,
   129, 8, 66, 130, 132, 119, 101, 98, 109, 66, 135, 129, 2, 66, 133, 129, 2, 24, 83, 128, 103,
   15, 255, 255, 255, 255]

/-- Header bytes after the zero-position SeekHead. -/
def headerP119 : List Nat :=
  [26, 69, 223, 163, 16, 0, 0, 31, 66, 134, 129, 1, 66, 247, 129, 1, 66, 242, 129, 4, 66, 243,
   129, 8, 66, 130, 132, 119, 101, 98, 109, 66, 135, 129, 2, 66, 133, 129, 2, 24, 83, 128, 103,
   15, 255, 255, 255, 255, 17, 77, 155, 116, 16, 0, 0, 63, 77, 187, 16, 0, 0, 15, 83, 171, 132,
   28, 83, 187, 107, 83, 172, 133, 0, 0, 0, 0, 0, 77, 187, 16, 0, 0, 15, 83, 171, 132, 21, 73,
   169, 102, 83, 172, 133, 0, 0, 0, 0, 0, 77, 187, 16, 0, 0, 15, 83, 171, 132, 22, 84, 174, 107,
   83, 172, 133, 0, 0, 0, 0, 0]

/-- Header bytes after the SegmentInfo. -/
def headerP179 : List Nat :=
  [26, 69, 223, 163, 16, 0, 0, 31, 66, 134, 129, 1, 66, 247, 129, 1, 66, 242, 129, 4, 66, 243,
   129, 8, 66, 130, 132, 119, 101, 98, 109, 66, 135, 129, 2, 66, 133, 129, 2, 24, 83, 128, 103,
   15, 255, 255, 255, 255, 17, 77, 155, 116, 16, 0, 0, 63, 77, 187, 16, 0, 0, 15, 83, 171, 132,
   28, 83, 187, 107, 83, 172, 133, 0, 0, 0, 0, 0, 77, 187, 16, 0, 0, 15, 83, 171, 132, 21, 73,
   169, 102, 83, 172, 133, 0, 0, 0, 0, 0, 77, 187, 16, 0, 0, 15, 83, 171, 132, 22, 84, 174, 107,
   83, 172, 133, 0, 0, 0, 0, 0, 21, 73, 169, 102, 16, 0, 0, 52, 42, 215, 177, 131, 15, 66, 64,
   77, 128, 142, 119, 101, 98, 109, 45, 119, 114, 105, 116, 101, 114, 45, 106, 115, 87, 65, 142,
   119, 101, 98, 109, 45, 119, 114, 105, 116, 101, 114, 45, 106, 115, 68, 137, 136, 0, 0, 0, 0,
   0, 0, 0, 0]

def annEH : EBMLAnn :=
  .elem 0 8 (some 31) (.list
    [.elem 8 11 (some 1) .leaf, .elem 12 15 (some 1) .leaf, .elem 16 19 (some 1) .leaf,
     .elem 20 23 (some 1) .leaf, .elem 24 27 none .leaf, .elem 31 34 (some 1) .leaf,
     .elem 35 38 (some 1) .leaf])

def annSH : EBMLAnn :=
  .elem 48 56 (some 63) (.list
    [.elem 56 62 (some 15) (.list [.elem 62 65 none .leaf, .elem 69 72 (some 5) .leaf]),
     .elem 77 83 (some 15) (.list [.elem 83 86 none .leaf, .elem 90 93 (some 5) .leaf]),
     .elem 98 104 (some 15) (.list [.elem 104 107 none .leaf, .elem 111 114 (some 5) .leaf])])

def annSI : EBMLAnn :=
  .elem 119 127 (some 52) (.list
    [.elem 127 131 (some 3) .leaf, .elem 134 137 none .leaf,
     .elem 151 154 none .leaf, .elem 168 171 none .leaf])

theorem evalEH : writeEBML ⟨[], 0⟩ 0 ebmlHeaderValue = .ok (⟨headerEH, 39⟩, annEH) := by
  rfl

theorem evalSH : writeEBML ⟨headerP48, 48⟩ 0 (seekHeadValue 0 0 0) =
    .ok (⟨headerP119, 119⟩, annSH) := by
  rfl

theorem evalSI : writeEBML ⟨headerP119, 119⟩ 0 segmentInfoValue =
    .ok (⟨headerP179, 179⟩, annSI) := by
  rfl

/-- The serialized ebml Segment from the fresh-header state: SeekHead and
SegmentInfo are the fixed byte strings above, the Tracks element is abstract
(it depends on the captured video dimensions). -/
theorem segment_serialize (w h : Nat) (t : Bool) (r : ArrayBufferDataStream × EBMLAnn)
    (hr : writeEBML ⟨headerEH, 39⟩ 0 (ebmlSegmentValue 0 0 0 w h t) = .ok r) :
    ∃ TB annTR, r.1.data = headerP179 ++ TB ∧ r.1.pos = r.1.data.length ∧
      r.2 = .elem 39 48 (some EBML_SIZE_UNKNOWN_5_BYTES) (.list [annSH, annSI, annTR]) ∧
      annTR.offset = 179 := by
  rw [ebmlSegmentValue] at hr
  obtain ⟨cb, anns, st, hl, hst, hr1, hdat, hp, hann⟩ :=
    writeEBML_children_unknown5 ⟨headerEH, 39⟩ 0 0x18538067 (some EBML_SIZE_UNKNOWN_5_BYTES)
      [seekHeadValue 0 0 0, segmentInfoValue, tracksValue w h t]
      (by decide) (by decide) (by decide) rfl r hr
  rw [show headerEH ++ beBytes (measureUnsignedInt 0x18538067) 0x18538067 ++
      [0x0F, 0xFF, 0xFF, 0xFF, 0xFF] = headerP48 from by decide] at hl
  rw [show headerP48.length = 48 from by decide] at hl
  rw [writeEBMLList, evalSH] at hl
  simp only at hl
  rw [writeEBMLList, evalSI] at hl
  simp only at hl
  rw [writeEBMLList] at hl
  rcases htr : writeEBML ⟨headerP179, 179⟩ 0 (tracksValue w h t) with e | ptr
  · rw [htr] at hl
    exact absurd hl (by simp)
  · obtain ⟨ptrs, ptra⟩ := ptr
    rw [htr] at hl
    simp only at hl
    rw [writeEBMLList] at hl
    simp only [Except.ok.injEq, Prod.mk.injEq] at hl
    obtain ⟨hst2, hanns⟩ := hl
    have happ := writeEBML_append (tracksValue w h t) ⟨headerP179, 179⟩ 0 (by decide)
      (ptrs, ptra) htr
    obtain ⟨hpp, ex, hex⟩ := happ
    rw [tracksValue] at htr
    obtain ⟨sf, pb, hdat2, hofftr, hdofftr⟩ :=
      writeEBML_elem_offsets ⟨headerP179, 179⟩ 0 0x1654ae6b none _ (by decide) (ptrs, ptra) htr
    refine ⟨ex, ptra, ?_, hp, ?_, ?_⟩
    · rw [hr1, ← hst2]
      exact hex
    · rw [hann, ← hanns]
      congr 1
    · rw [hofftr]
      decide

/-- Writing into a fresh sink produces a single chunk at offset 0. -/
theorem write_empty {d : JSDatum} {bb2 : BlobBuffer}
    (h : BlobBuffer.write {} d = .ok bb2) :
    bb2 = { buffer := [{ offset := 0, data := d.bytes }], pos := d.bytes.length,
            length := d.bytes.length } := by
  cases hm : measureData d with
  | error e => rw [BlobBuffer.write, hm] at h; exact absurd h (by simp)
  | ok len =>
    have hl := measureData_ok hm
    subst hl
    simp only [BlobBuffer.write, hm, ge_iff_le, le_refl, if_true] at h
    cases h
    simp

/-- `writeHeader` from a fresh sink state establishes the muxer invariant,
with the concrete offsets of the fresh header layout, and leaves the
cluster/cue bookkeeping alone. -/
theorem writeHeader_establishes {st st' : MuxState}
    (hbb : st.blobBuffer = {}) (hpc : st.posCues = 0) (hpi : st.posSegmentInfo = 0)
    (hpt : st.posTracks = 0) (h : writeHeader st = .ok st') :
    MuxC4Inv st' ∧ st'.options = st.options ∧
    st'.clusterFrameBuffer = st.clusterFrameBuffer ∧
    st'.clusterStartTime = st.clusterStartTime ∧
    st'.clusterDuration = st.clusterDuration ∧
    st'.cues = st.cues := by
  unfold writeHeader at h
  rw [hbb, hpc, hpi, hpt] at h
  rw [show ({} : BlobBuffer).pos = 0 from rfl] at h
  rw [writeEBMLList, evalEH] at h
  simp only at h
  rw [writeEBMLList] at h
  rcases hseg : writeEBML ⟨headerEH, 39⟩ 0
      (ebmlSegmentValue 0 0 0 st.videoWidth st.videoHeight st.options.transparent)
    with e | pseg
  · rw [hseg] at h
    exact absurd h (by simp)
  obtain ⟨segS, segA⟩ := pseg
  rw [hseg] at h
  simp only at h
  rw [writeEBMLList] at h
  simp only at h
  obtain ⟨TB, annTR, hdat, hposS, hannS, hoffTR⟩ :=
    segment_serialize _ _ _ (segS, segA) hseg
  simp only at hdat hposS hannS
  subst hannS
  rw [getAsDataArray_of_end hposS, hdat] at h
  rcases hw : BlobBuffer.write {} (.u8arr (headerP179 ++ TB)) with e | bb2
  · rw [hw] at h
    exact absurd h (by simp)
  rw [hw] at h
  simp only at h
  cases h
  have hsk := (write_step SinkInv.init hw).1
  have hbb2 := write_empty hw
  subst hbb2
  have hlen179 : 179 ≤ (headerP179 ++ TB).length := by
    rw [List.length_append, show headerP179.length = 179 from by decide]
    omega
  refine ⟨⟨rfl, ?_⟩, rfl, rfl, rfl, rfl, rfl⟩
  show SinkC4Inv 39 48 56 171
    { buffer := [{ offset := 0, data := (JSDatum.u8arr (headerP179 ++ TB)).bytes }],
      pos := (JSDatum.u8arr (headerP179 ++ TB)).bytes.length,
      length := (JSDatum.u8arr (headerP179 ++ TB)).bytes.length }
  refine ⟨hsk, rfl, rfl, ?_, ?_, ?_, ?_⟩
  · show (48 : Nat) ≤ (headerP179 ++ TB).length
    omega
  · show 56 + 63 ≤ (headerP179 ++ TB).length
    omega
  · show 171 + 8 ≤ (headerP179 ++ TB).length
    omega
  · refine ⟨{ offset := 0, data := headerP179 ++ TB }, [], rfl, rfl, ?_⟩
    show 39 + 9 ≤ (headerP179 ++ TB).length
    omega

theorem addFrameToCluster_inv {st : MuxState} {f : Frame} {st' : MuxState}
    (hInv : MuxC4Inv st) (h : addFrameToCluster st f = .ok st') : MuxC4Inv st' := by
  simp only [addFrameToCluster] at h
  split at h
  · refine flush_inv ?_ h
    exact ⟨hInv.1, hInv.2⟩
  · cases h
    exact ⟨hInv.1, hInv.2⟩

/-- The muxer state before the header is written: fresh sink, no recorded
positions. -/
def PreC4Inv (st : MuxState) : Prop :=
  st.writtenHeader = false ∧ st.blobBuffer = {} ∧ st.posCues = 0 ∧
  st.posSegmentInfo = 0 ∧ st.posTracks = 0

theorem addFrame_inv {st st' : MuxState} {kf : List Nat} {w hgt : Nat} {od : Option Rat}
    (hInv : PreC4Inv st ∨ MuxC4Inv st) (h : addFrame st kf w hgt od = .ok st') :
    MuxC4Inv st' := by
  unfold addFrame at h
  rcases hInv with hpre | hinv
  · rw [if_neg (by rw [hpre.1]; simp)] at h
    generalize hwh : writeHeader { st with videoWidth := w, videoHeight := hgt } = res1 at h
    rcases res1 with e | st1
    · exact absurd h (by simp)
    simp only at h
    have hb2 : ({ st with videoWidth := w, videoHeight := hgt } : MuxState).blobBuffer = {} :=
      hpre.2.1
    have hc2 : ({ st with videoWidth := w, videoHeight := hgt } : MuxState).posCues = 0 :=
      hpre.2.2.1
    have hi2 : ({ st with videoWidth := w, videoHeight := hgt } : MuxState).posSegmentInfo = 0 :=
      hpre.2.2.2.1
    have ht2 : ({ st with videoWidth := w, videoHeight := hgt } : MuxState).posTracks = 0 :=
      hpre.2.2.2.2
    have hI1 : MuxC4Inv st1 := (writeHeader_establishes hb2 hc2 hi2 ht2 hwh).1
    exact addFrameToCluster_inv hI1 h
  · rw [if_pos hinv.1] at h
    simp only at h
    exact addFrameToCluster_inv hinv h

theorem addFrames_inv {calls : List (List Nat × Nat × Nat × Option Rat)} :
    ∀ {st st' : MuxState}, (PreC4Inv st ∨ MuxC4Inv st) →
      addFrames st calls = .ok st' → PreC4Inv st' ∨ MuxC4Inv st' := by
  induction calls with
  | nil =>
    intro st st' hInv h
    rw [addFrames] at h
    cases h
    exact hInv
  | cons c rest ih =>
    intro st st' hInv h
    obtain ⟨kf, w, hgt, od⟩ := c
    rw [addFrames] at h
    rcases ha : addFrame st kf w hgt od with e | st2
    · rw [ha] at h
      exact absurd h (by simp)
    rw [ha] at h
    simp only at h
    exact ih (Or.inr (addFrame_inv hInv ha)) h

theorem muxRun_inv {o : MuxOptions} {calls : List (List Nat × Nat × Nat × Option Rat)}
    {st : MuxState} (h : muxRun o calls = .ok st) : PreC4Inv st ∨ MuxC4Inv st := by
  rw [muxRun] at h
  rcases hi : WebMWriterInit o with e | st0
  · rw [hi] at h
    exact absurd h (by simp)
  rw [hi] at h
  simp only at h
  refine addFrames_inv (Or.inl ?_) h
  rw [WebMWriterInit] at hi
  rcases hv : validateOptions o with e | o2
  · rw [hv] at hi
    exact absurd hi (by simp)
  · rw [hv] at hi
    simp only [Except.ok.injEq] at hi
    rw [← hi]
    exact ⟨rfl, rfl, rfl, rfl, rfl⟩

/-- The shape of a completed file: the invariant holds of the final state,
the returned bytes have the sink's length, and they are the pre-patch bytes
with the Segment id and 5-byte size varint overwritten at `segmentOffset`. -/
theorem complete_spec {st st' : MuxState} {bytes : List Nat}
    (hInv : PreC4Inv st ∨ MuxC4Inv st) (h : complete st = .ok (st', bytes)) :
    MuxC4Inv st' ∧ bytes.length = st'.blobBuffer.length ∧
    ∃ f, f.length = st'.blobBuffer.length ∧
      bytes = flatWrite f st'.segmentOffset
        (beBytes (measureUnsignedInt 0x18538067) 0x18538067 ++
          ebmlVarIntWidthBytes (st'.blobBuffer.length - st'.segmentDataOffset) 5) := by
  unfold complete at h
  generalize hs1 : (if st.writtenHeader = true then Except.ok st else writeHeader st) = r1 at h
  rcases r1 with e | st1
  · exact absurd h (by simp)
  have hI1 : MuxC4Inv st1 := by
    rcases hInv with hpre | hinv
    · rw [if_neg (by rw [hpre.1]; simp)] at hs1
      exact (writeHeader_establishes hpre.2.1 hpre.2.2.1 hpre.2.2.2.1 hpre.2.2.2.2 hs1).1
    · rw [if_pos hinv.1] at hs1
      injection hs1 with hs1
      rw [← hs1]
      exact hinv
  simp only at h
  generalize hs2 : flushClusterFrameBuffer st1 = r2 at h
  rcases r2 with e | st2
  · exact absurd h (by simp)
  have hI2 := flush_inv hI1 hs2
  simp only at h
  generalize hs3 : writeCues st2 = r3 at h
  rcases r3 with e | st3
  · exact absurd h (by simp)
  have hI3 := writeCues_inv hI2 hs3
  simp only at h
  generalize hs4 : rewriteSeekHead st3 = r4 at h
  rcases r4 with e | st4
  · exact absurd h (by simp)
  obtain ⟨hI4, hlen4, hpos4⟩ := rewriteSeekHead_inv hI3 hs4
  simp only at h
  generalize hs5 : rewriteDuration st4 = r5 at h
  rcases r5 with e | st5
  · exact absurd h (by simp)
  obtain ⟨hI5, hlen5, hpos5⟩ := rewriteDuration_inv hI4 hs5
  simp only at h
  generalize hs6 : rewriteSegmentLength st5 = r6 at h
  rcases r6 with e | st6
  · exact absurd h (by simp)
  obtain ⟨hI6, hso6, hsd6, hlen6, hflat6⟩ := rewriteSegmentLength_spec hI5 hs6
  simp only [Except.ok.injEq, Prod.mk.injEq] at h
  obtain ⟨h1, h2⟩ := h
  subst h1
  subst h2
  have hpe5 : st5.blobBuffer.pos = st5.blobBuffer.length := hI5.2.posEnd
  have hce5 : st5.blobBuffer.length = (chunksBytes st5.blobBuffer.buffer).length :=
    hI5.2.sink.len_eq
  have hplen : (beBytes (measureUnsignedInt 0x18538067) 0x18538067 ++
      ebmlVarIntWidthBytes (st5.blobBuffer.pos - st5.segmentDataOffset) 5).length = 9 := by
    rw [List.length_append, beBytes_length, ebmlVarIntWidthBytes_length,
      show measureUnsignedInt 0x18538067 = 4 from by decide]
  have hbound : st5.segmentOffset + 9 ≤ (chunksBytes st5.blobBuffer.buffer).length := by
    rw [← hce5]
    have h1 := hI5.2.segData
    have h2 := hI5.2.segBound
    omega
  have hclen : (st6.blobBuffer.complete).length = st6.blobBuffer.length := by
    rw [BlobBuffer.complete, hflat6, flatWrite_length (by rw [hplen]; exact hbound),
      ← hce5, hlen6]
  refine ⟨hI6, hclen, chunksBytes st5.blobBuffer.buffer, by rw [← hce5, hlen6], ?_⟩
  rw [BlobBuffer.complete, hflat6, hso6, hpe5, hlen6, hsd6]

theorem flatWrite_take_prefix {flat patch : List Nat} {o j : Nat}
    (h : o + patch.length ≤ flat.length) (hj : j ≤ patch.length) :
    ((flatWrite flat o patch).drop o).take j = patch.take j := by
  have hdt := flatWrite_drop_take (i := 0) (j := j) h (by omega)
  simpa using hdt

/-- C4: after `complete()` the Segment's id and its fixed-5-byte size varint
are rewritten in place at `segmentOffset`. -/
theorem c4_segment_size_backpatch (o : MuxOptions)
    (calls : List (List Nat × Nat × Nat × Option Rat)) (st st' : MuxState)
    (bytes : List Nat) (hrun : muxRun o calls = .ok st)
    (hc : complete st = .ok (st', bytes))
    (hbound : st'.blobBuffer.length - st'.segmentDataOffset < 2 ^ 35 - 1) :
    measureUnsignedInt 0x18538067 = 4 ∧
    st'.segmentDataOffset = st'.segmentOffset + 9 ∧
    bytes.length = st'.blobBuffer.length ∧
    (bytes.drop st'.segmentOffset).take 4 = beBytes 4 0x18538067 ∧
    (bytes.drop (st'.segmentOffset + 4)).take 5 =
      ebmlVarIntWidthBytes (bytes.length - st'.segmentDataOffset) 5 ∧
    beValue ((bytes.drop (st'.segmentOffset + 4)).take 5) =
      (bytes.length - st'.segmentDataOffset) + 2 ^ 35 ∧
    (∃ c rest, st'.blobBuffer.buffer = c :: rest ∧ c.offset = 0 ∧
      st'.segmentOffset + 9 ≤ c.data.length) := by
  obtain ⟨hI, hblen, f, hflen, hbytes⟩ := complete_spec (muxRun_inv hrun) hc
  have hm4 : measureUnsignedInt 0x18538067 = 4 := by decide
  have hsd : st'.segmentDataOffset = st'.segmentOffset + 9 := hI.2.segData
  have hplen : (beBytes (measureUnsignedInt 0x18538067) 0x18538067 ++
      ebmlVarIntWidthBytes (st'.blobBuffer.length - st'.segmentDataOffset) 5).length = 9 := by
    rw [List.length_append, beBytes_length, ebmlVarIntWidthBytes_length, hm4]
  have hcont : st'.segmentOffset +
      (beBytes (measureUnsignedInt 0x18538067) 0x18538067 ++
        ebmlVarIntWidthBytes (st'.blobBuffer.length - st'.segmentDataOffset) 5).length ≤
      f.length := by
    rw [hplen, hflen, ← hsd]
    exact hI.2.segBound
  have h4 : (bytes.drop st'.segmentOffset).take 4 = beBytes 4 0x18538067 := by
    rw [hbytes, flatWrite_take_prefix hcont (by rw [hplen]; omega)]
    rw [List.take_append_of_le_length (by rw [beBytes_length, hm4]),
      List.take_of_length_le (by rw [beBytes_length, hm4]), hm4]
  have h5 : (bytes.drop (st'.segmentOffset + 4)).take 5 =
      ebmlVarIntWidthBytes (st'.blobBuffer.length - st'.segmentDataOffset) 5 := by
    rw [hbytes, flatWrite_drop_take (i := 4) (j := 5) hcont (by rw [hplen])]
    rw [List.drop_append_of_le_length (by rw [beBytes_length, hm4]),
      List.drop_of_length_le (by rw [beBytes_length, hm4]), List.nil_append,
      List.take_of_length_le (by rw [ebmlVarIntWidthBytes_length])]
  refine ⟨hm4, hsd, hblen, h4, by rw [hblen]; exact h5, ?_, hI.2.headChunk⟩
  rw [hblen, h5, ebmlVarIntWidthBytes, beValue_beBytes]
  have h2p : (256 : Nat) ^ 5 = 2 ^ 40 := by norm_num
  have h7 : 7 * 5 = 35 := by norm_num
  rw [h7, h2p]
  have hlt : st'.blobBuffer.length - st'.segmentDataOffset + 2 ^ 35 < 2 ^ 40 := by
    have ha : (2 : Nat) ^ 35 = 34359738368 := by norm_num
    have hb : (2 : Nat) ^ 40 = 1099511627776 := by norm_num
    omega
  exact Nat.mod_eq_of_lt hlt

/-! ## A concrete zero-frame run (frameDuration = 40) -/

def trkP187 : List Nat :=
  [26, 69, 223, 163, 16, 0, 0, 31, 66, 134, 129, 1, 66, 247, 129, 1, 66, 242, 129, 4, 66, 243,
   129, 8, 66, 130, 132, 119, 101, 98, 109, 66, 135, 129, 2, 66, 133, 129, 2, 24, 83, 128, 103,
   15, 255, 255, 255, 255, 17, 77, 155, 116, 16, 0, 0, 63, 77, 187, 16, 0, 0, 15, 83, 171, 132,
   28, 83, 187, 107, 83, 172, 133, 0, 0, 0, 0, 0, 77, 187, 16, 0, 0, 15, 83, 171, 132, 21, 73,
   169, 102, 83, 172, 133, 0, 0, 0, 0, 0, 77, 187, 16, 0, 0, 15, 83, 171, 132, 22, 84, 174, 107,
   83, 172, 133, 0, 0, 0, 0, 0, 21, 73, 169, 102, 16, 0, 0, 52, 42, 215, 177, 131, 15, 66, 64,
   77, 128, 142, 119, 101, 98, 109, 45, 119, 114, 105, 116, 101, 114, 45, 106, 115, 87, 65, 142,
   119, 101, 98, 109, 45, 119, 114, 105, 116, 101, 114, 45, 106, 115, 68, 137, 136, 0, 0, 0, 0,
   0, 0, 0, 0, 22, 84, 174, 107, 0, 0, 0, 0]

def trkP192 : List Nat :=
  [26, 69, 223, 163, 16, 0, 0, 31, 66, 134, 129, 1, 66, 247, 129, 1, 66, 242, 129, 4, 66, 243,
   129, 8, 66, 130, 132, 119, 101, 98, 109, 66, 135, 129, 2, 66, 133, 129, 2, 24, 83, 128, 103,
   15, 255, 255, 255, 255, 17, 77, 155, 116, 16, 0, 0, 63, 77, 187, 16, 0, 0, 15, 83, 171, 132,
   28, 83, 187, 107, 83, 172, 133, 0, 0, 0, 0, 0, 77, 187, 16, 0, 0, 15, 83, 171, 132, 21, 73,
   169, 102, 83, 172, 133, 0, 0, 0, 0, 0, 77, 187, 16, 0, 0, 15, 83, 171, 132, 22, 84, 174, 107,
   83, 172, 133, 0, 0, 0, 0, 0, 21, 73, 169, 102, 16, 0, 0, 52, 42, 215, 177, 131, 15, 66, 64,
   77, 128, 142, 119, 101, 98, 109, 45, 119, 114, 105, 116, 101, 114, 45, 106, 115, 87, 65, 142,
   119, 101, 98, 109, 45, 119, 114, 105, 116, 101, 114, 45, 106, 115, 68, 137, 136, 0, 0, 0, 0,
   0, 0, 0, 0, 22, 84, 174, 107, 0, 0, 0, 0, 174, 0, 0, 0, 0]

def trkP195 : List Nat :=
  [26, 69, 223, 163, 16, 0, 0, 31, 66, 134, 129, 1, 66, 247, 129, 1, 66, 242, 129, 4, 66, 243,
   129, 8, 66, 130, 132, 119, 101, 98, 109, 66, 135, 129, 2, 66, 133, 129, 2, 24, 83, 128, 103,
   15, 255, 255, 255, 255, 17, 77, 155, 116, 16, 0, 0, 63, 77, 187, 16, 0, 0, 15, 83, 171, 132,
   28, 83, 187, 107, 83, 172, 133, 0, 0, 0, 0, 0, 77, 187, 16, 0, 0, 15, 83, 171, 132, 21, 73,
   169, 102, 83, 172, 133, 0, 0, 0, 0, 0, 77, 187, 16, 0, 0, 15, 83, 171, 132, 22, 84, 174, 107,
   83, 172, 133, 0, 0, 0, 0, 0, 21, 73, 169, 102, 16, 0, 0, 52, 42, 215, 177, 131, 15, 66, 64,
   77, 128, 142, 119, 101, 98, 109, 45, 119, 114, 105, 116, 101, 114, 45, 106, 115, 87, 65, 142,
   119, 101, 98, 109, 45, 119, 114, 105, 116, 101, 114, 45, 106, 115, 68, 137, 136, 0, 0, 0, 0,
   0, 0, 0, 0, 22, 84, 174, 107, 0, 0, 0, 0, 174, 0, 0, 0, 0, 215, 129, 1]

def trkP199 : List Nat :=
  [26, 69, 223, 163, 16, 0, 0, 31, 66, 134, 129, 1, 66, 247, 129, 1, 66, 242, 129, 4, 66, 243,
   129, 8, 66, 130, 132, 119, 101, 98, 109, 66, 135, 129, 2, 66, 133, 129, 2, 24, 83, 128, 103,
   15, 255, 255, 255, 255, 17, 77, 155, 116, 16, 0, 0, 63, 77, 187, 16, 0, 0, 15, 83, 171, 132,
   28, 83, 187, 107, 83, 172, 133, 0, 0, 0, 0, 0, 77, 187, 16, 0, 0, 15, 83, 171, 132, 21, 73,
   169, 102, 83, 172, 133, 0, 0, 0, 0, 0, 77, 187, 16, 0, 0, 15, 83, 171, 132, 22, 84, 174, 107,
   83, 172, 133, 0, 0, 0, 0, 0, 21, 73, 169, 102, 16, 0, 0, 52, 42, 215, 177, 131, 15, 66, 64,
   77, 128, 142, 119, 101, 98, 109, 45, 119, 114, 105, 116, 101, 114, 45, 106, 115, 87, 65, 142,
   119, 101, 98, 109, 45, 119, 114, 105, 116, 101, 114, 45, 106, 115, 68, 137, 136, 0, 0, 0, 0,
   0, 0, 0, 0, 22, 84, 174, 107, 0, 0, 0, 0, 174, 0, 0, 0, 0, 215, 129, 1, 115, 197, 129, 1]

def trkP202 : List Nat :=
  [26, 69, 223, 163, 16, 0, 0, 31, 66, 134, 129, 1, 66, 247, 129, 1, 66, 242, 129, 4, 66, 243,
   129, 8, 66, 130, 132, 119, 101, 98, 109, 66, 135, 129, 2, 66, 133, 129, 2, 24, 83, 128, 103,
   15, 255, 255, 255, 255, 17, 77, 155, 116, 16, 0, 0, 63, 77, 187, 16, 0, 0, 15, 83, 171, 132,
   28, 83, 187, 107, 83, 172, 133, 0, 0, 0, 0, 0, 77, 187, 16, 0, 0, 15, 83, 171, 132, 21, 73,
   169, 102, 83, 172, 133, 0, 0, 0, 0, 0, 77, 187, 16, 0, 0, 15, 83, 171, 132, 22, 84, 174, 107,
   83, 172, 133, 0, 0, 0, 0, 0, 21, 73, 169, 102, 16, 0, 0, 52, 42, 215, 177, 131, 15, 66, 64,
   77, 128, 142, 119, 101, 98, 109, 45, 119, 114, 105, 116, 101, 114, 45, 106, 115, 87, 65, 142,
   119, 101, 98, 109, 45, 119, 114, 105, 116, 101, 114, 45, 106, 115, 68, 137, 136, 0, 0, 0, 0,
   0, 0, 0, 0, 22, 84, 174, 107, 0, 0, 0, 0, 174, 0, 0, 0, 0, 215, 129, 1, 115, 197, 129, 1, 156,
   129, 0]

def trkP209 : List Nat :=
  [26, 69, 223, 163, 16, 0, 0, 31, 66, 134, 129, 1, 66, 247, 129, 1, 66, 242, 129, 4, 66, 243,
   129, 8, 66, 130, 132, 119, 101, 98, 109, 66, 135, 129, 2, 66, 133, 129, 2, 24, 83, 128, 103,
   15, 255, 255, 255, 255, 17, 77, 155, 116, 16, 0, 0, 63, 77, 187, 16, 0, 0, 15, 83, 171, 132,
   28, 83, 187, 107, 83, 172, 133, 0, 0, 0, 0, 0, 77, 187, 16, 0, 0, 15, 83, 171, 132, 21, 73,
   169, 102, 83, 172, 133, 0, 0, 0, 0, 0, 77, 187, 16, 0, 0, 15, 83, 171, 132, 22, 84, 174, 107,
   83, 172, 133, 0, 0, 0, 0, 0, 21, 73, 169, 102, 16, 0, 0, 52, 42, 215, 177, 131, 15, 66, 64,
   77, 128, 142, 119, 101, 98, 109, 45, 119, 114, 105, 116, 101, 114, 45, 106, 115, 87, 65, 142,
   119, 101, 98, 109, 45, 119, 114, 105, 116, 101, 114, 45, 106, 115, 68, 137, 136, 0, 0, 0, 0,
   0, 0, 0, 0, 22, 84, 174, 107, 0, 0, 0, 0, 174, 0, 0, 0, 0, 215, 129, 1, 115, 197, 129, 1, 156,
   129, 0, 34, 181, 156, 131, 117, 110, 100]

def trkP216 : List Nat :=
  [26, 69, 223, 163, 16, 0, 0, 31, 66, 134, 129, 1, 66, 247, 129, 1, 66, 242, 129, 4, 66, 243,
   129, 8, 66, 130, 132, 119, 101, 98, 109, 66, 135, 129, 2, 66, 133, 129, 2, 24, 83, 128, 103,
   15, 255, 255, 255, 255, 17, 77, 155, 116, 16, 0, 0, 63, 77, 187, 16, 0, 0, 15, 83, 171, 132,
   28, 83, 187, 107, 83, 172, 133, 0, 0, 0, 0, 0, 77, 187, 16, 0, 0, 15, 83, 171, 132, 21, 73,
   169, 102, 83, 172, 133, 0, 0, 0, 0, 0, 77, 187, 16, 0, 0, 15, 83, 171, 132, 22, 84, 174, 107,
   83, 172, 133, 0, 0, 0, 0, 0, 21, 73, 169, 102, 16, 0, 0, 52, 42, 215, 177, 131, 15, 66, 64,
   77, 128, 142, 119, 101, 98, 109, 45, 119, 114, 105, 116, 101, 114, 45, 106, 115, 87, 65, 142,
   119, 101, 98, 109, 45, 119, 114, 105, 116, 101, 114, 45, 106, 115, 68, 137, 136, 0, 0, 0, 0,
   0, 0, 0, 0, 22, 84, 174, 107, 0, 0, 0, 0, 174, 0, 0, 0, 0, 215, 129, 1, 115, 197, 129, 1, 156,
   129, 0, 34, 181, 156, 131, 117, 110, 100, 134, 133, 86, 95, 86, 80, 56]

def trkP223 : List Nat :=
  [26, 69, 223, 163, 16, 0, 0, 31, 66, 134, 129, 1, 66, 247, 129, 1, 66, 242, 129, 4, 66, 243,
   129, 8, 66, 130, 132, 119, 101, 98, 109, 66, 135, 129, 2, 66, 133, 129, 2, 24, 83, 128, 103,
   15, 255, 255, 255, 255, 17, 77, 155, 116, 16, 0, 0, 63, 77, 187, 16, 0, 0, 15, 83, 171, 132,
   28, 83, 187, 107, 83, 172, 133, 0, 0, 0, 0, 0, 77, 187, 16, 0, 0, 15, 83, 171, 132, 21, 73,
   169, 102, 83, 172, 133, 0, 0, 0, 0, 0, 77, 187, 16, 0, 0, 15, 83, 171, 132, 22, 84, 174, 107,
   83, 172, 133, 0, 0, 0, 0, 0, 21, 73, 169, 102, 16, 0, 0, 52, 42, 215, 177, 131, 15, 66, 64,
   77, 128, 142, 119, 101, 98, 109, 45, 119, 114, 105, 116, 101, 114, 45, 106, 115, 87, 65, 142,
   119, 101, 98, 109, 45, 119, 114, 105, 116, 101, 114, 45, 106, 115, 68, 137, 136, 0, 0, 0, 0,
   0, 0, 0, 0, 22, 84, 174, 107, 0, 0, 0, 0, 174, 0, 0, 0, 0, 215, 129, 1, 115, 197, 129, 1, 156,
   129, 0, 34, 181, 156, 131, 117, 110, 100, 134, 133, 86, 95, 86, 80, 56, 37, 134, 136, 131, 86,
   80, 56]

def trkP226 : List Nat :=
  [26, 69, 223, 163, 16, 0, 0, 31, 66, 134, 129, 1, 66, 247, 129, 1, 66, 242, 129, 4, 66, 243,
   129, 8, 66, 130, 132, 119, 101, 98, 109, 66, 135, 129, 2, 66, 133, 129, 2, 24, 83, 128, 103,
   15, 255, 255, 255, 255, 17, 77, 155, 116, 16, 0, 0, 63, 77, 187, 16, 0, 0, 15, 83, 171, 132,
   28, 83, 187, 107, 83, 172, 133, 0, 0, 0, 0, 0, 77, 187, 16, 0, 0, 15, 83, 171, 132, 21, 73,
   169, 102, 83, 172, 133, 0, 0, 0, 0, 0, 77, 187, 16, 0, 0, 15, 83, 171, 132, 22, 84, 174, 107,
   83, 172, 133, 0, 0, 0, 0, 0, 21, 73, 169, 102, 16, 0, 0, 52, 42, 215, 177, 131, 15, 66, 64,
   77, 128, 142, 119, 101, 98, 109, 45, 119, 114, 105, 116, 101, 114, 45, 106, 115, 87, 65, 142,
   119, 101, 98, 109, 45, 119, 114, 105, 116, 101, 114, 45, 106, 115, 68, 137, 136, 0, 0, 0, 0,
   0, 0, 0, 0, 22, 84, 174, 107, 0, 0, 0, 0, 174, 0, 0, 0, 0, 215, 129, 1, 115, 197, 129, 1, 156,
   129, 0, 34, 181, 156, 131, 117, 110, 100, 134, 133, 86, 95, 86, 80, 56, 37, 134, 136, 131, 86,
   80, 56, 131, 129, 1]

def trkP237e0 : List Nat :=
  [26, 69, 223, 163, 16, 0, 0, 31, 66, 134, 129, 1, 66, 247, 129, 1, 66, 242, 129, 4, 66, 243,
   129, 8, 66, 130, 132, 119, 101, 98, 109, 66, 135, 129, 2, 66, 133, 129, 2, 24, 83, 128, 103,
   15, 255, 255, 255, 255, 17, 77, 155, 116, 16, 0, 0, 63, 77, 187, 16, 0, 0, 15, 83, 171, 132,
   28, 83, 187, 107, 83, 172, 133, 0, 0, 0, 0, 0, 77, 187, 16, 0, 0, 15, 83, 171, 132, 21, 73,
   169, 102, 83, 172, 133, 0, 0, 0, 0, 0, 77, 187, 16, 0, 0, 15, 83, 171, 132, 22, 84, 174, 107,
   83, 172, 133, 0, 0, 0, 0, 0, 21, 73, 169, 102, 16, 0, 0, 52, 42, 215, 177, 131, 15, 66, 64,
   77, 128, 142, 119, 101, 98, 109, 45, 119, 114, 105, 116, 101, 114, 45, 106, 115, 87, 65, 142,
   119, 101, 98, 109, 45, 119, 114, 105, 116, 101, 114, 45, 106, 115, 68, 137, 136, 0, 0, 0, 0,
   0, 0, 0, 0, 22, 84, 174, 107, 0, 0, 0, 0, 174, 0, 0, 0, 0, 215, 129, 1, 115, 197, 129, 1, 156,
   129, 0, 34, 181, 156, 131, 117, 110, 100, 134, 133, 86, 95, 86, 80, 56, 37, 134, 136, 131, 86,
   80, 56, 131, 129, 1, 224, 16, 0, 0, 6, 176, 129, 0, 186, 129, 0]

def trkP237ae : List Nat :=
  [26, 69, 223, 163, 16, 0, 0, 31, 66, 134, 129, 1, 66, 247, 129, 1, 66, 242, 129, 4, 66, 243,
   129, 8, 66, 130, 132, 119, 101, 98, 109, 66, 135, 129, 2, 66, 133, 129, 2, 24, 83, 128, 103,
   15, 255, 255, 255, 255, 17, 77, 155, 116, 16, 0, 0, 63, 77, 187, 16, 0, 0, 15, 83, 171, 132,
   28, 83, 187, 107, 83, 172, 133, 0, 0, 0, 0, 0, 77, 187, 16, 0, 0, 15, 83, 171, 132, 21, 73,
   169, 102, 83, 172, 133, 0, 0, 0, 0, 0, 77, 187, 16, 0, 0, 15, 83, 171, 132, 22, 84, 174, 107,
   83, 172, 133, 0, 0, 0, 0, 0, 21, 73, 169, 102, 16, 0, 0, 52, 42, 215, 177, 131, 15, 66, 64,
   77, 128, 142, 119, 101, 98, 109, 45, 119, 114, 105, 116, 101, 114, 45, 106, 115, 87, 65, 142,
   119, 101, 98, 109, 45, 119, 114, 105, 116, 101, 114, 45, 106, 115, 68, 137, 136, 0, 0, 0, 0,
   0, 0, 0, 0, 22, 84, 174, 107, 0, 0, 0, 0, 174, 16, 0, 0, 45, 215, 129, 1, 115, 197, 129, 1,
   156, 129, 0, 34, 181, 156, 131, 117, 110, 100, 134, 133, 86, 95, 86, 80, 56, 37, 134, 136,
   131, 86, 80, 56, 131, 129, 1, 224, 16, 0, 0, 6, 176, 129, 0, 186, 129, 0]

def headerP237 : List Nat :=
  [26, 69, 223, 163, 16, 0, 0, 31, 66, 134, 129, 1, 66, 247, 129, 1, 66, 242, 129, 4, 66, 243,
   129, 8, 66, 130, 132, 119, 101, 98, 109, 66, 135, 129, 2, 66, 133, 129, 2, 24, 83, 128, 103,
   15, 255, 255, 255, 255, 17, 77, 155, 116, 16, 0, 0, 63, 77, 187, 16, 0, 0, 15, 83, 171, 132,
   28, 83, 187, 107, 83, 172, 133, 0, 0, 0, 0, 0, 77, 187, 16, 0, 0, 15, 83, 171, 132, 21, 73,
   169, 102, 83, 172, 133, 0, 0, 0, 0, 0, 77, 187, 16, 0, 0, 15, 83, 171, 132, 22, 84, 174, 107,
   83, 172, 133, 0, 0, 0, 0, 0, 21, 73, 169, 102, 16, 0, 0, 52, 42, 215, 177, 131, 15, 66, 64,
   77, 128, 142, 119, 101, 98, 109, 45, 119, 114, 105, 116, 101, 114, 45, 106, 115, 87, 65, 142,
   119, 101, 98, 109, 45, 119, 114, 105, 116, 101, 114, 45, 106, 115, 68, 137, 136, 0, 0, 0, 0,
   0, 0, 0, 0, 22, 84, 174, 107, 16, 0, 0, 50, 174, 16, 0, 0, 45, 215, 129, 1, 115, 197, 129, 1,
   156, 129, 0, 34, 181, 156, 131, 117, 110, 100, 134, 133, 86, 95, 86, 80, 56, 37, 134, 136,
   131, 86, 80, 56, 131, 129, 1, 224, 16, 0, 0, 6, 176, 129, 0, 186, 129, 0]

def trkCB45 : List Nat :=
  [215, 129, 1, 115, 197, 129, 1, 156, 129, 0, 34, 181, 156, 131, 117, 110, 100, 134, 133, 86,
   95, 86, 80, 56, 37, 134, 136, 131, 86, 80, 56, 131, 129, 1, 224, 16, 0, 0, 6, 176, 129, 0,
   186, 129, 0]

def trkCB50 : List Nat :=
  [174, 16, 0, 0, 45, 215, 129, 1, 115, 197, 129, 1, 156, 129, 0, 34, 181, 156, 131, 117, 110,
   100, 134, 133, 86, 95, 86, 80, 56, 37, 134, 136, 131, 86, 80, 56, 131, 129, 1, 224, 16, 0, 0,
   6, 176, 129, 0, 186, 129, 0]

theorem evalL1 : writeEBML ⟨trkP192, 192⟩ 0 (.elem 0xd7 none (.uint DEFAULT_TRACK_NUMBER)) =
    .ok (⟨trkP195, 195⟩, .elem 192 194 (some 1) .leaf) := by
  rfl

theorem evalL2 : writeEBML ⟨trkP195, 195⟩ 0 (.elem 0x73c5 none (.uint DEFAULT_TRACK_NUMBER)) =
    .ok (⟨trkP199, 199⟩, .elem 195 198 (some 1) .leaf) := by
  rfl

theorem evalL3 : writeEBML ⟨trkP199, 199⟩ 0 (.elem 0x9c none (.uint 0)) =
    .ok (⟨trkP202, 202⟩, .elem 199 201 (some 1) .leaf) := by
  rfl

theorem evalL4 : writeEBML ⟨trkP202, 202⟩ 0 (.elem 0x22b59c none (.str [117, 110, 100])) =
    .ok (⟨trkP209, 209⟩, .elem 202 206 none .leaf) := by
  rfl

theorem evalL5 : writeEBML ⟨trkP209, 209⟩ 0 (.elem 0x86 none (.str [86, 95, 86, 80, 56])) =
    .ok (⟨trkP216, 216⟩, .elem 209 211 none .leaf) := by
  rfl

theorem evalL6 : writeEBML ⟨trkP216, 216⟩ 0 (.elem 0x258688 none (.str [86, 80, 56])) =
    .ok (⟨trkP223, 223⟩, .elem 216 220 none .leaf) := by
  rfl

theorem evalL7 : writeEBML ⟨trkP223, 223⟩ 0 (.elem 0x83 none (.uint 1)) =
    .ok (⟨trkP226, 226⟩, .elem 223 225 (some 1) .leaf) := by
  rfl

theorem evalE0 : writeEBML ⟨trkP226, 226⟩ 0
    (.elem 0xe0 none (.list (videoPropertiesValue 0 0 false))) =
    .ok (⟨trkP237e0, 237⟩,
      .elem 226 231 (some 6) (.list [.elem 231 233 (some 1) .leaf, .elem 234 236 (some 1) .leaf])) := by
  rfl

theorem evalInner8 : writeEBMLList ⟨trkP192, 192⟩ 0
    [.elem 0xd7 none (.uint DEFAULT_TRACK_NUMBER),
       .elem 0x73c5 none (.uint DEFAULT_TRACK_NUMBER),
       .elem 0x9c none (.uint 0),
       .elem 0x22b59c none (.str [117, 110, 100]),
       .elem 0x86 none (.str [86, 95, 86, 80, 56]),
       .elem 0x258688 none (.str [86, 80, 56]),
       .elem 0x83 none (.uint 1),
       .elem 0xe0 none (.list (videoPropertiesValue 0 0 false))] =
    .ok (⟨trkP237e0, 237⟩,
      [.elem 192 194 (some 1) .leaf, .elem 195 198 (some 1) .leaf, .elem 199 201 (some 1) .leaf,
       .elem 202 206 none .leaf, .elem 209 211 none .leaf, .elem 216 220 none .leaf,
       .elem 223 225 (some 1) .leaf,
       .elem 226 231 (some 6) (.list [.elem 231 233 (some 1) .leaf, .elem 234 236 (some 1) .leaf])]) := by
  rw [writeEBMLList, evalL1]
  simp only
  rw [writeEBMLList, evalL2]
  simp only
  rw [writeEBMLList, evalL3]
  simp only
  rw [writeEBMLList, evalL4]
  simp only
  rw [writeEBMLList, evalL5]
  simp only
  rw [writeEBMLList, evalL6]
  simp only
  rw [writeEBMLList, evalL7]
  simp only
  rw [writeEBMLList, evalE0]
  simp only
  rw [writeEBMLList]

def aeAnn : EBMLAnn :=
  .elem 187 192 (some 45) (.list
    [.elem 192 194 (some 1) .leaf, .elem 195 198 (some 1) .leaf, .elem 199 201 (some 1) .leaf,
       .elem 202 206 none .leaf, .elem 209 211 none .leaf, .elem 216 220 none .leaf,
       .elem 223 225 (some 1) .leaf,
       .elem 226 231 (some 6) (.list [.elem 231 233 (some 1) .leaf, .elem 234 236 (some 1) .leaf])])

theorem vpl_validTopList : validTopList (videoPropertiesValue 0 0 false) :=
  ⟨⟨by decide, trivial⟩, ⟨by decide, trivial⟩, trivial⟩

theorem aeElem_validTop : validTop (.elem 0xae none (.list
    [.elem 0xd7 none (.uint DEFAULT_TRACK_NUMBER),
       .elem 0x73c5 none (.uint DEFAULT_TRACK_NUMBER),
       .elem 0x9c none (.uint 0),
       .elem 0x22b59c none (.str [117, 110, 100]),
       .elem 0x86 none (.str [86, 95, 86, 80, 56]),
       .elem 0x258688 none (.str [86, 80, 56]),
       .elem 0x83 none (.uint 1),
       .elem 0xe0 none (.list (videoPropertiesValue 0 0 false))])) :=
  ⟨by decide, ⟨by decide, trivial⟩, ⟨by decide, trivial⟩, ⟨by decide, trivial⟩,
   ⟨by decide, trivial⟩, ⟨by decide, trivial⟩, ⟨by decide, trivial⟩, ⟨by decide, trivial⟩,
   ⟨by decide, vpl_validTopList⟩, trivial⟩

theorem evalAE : writeEBML ⟨trkP187, 187⟩ 0 (.elem 0xae none (.list
    [.elem 0xd7 none (.uint DEFAULT_TRACK_NUMBER),
       .elem 0x73c5 none (.uint DEFAULT_TRACK_NUMBER),
       .elem 0x9c none (.uint 0),
       .elem 0x22b59c none (.str [117, 110, 100]),
       .elem 0x86 none (.str [86, 95, 86, 80, 56]),
       .elem 0x258688 none (.str [86, 80, 56]),
       .elem 0x83 none (.uint 1),
       .elem 0xe0 none (.list (videoPropertiesValue 0 0 false))])) =
    .ok (⟨trkP237ae, 237⟩, aeAnn) := by
  obtain ⟨r, hr⟩ := writeEBML_ok _ aeElem_validTop ⟨trkP187, 187⟩ 0
  obtain ⟨rs, rann⟩ := r
  obtain ⟨cb, anns, st, hl, hst, hdat, hvl, hp, hpst, hann⟩ :=
    writeEBML_children_normal ⟨trkP187, 187⟩ 0 0xae none _
      (by decide) (by decide) (by decide) (by decide) _ hr
  simp only at hdat hp hpst hann
  rw [show trkP187 ++ beBytes (measureUnsignedInt 0xae) 0xae ++ [0, 0, 0, 0] = trkP192
    from by decide] at hl hst
  rw [show trkP192.length = 192 from by decide] at hl
  rw [evalInner8] at hl
  simp only [Except.ok.injEq, Prod.mk.injEq] at hl
  obtain ⟨hl1, hl2⟩ := hl
  rw [← hl1] at hst
  simp only at hst
  subst hl2
  have hcb : cb = trkCB45 := by
    have h3 : trkP192 ++ trkCB45 = trkP192 ++ cb := by
      rw [← hst]
      decide
    exact (List.append_cancel_left h3).symm
  have hdat2 : rs.data = trkP237ae := by
    rw [hdat, hcb]
    decide
  have hpos2 : rs.pos = 237 := by
    rw [hp, hdat2]
    decide
  have hrann : rann = aeAnn := by
    rw [hann, hcb]
    rfl
  rw [hr, hrann]
  have hrs : rs = ⟨trkP237ae, 237⟩ := by
    obtain ⟨d, p⟩ := rs
    simp only at hdat2 hpos2
    rw [hdat2, hpos2]
  rw [hrs]

theorem evalAEList : writeEBMLList ⟨trkP187, 187⟩ 0 [.elem 0xae none (.list
    [.elem 0xd7 none (.uint DEFAULT_TRACK_NUMBER),
       .elem 0x73c5 none (.uint DEFAULT_TRACK_NUMBER),
       .elem 0x9c none (.uint 0),
       .elem 0x22b59c none (.str [117, 110, 100]),
       .elem 0x86 none (.str [86, 95, 86, 80, 56]),
       .elem 0x258688 none (.str [86, 80, 56]),
       .elem 0x83 none (.uint 1),
       .elem 0xe0 none (.list (videoPropertiesValue 0 0 false))])] =
    .ok (⟨trkP237ae, 237⟩, [aeAnn]) := by
  rw [writeEBMLList, evalAE]
  simp only
  rw [writeEBMLList]

def annTR0 : EBMLAnn := .elem 179 187 (some 50) (.list [aeAnn])

theorem tracksValue_validTop : validTop (tracksValue 0 0 false) :=
  ⟨by decide, aeElem_validTop, trivial⟩

theorem evalTR0 : writeEBML ⟨headerP179, 179⟩ 0 (tracksValue 0 0 false) =
    .ok (⟨headerP237, 237⟩, annTR0) := by
  obtain ⟨r, hr⟩ := writeEBML_ok _ tracksValue_validTop ⟨headerP179, 179⟩ 0
  obtain ⟨rs, rann⟩ := r
  rw [tracksValue] at hr
  obtain ⟨cb, anns, st, hl, hst, hdat, hvl, hp, hpst, hann⟩ :=
    writeEBML_children_normal ⟨headerP179, 179⟩ 0 0x1654ae6b none _
      (by decide) (by decide) (by decide) (by decide) _ hr
  simp only at hdat hp hpst hann
  rw [show headerP179 ++ beBytes (measureUnsignedInt 0x1654ae6b) 0x1654ae6b ++ [0, 0, 0, 0] =
    trkP187 from by decide] at hl hst
  rw [show trkP187.length = 187 from by decide] at hl
  rw [evalAEList] at hl
  simp only [Except.ok.injEq, Prod.mk.injEq] at hl
  obtain ⟨hl1, hl2⟩ := hl
  rw [← hl1] at hst
  simp only at hst
  subst hl2
  have hcb : cb = trkCB50 := by
    have h3 : trkP187 ++ trkCB50 = trkP187 ++ cb := by
      rw [← hst]
      decide
    exact (List.append_cancel_left h3).symm
  have hdat2 : rs.data = headerP237 := by
    rw [hdat, hcb]
    decide
  have hpos2 : rs.pos = 237 := by
    rw [hp, hdat2]
    decide
  have hrann : rann = annTR0 := by
    rw [hann, hcb]
    rfl
  rw [tracksValue, hr, hrann]
  have hrs : rs = ⟨headerP237, 237⟩ := by
    obtain ⟨d, p⟩ := rs
    simp only at hdat2 hpos2
    rw [hdat2, hpos2]
  rw [hrs]

theorem evalSegList0 :
    writeEBMLList ⟨headerP48, 48⟩ 0 [seekHeadValue 0 0 0, segmentInfoValue, tracksValue 0 0 false] =
      .ok (⟨headerP237, 237⟩, [annSH, annSI, annTR0]) := by
  rw [writeEBMLList, evalSH]
  simp only
  rw [writeEBMLList, evalSI]
  simp only
  rw [writeEBMLList, evalTR0]
  simp only
  rw [writeEBMLList]

def annSeg0 : EBMLAnn :=
  .elem 39 48 (some EBML_SIZE_UNKNOWN_5_BYTES) (.list [annSH, annSI, annTR0])

theorem seekValue_validTop (idB : List Nat) (v : Nat) : validTop (seekValue idB v) :=
  ⟨by decide, ⟨by decide, trivial⟩, ⟨by decide, trivial⟩, trivial⟩

theorem seekHeadValue_validTop (c i t : Nat) : validTop (seekHeadValue c i t) :=
  ⟨by decide, seekValue_validTop _ _, seekValue_validTop _ _, seekValue_validTop _ _, trivial⟩

theorem segmentInfoValue_validTop : validTop segmentInfoValue :=
  ⟨by decide, ⟨by decide, trivial⟩, ⟨by decide, trivial⟩, ⟨by decide, trivial⟩,
   ⟨by decide, trivial⟩, trivial⟩

theorem segValue_validTop : validTop (ebmlSegmentValue 0 0 0 0 0 false) :=
  ⟨by decide, seekHeadValue_validTop 0 0 0, segmentInfoValue_validTop,
   tracksValue_validTop, trivial⟩

theorem evalSeg0 : writeEBML ⟨headerEH, 39⟩ 0 (ebmlSegmentValue 0 0 0 0 0 false) =
    .ok (⟨headerP237, 237⟩, annSeg0) := by
  obtain ⟨r, hr⟩ := writeEBML_ok _ segValue_validTop ⟨headerEH, 39⟩ 0
  obtain ⟨rs, rann⟩ := r
  rw [ebmlSegmentValue] at hr
  obtain ⟨cb, anns, st, hl, hst, hr1, hdat, hp, hann⟩ :=
    writeEBML_children_unknown5 ⟨headerEH, 39⟩ 0 0x18538067 (some EBML_SIZE_UNKNOWN_5_BYTES)
      [seekHeadValue 0 0 0, segmentInfoValue, tracksValue 0 0 false]
      (by decide) (by decide) (by decide) rfl _ hr
  simp only at hr1 hann
  rw [show headerEH ++ beBytes (measureUnsignedInt 0x18538067) 0x18538067 ++
    [0x0F, 0xFF, 0xFF, 0xFF, 0xFF] = headerP48 from by decide] at hl
  rw [show headerP48.length = 48 from by decide] at hl
  rw [evalSegList0] at hl
  simp only [Except.ok.injEq, Prod.mk.injEq] at hl
  obtain ⟨hl1, hl2⟩ := hl
  subst hl2
  have hrs : rs = ⟨headerP237, 237⟩ := by
    rw [hr1, ← hl1]
  have hrann : rann = annSeg0 := by
    rw [hann]
    rfl
  rw [ebmlSegmentValue, hr, hrs, hrann]

theorem evalWHlist :
    writeEBMLList ⟨[], 0⟩ 0 [ebmlHeaderValue, ebmlSegmentValue 0 0 0 0 0 false] =
      .ok (⟨headerP237, 237⟩, [annEH, annSeg0]) := by
  rw [writeEBMLList, evalEH]
  simp only
  rw [writeEBMLList, evalSeg0]
  simp only
  rw [writeEBMLList]

def c4opts : MuxOptions :=
  { quality := mkRat 19 20, transparent := false, alphaQuality := some (mkRat 19 20),
    frameDuration := some 40, frameRate := none }

def c4runSt : MuxState := { options := c4opts }

def c4stH : MuxState :=
  { options := c4opts, writtenHeader := true, posSegmentInfo := 71, posTracks := 131,
    segmentOffset := 39, segmentDataOffset := 48, seekHeadDataOffset := 56,
    segmentDurationDataOffset := 171,
    blobBuffer := { buffer := [{ offset := 0, data := headerP237 }], pos := 237, length := 237 } }

theorem c4_wh_eq : writeHeader c4runSt = .ok c4stH := by
  unfold writeHeader
  rw [show c4runSt.blobBuffer.pos = 0 from rfl, show c4runSt.posCues = 0 from rfl,
    show c4runSt.posSegmentInfo = 0 from rfl, show c4runSt.posTracks = 0 from rfl,
    show c4runSt.videoWidth = 0 from rfl, show c4runSt.videoHeight = 0 from rfl,
    show c4runSt.options.transparent = false from rfl]
  rw [evalWHlist]
  simp only
  rw [show (⟨headerP237, 237⟩ : ArrayBufferDataStream).getAsDataArray = headerP237 from by decide]
  rw [show BlobBuffer.write c4runSt.blobBuffer (.u8arr headerP237) =
    .ok { buffer := [{ offset := 0, data := headerP237 }], pos := 237, length := 237 }
    from by decide]
  simp only
  rfl

def cuesB : List Nat := [28, 83, 187, 107, 16, 0, 0, 0]

theorem evalCues0 : writeEBML ⟨[], 0⟩ 237 (.elem 0x1C53BB6B none (.list [])) =
    .ok (⟨cuesB, 8⟩, .elem 237 245 (some 0) (.list [])) := by
  rfl

def c4bbC : BlobBuffer :=
  { buffer := [{ offset := 0, data := headerP237 }, { offset := 237, data := cuesB }],
    pos := 245, length := 245 }

def c4stC : MuxState := { c4stH with posCues := 189, blobBuffer := c4bbC }

theorem c4_cues_eq : writeCues c4stH = .ok c4stC := by
  rw [writeCues]
  rw [show c4stH.blobBuffer.pos = 237 from rfl,
    show (c4stH.cues.map fun c => cueValue c.1 c.2) = [] from rfl]
  rw [evalCues0]
  simp only
  rw [show (⟨cuesB, 8⟩ : ArrayBufferDataStream).getAsDataArray = cuesB from by decide]
  rw [show BlobBuffer.write c4stH.blobBuffer (.u8arr cuesB) = .ok c4bbC from by decide]
  simp only
  rfl

def shB : List Nat :=
  [77, 187, 16, 0, 0, 15, 83, 171, 132, 28, 83, 187, 107, 83, 172, 133, 0, 0, 0, 0, 189, 77, 187,
   16, 0, 0, 15, 83, 171, 132, 21, 73, 169, 102, 83, 172, 133, 0, 0, 0, 0, 71, 77, 187, 16, 0, 0,
   15, 83, 171, 132, 22, 84, 174, 107, 83, 172, 133, 0, 0, 0, 0, 131]

theorem evalSHC : writeEBMLList ⟨[], 0⟩ 56 (seekHeadChildren 189 71 131) =
    .ok (⟨shB, 63⟩,
      [.elem 56 62 (some 15) (.list [.elem 62 65 none .leaf, .elem 69 72 (some 5) .leaf]),
       .elem 77 83 (some 15) (.list [.elem 83 86 none .leaf, .elem 90 93 (some 5) .leaf]),
       .elem 98 104 (some 15) (.list [.elem 104 107 none .leaf, .elem 111 114 (some 5) .leaf])]) := by
  rfl

def hdrPatched : List Nat :=
  [26, 69, 223, 163, 16, 0, 0, 31, 66, 134, 129, 1, 66, 247, 129, 1, 66, 242, 129, 4, 66, 243,
   129, 8, 66, 130, 132, 119, 101, 98, 109, 66, 135, 129, 2, 66, 133, 129, 2, 24, 83, 128, 103,
   15, 255, 255, 255, 255, 17, 77, 155, 116, 16, 0, 0, 63, 77, 187, 16, 0, 0, 15, 83, 171, 132,
   28, 83, 187, 107, 83, 172, 133, 0, 0, 0, 0, 189, 77, 187, 16, 0, 0, 15, 83, 171, 132, 21, 73,
   169, 102, 83, 172, 133, 0, 0, 0, 0, 71, 77, 187, 16, 0, 0, 15, 83, 171, 132, 22, 84, 174, 107,
   83, 172, 133, 0, 0, 0, 0, 131, 21, 73, 169, 102, 16, 0, 0, 52, 42, 215, 177, 131, 15, 66, 64,
   77, 128, 142, 119, 101, 98, 109, 45, 119, 114, 105, 116, 101, 114, 45, 106, 115, 87, 65, 142,
   119, 101, 98, 109, 45, 119, 114, 105, 116, 101, 114, 45, 106, 115, 68, 137, 136, 0, 0, 0, 0,
   0, 0, 0, 0, 22, 84, 174, 107, 16, 0, 0, 50, 174, 16, 0, 0, 45, 215, 129, 1, 115, 197, 129, 1,
   156, 129, 0, 34, 181, 156, 131, 117, 110, 100, 134, 133, 86, 95, 86, 80, 56, 37, 134, 136,
   131, 86, 80, 56, 131, 129, 1, 224, 16, 0, 0, 6, 176, 129, 0, 186, 129, 0]

def c4bbS : BlobBuffer :=
  { buffer := [{ offset := 0, data := hdrPatched }, { offset := 237, data := cuesB }],
    pos := 245, length := 245 }

def c4stS : MuxState := { c4stC with blobBuffer := c4bbS }

theorem c4_sh_eq : rewriteSeekHead c4stC = .ok c4stS := by
  rw [rewriteSeekHead]
  rw [show c4stC.seekHeadDataOffset = 56 from rfl, show c4stC.posCues = 189 from rfl,
    show c4stC.posSegmentInfo = 71 from rfl, show c4stC.posTracks = 131 from rfl,
    show c4stC.blobBuffer.pos = 245 from rfl]
  rw [evalSHC]
  simp only
  rw [show (⟨shB, 63⟩ : ArrayBufferDataStream).getAsDataArray = shB from by decide]
  rw [show BlobBuffer.seek c4stC.blobBuffer 56 = .ok { c4bbC with pos := 56 } from by decide]
  simp only
  rw [show BlobBuffer.write { c4bbC with pos := 56 } (.u8arr shB) =
    .ok { c4bbS with pos := 119 } from by decide]
  simp only
  rw [show BlobBuffer.seek { c4bbS with pos := 119 } 245 = .ok c4bbS from by decide]
  simp only
  rfl

theorem c4_dur_eq : rewriteDuration c4stS = .ok c4stS := by
  rw [rewriteDuration]
  rw [show c4stS.segmentDurationDataOffset = 171 from rfl,
    show c4stS.blobBuffer.pos = 245 from rfl,
    show float64BE c4stS.clusterStartTime = [0, 0, 0, 0, 0, 0, 0, 0] from rfl]
  rw [show BlobBuffer.seek c4stS.blobBuffer 171 = .ok { c4bbS with pos := 171 } from by decide]
  simp only
  rw [show BlobBuffer.write { c4bbS with pos := 171 } (.u8arr [0, 0, 0, 0, 0, 0, 0, 0]) =
    .ok { c4bbS with pos := 179 } from by decide]
  simp only
  rw [show BlobBuffer.seek { c4bbS with pos := 179 } 245 = .ok c4bbS from by decide]
  simp only
  rfl

def segPatch : List Nat := [24, 83, 128, 103, 8, 0, 0, 0, 197]

def segPatched : List Nat :=
  [26, 69, 223, 163, 16, 0, 0, 31, 66, 134, 129, 1, 66, 247, 129, 1, 66, 242, 129, 4, 66, 243,
   129, 8, 66, 130, 132, 119, 101, 98, 109, 66, 135, 129, 2, 66, 133, 129, 2, 24, 83, 128, 103,
   8, 0, 0, 0, 197, 17, 77, 155, 116, 16, 0, 0, 63, 77, 187, 16, 0, 0, 15, 83, 171, 132, 28, 83,
   187, 107, 83, 172, 133, 0, 0, 0, 0, 189, 77, 187, 16, 0, 0, 15, 83, 171, 132, 21, 73, 169,
   102, 83, 172, 133, 0, 0, 0, 0, 71, 77, 187, 16, 0, 0, 15, 83, 171, 132, 22, 84, 174, 107, 83,
   172, 133, 0, 0, 0, 0, 131, 21, 73, 169, 102, 16, 0, 0, 52, 42, 215, 177, 131, 15, 66, 64, 77,
   128, 142, 119, 101, 98, 109, 45, 119, 114, 105, 116, 101, 114, 45, 106, 115, 87, 65, 142, 119,
   101, 98, 109, 45, 119, 114, 105, 116, 101, 114, 45, 106, 115, 68, 137, 136, 0, 0, 0, 0, 0, 0,
   0, 0, 22, 84, 174, 107, 16, 0, 0, 50, 174, 16, 0, 0, 45, 215, 129, 1, 115, 197, 129, 1, 156,
   129, 0, 34, 181, 156, 131, 117, 110, 100, 134, 133, 86, 95, 86, 80, 56, 37, 134, 136, 131, 86,
   80, 56, 131, 129, 1, 224, 16, 0, 0, 6, 176, 129, 0, 186, 129, 0]

def c4bbF : BlobBuffer :=
  { buffer := [{ offset := 0, data := segPatched }, { offset := 237, data := cuesB }],
    pos := 245, length := 245 }

def c4stF : MuxState := { c4stS with blobBuffer := c4bbF }

theorem c4_seg_eq : rewriteSegmentLength c4stS = .ok c4stF := by
  rw [rewriteSegmentLength]
  rw [show c4stS.segmentOffset = 39 from rfl, show c4stS.segmentDataOffset = 48 from rfl,
    show c4stS.blobBuffer.pos = 245 from rfl]
  rw [show beBytes (measureUnsignedInt 0x18538067) 0x18538067 ++
    ebmlVarIntWidthBytes (245 - 48) 5 = segPatch from by decide]
  rw [show BlobBuffer.seek c4stS.blobBuffer 39 = .ok { c4bbS with pos := 39 } from by decide]
  simp only
  rw [show BlobBuffer.write { c4bbS with pos := 39 } (.u8arr segPatch) =
    .ok { c4bbF with pos := 48 } from by decide]
  simp only
  rw [show BlobBuffer.seek { c4bbF with pos := 48 } 245 = .ok c4bbF from by decide]
  simp only
  rfl

def c4bytes : List Nat :=
  [26, 69, 223, 163, 16, 0, 0, 31, 66, 134, 129, 1, 66, 247, 129, 1, 66, 242, 129, 4, 66, 243,
   129, 8, 66, 130, 132, 119, 101, 98, 109, 66, 135, 129, 2, 66, 133, 129, 2, 24, 83, 128, 103,
   8, 0, 0, 0, 197, 17, 77, 155, 116, 16, 0, 0, 63, 77, 187, 16, 0, 0, 15, 83, 171, 132, 28, 83,
   187, 107, 83, 172, 133, 0, 0, 0, 0, 189, 77, 187, 16, 0, 0, 15, 83, 171, 132, 21, 73, 169,
   102, 83, 172, 133, 0, 0, 0, 0, 71, 77, 187, 16, 0, 0, 15, 83, 171, 132, 22, 84, 174, 107, 83,
   172, 133, 0, 0, 0, 0, 131, 21, 73, 169, 102, 16, 0, 0, 52, 42, 215, 177, 131, 15, 66, 64, 77,
   128, 142, 119, 101, 98, 109, 45, 119, 114, 105, 116, 101, 114, 45, 106, 115, 87, 65, 142, 119,
   101, 98, 109, 45, 119, 114, 105, 116, 101, 114, 45, 106, 115, 68, 137, 136, 0, 0, 0, 0, 0, 0,
   0, 0, 22, 84, 174, 107, 16, 0, 0, 50, 174, 16, 0, 0, 45, 215, 129, 1, 115, 197, 129, 1, 156,
   129, 0, 34, 181, 156, 131, 117, 110, 100, 134, 133, 86, 95, 86, 80, 56, 37, 134, 136, 131, 86,
   80, 56, 131, 129, 1, 224, 16, 0, 0, 6, 176, 129, 0, 186, 129, 0, 28, 83, 187, 107, 16, 0, 0, 0]

theorem c4_complete_eq : complete c4runSt = .ok (c4stF, c4bytes) := by
  rw [complete]
  rw [if_neg (by decide : ¬(c4runSt.writtenHeader = true))]
  rw [c4_wh_eq]
  simp only
  rw [show flushClusterFrameBuffer c4stH = .ok c4stH from by decide]
  simp only
  rw [c4_cues_eq]
  simp only
  rw [c4_sh_eq]
  simp only
  rw [c4_dur_eq]
  simp only
  rw [c4_seg_eq]
  simp only
  rw [show c4stF.blobBuffer.complete = c4bytes from by decide]

def muxOpt0 : MuxOptions := { frameDuration := some 40 }

theorem c4_run_eq : muxRun muxOpt0 [] = .ok c4runSt := by
  decide

theorem c4_witness :
    muxRun muxOpt0 [] = .ok c4runSt ∧
    complete c4runSt = .ok (c4stF, c4bytes) ∧
    c4stF.blobBuffer.length - c4stF.segmentDataOffset < 2 ^ 35 - 1 ∧
    (measureUnsignedInt 0x18538067 = 4 ∧
     c4stF.segmentDataOffset = c4stF.segmentOffset + 9 ∧
     c4bytes.length = c4stF.blobBuffer.length ∧
     (c4bytes.drop c4stF.segmentOffset).take 4 = beBytes 4 0x18538067 ∧
     (c4bytes.drop (c4stF.segmentOffset + 4)).take 5 =
       ebmlVarIntWidthBytes (c4bytes.length - c4stF.segmentDataOffset) 5 ∧
     beValue ((c4bytes.drop (c4stF.segmentOffset + 4)).take 5) =
       (c4bytes.length - c4stF.segmentDataOffset) + 2 ^ 35 ∧
     (∃ c rest, c4stF.blobBuffer.buffer = c :: rest ∧ c.offset = 0 ∧
       c4stF.segmentOffset + 9 ≤ c.data.length)) :=
  ⟨c4_run_eq, c4_complete_eq, by decide,
   c4_segment_size_backpatch muxOpt0 [] c4runSt c4stF c4bytes c4_run_eq c4_complete_eq
     (by decide)⟩

def c6resSt : MuxState :=
  { c4runSt with
    clusterFrameBuffer := [{ frame := [7], duration := 40, trackNumber := 1, timecode := 0 }],
    clusterDuration := qAdd 0 40 }

theorem c6_witness :
    c4runSt.clusterDuration = durSum c4runSt.clusterFrameBuffer ∧
    (0 : Rat) ≤ (40 : Rat) ∧
    addFrameToCluster c4runSt { frame := [7], duration := 40 } = .ok c6resSt ∧
    (c6resSt.clusterDuration = durSum c6resSt.clusterFrameBuffer ∧
     (c6resSt.clusterFrameBuffer = [] ∨ c6resSt.clusterDuration < MAX_CLUSTER_DURATION_MSEC)) :=
  ⟨by decide, by decide, by decide,
   (c6_cluster_duration_flush c4runSt { frame := [7], duration := 40 } c6resSt (by decide) (Or.inl rfl)
     (by decide) (by decide)).2⟩

/-! ## A second complete() on the finished zero-frame muxer -/

theorem evalCues1 : writeEBML ⟨[], 0⟩ 245 (.elem 0x1C53BB6B none (.list [])) =
    .ok (⟨cuesB, 8⟩, .elem 245 253 (some 0) (.list [])) := by
  rfl

def c7bbC2 : BlobBuffer :=
  { buffer := [{ offset := 0, data := segPatched }, { offset := 237, data := cuesB },
              { offset := 245, data := cuesB }],
    pos := 253, length := 253 }

def c7stC2 : MuxState := { c4stF with posCues := 197, blobBuffer := c7bbC2 }

theorem c7_cues2_eq : writeCues c4stF = .ok c7stC2 := by
  rw [writeCues]
  rw [show c4stF.blobBuffer.pos = 245 from rfl,
    show (c4stF.cues.map fun c => cueValue c.1 c.2) = [] from rfl]
  rw [evalCues1]
  simp only
  rw [show (⟨cuesB, 8⟩ : ArrayBufferDataStream).getAsDataArray = cuesB from by decide]
  rw [show BlobBuffer.write c4stF.blobBuffer (.u8arr cuesB) = .ok c7bbC2 from by decide]
  simp only
  rfl

def shB2 : List Nat :=
  [77, 187, 16, 0, 0, 15, 83, 171, 132, 28, 83, 187, 107, 83, 172, 133, 0, 0, 0, 0, 197, 77, 187,
   16, 0, 0, 15, 83, 171, 132, 21, 73, 169, 102, 83, 172, 133, 0, 0, 0, 0, 71, 77, 187, 16, 0, 0,
   15, 83, 171, 132, 22, 84, 174, 107, 83, 172, 133, 0, 0, 0, 0, 131]

theorem evalSHC2 : writeEBMLList ⟨[], 0⟩ 56 (seekHeadChildren 197 71 131) =
    .ok (⟨shB2, 63⟩,
      [.elem 56 62 (some 15) (.list [.elem 62 65 none .leaf, .elem 69 72 (some 5) .leaf]),
       .elem 77 83 (some 15) (.list [.elem 83 86 none .leaf, .elem 90 93 (some 5) .leaf]),
       .elem 98 104 (some 15) (.list [.elem 104 107 none .leaf, .elem 111 114 (some 5) .leaf])]) := by
  rfl

def hdr2Patched : List Nat :=
  [26, 69, 223, 163, 16, 0, 0, 31, 66, 134, 129, 1, 66, 247, 129, 1, 66, 242, 129, 4, 66, 243,
   129, 8, 66, 130, 132, 119, 101, 98, 109, 66, 135, 129, 2, 66, 133, 129, 2, 24, 83, 128, 103,
   8, 0, 0, 0, 197, 17, 77, 155, 116, 16, 0, 0, 63, 77, 187, 16, 0, 0, 15, 83, 171, 132, 28, 83,
   187, 107, 83, 172, 133, 0, 0, 0, 0, 197, 77, 187, 16, 0, 0, 15, 83, 171, 132, 21, 73, 169,
   102, 83, 172, 133, 0, 0, 0, 0, 71, 77, 187, 16, 0, 0, 15, 83, 171, 132, 22, 84, 174, 107, 83,
   172, 133, 0, 0, 0, 0, 131, 21, 73, 169, 102, 16, 0, 0, 52, 42, 215, 177, 131, 15, 66, 64, 77,
   128, 142, 119, 101, 98, 109, 45, 119, 114, 105, 116, 101, 114, 45, 106, 115, 87, 65, 142, 119,
   101, 98, 109, 45, 119, 114, 105, 116, 101, 114, 45, 106, 115, 68, 137, 136, 0, 0, 0, 0, 0, 0,
   0, 0, 22, 84, 174, 107, 16, 0, 0, 50, 174, 16, 0, 0, 45, 215, 129, 1, 115, 197, 129, 1, 156,
   129, 0, 34, 181, 156, 131, 117, 110, 100, 134, 133, 86, 95, 86, 80, 56, 37, 134, 136, 131, 86,
   80, 56, 131, 129, 1, 224, 16, 0, 0, 6, 176, 129, 0, 186, 129, 0]

def c7bbS2 : BlobBuffer :=
  { buffer := [{ offset := 0, data := hdr2Patched }, { offset := 237, data := cuesB },
              { offset := 245, data := cuesB }],
    pos := 253, length := 253 }

def c7stS2 : MuxState := { c7stC2 with blobBuffer := c7bbS2 }

theorem c7_sh2_eq : rewriteSeekHead c7stC2 = .ok c7stS2 := by
  rw [rewriteSeekHead]
  rw [show c7stC2.seekHeadDataOffset = 56 from rfl, show c7stC2.posCues = 197 from rfl,
    show c7stC2.posSegmentInfo = 71 from rfl, show c7stC2.posTracks = 131 from rfl,
    show c7stC2.blobBuffer.pos = 253 from rfl]
  rw [evalSHC2]
  simp only
  rw [show (⟨shB2, 63⟩ : ArrayBufferDataStream).getAsDataArray = shB2 from by decide]
  rw [show BlobBuffer.seek c7stC2.blobBuffer 56 = .ok { c7bbC2 with pos := 56 } from by decide]
  simp only
  rw [show BlobBuffer.write { c7bbC2 with pos := 56 } (.u8arr shB2) =
    .ok { c7bbS2 with pos := 119 } from by decide]
  simp only
  rw [show BlobBuffer.seek { c7bbS2 with pos := 119 } 253 = .ok c7bbS2 from by decide]
  simp only
  rfl

theorem c7_dur2_eq : rewriteDuration c7stS2 = .ok c7stS2 := by
  rw [rewriteDuration]
  rw [show c7stS2.segmentDurationDataOffset = 171 from rfl,
    show c7stS2.blobBuffer.pos = 253 from rfl,
    show float64BE c7stS2.clusterStartTime = [0, 0, 0, 0, 0, 0, 0, 0] from rfl]
  rw [show BlobBuffer.seek c7stS2.blobBuffer 171 = .ok { c7bbS2 with pos := 171 } from by decide]
  simp only
  rw [show BlobBuffer.write { c7bbS2 with pos := 171 } (.u8arr [0, 0, 0, 0, 0, 0, 0, 0]) =
    .ok { c7bbS2 with pos := 179 } from by decide]
  simp only
  rw [show BlobBuffer.seek { c7bbS2 with pos := 179 } 253 = .ok c7bbS2 from by decide]
  simp only
  rfl

def seg2Patch : List Nat := [24, 83, 128, 103, 8, 0, 0, 0, 205]

def seg2Patched : List Nat :=
  [26, 69, 223, 163, 16, 0, 0, 31, 66, 134, 129, 1, 66, 247, 129, 1, 66, 242, 129, 4, 66, 243,
   129, 8, 66, 130, 132, 119, 101, 98, 109, 66, 135, 129, 2, 66, 133, 129, 2, 24, 83, 128, 103,
   8, 0, 0, 0, 205, 17, 77, 155, 116, 16, 0, 0, 63, 77, 187, 16, 0, 0, 15, 83, 171, 132, 28, 83,
   187, 107, 83, 172, 133, 0, 0, 0, 0, 197, 77, 187, 16, 0, 0, 15, 83, 171, 132, 21, 73, 169,
   102, 83, 172, 133, 0, 0, 0, 0, 71, 77, 187, 16, 0, 0, 15, 83, 171, 132, 22, 84, 174, 107, 83,
   172, 133, 0, 0, 0, 0, 131, 21, 73, 169, 102, 16, 0, 0, 52, 42, 215, 177, 131, 15, 66, 64, 77,
   128, 142, 119, 101, 98, 109, 45, 119, 114, 105, 116, 101, 114, 45, 106, 115, 87, 65, 142, 119,
   101, 98, 109, 45, 119, 114, 105, 116, 101, 114, 45, 106, 115, 68, 137, 136, 0, 0, 0, 0, 0, 0,
   0, 0, 22, 84, 174, 107, 16, 0, 0, 50, 174, 16, 0, 0, 45, 215, 129, 1, 115, 197, 129, 1, 156,
   129, 0, 34, 181, 156, 131, 117, 110, 100, 134, 133, 86, 95, 86, 80, 56, 37, 134, 136, 131, 86,
   80, 56, 131, 129, 1, 224, 16, 0, 0, 6, 176, 129, 0, 186, 129, 0]

def c7bbF2 : BlobBuffer :=
  { buffer := [{ offset := 0, data := seg2Patched }, { offset := 237, data := cuesB },
              { offset := 245, data := cuesB }],
    pos := 253, length := 253 }

def c7secondSt : MuxState := { c7stS2 with blobBuffer := c7bbF2 }

theorem c7_seg2_eq : rewriteSegmentLength c7stS2 = .ok c7secondSt := by
  rw [rewriteSegmentLength]
  rw [show c7stS2.segmentOffset = 39 from rfl, show c7stS2.segmentDataOffset = 48 from rfl,
    show c7stS2.blobBuffer.pos = 253 from rfl]
  rw [show beBytes (measureUnsignedInt 0x18538067) 0x18538067 ++
    ebmlVarIntWidthBytes (253 - 48) 5 = seg2Patch from by decide]
  rw [show BlobBuffer.seek c7stS2.blobBuffer 39 = .ok { c7bbS2 with pos := 39 } from by decide]
  simp only
  rw [show BlobBuffer.write { c7bbS2 with pos := 39 } (.u8arr seg2Patch) =
    .ok { c7bbF2 with pos := 48 } from by decide]
  simp only
  rw [show BlobBuffer.seek { c7bbF2 with pos := 48 } 253 = .ok c7bbF2 from by decide]
  simp only
  rfl

def c7bytes2 : List Nat :=
  [26, 69, 223, 163, 16, 0, 0, 31, 66, 134, 129, 1, 66, 247, 129, 1, 66, 242, 129, 4, 66, 243,
   129, 8, 66, 130, 132, 119, 101, 98, 109, 66, 135, 129, 2, 66, 133, 129, 2, 24, 83, 128, 103,
   8, 0, 0, 0, 205, 17, 77, 155, 116, 16, 0, 0, 63, 77, 187, 16, 0, 0, 15, 83, 171, 132, 28, 83,
   187, 107, 83, 172, 133, 0, 0, 0, 0, 197, 77, 187, 16, 0, 0, 15, 83, 171, 132, 21, 73, 169,
   102, 83, 172, 133, 0, 0, 0, 0, 71, 77, 187, 16, 0, 0, 15, 83, 171, 132, 22, 84, 174, 107, 83,
   172, 133, 0, 0, 0, 0, 131, 21, 73, 169, 102, 16, 0, 0, 52, 42, 215, 177, 131, 15, 66, 64, 77,
   128, 142, 119, 101, 98, 109, 45, 119, 114, 105, 116, 101, 114, 45, 106, 115, 87, 65, 142, 119,
   101, 98, 109, 45, 119, 114, 105, 116, 101, 114, 45, 106, 115, 68, 137, 136, 0, 0, 0, 0, 0, 0,
   0, 0, 22, 84, 174, 107, 16, 0, 0, 50, 174, 16, 0, 0, 45, 215, 129, 1, 115, 197, 129, 1, 156,
   129, 0, 34, 181, 156, 131, 117, 110, 100, 134, 133, 86, 95, 86, 80, 56, 37, 134, 136, 131, 86,
   80, 56, 131, 129, 1, 224, 16, 0, 0, 6, 176, 129, 0, 186, 129, 0, 28, 83, 187, 107, 16, 0, 0,
   0, 28, 83, 187, 107, 16, 0, 0, 0]

theorem c7_complete2_eq : complete c4stF = .ok (c7secondSt, c7bytes2) := by
  rw [complete]
  rw [if_pos (show c4stF.writtenHeader = true from rfl)]
  simp only
  rw [show flushClusterFrameBuffer c4stF = .ok c4stF from by decide]
  simp only
  rw [c7_cues2_eq]
  simp only
  rw [c7_sh2_eq]
  simp only
  rw [c7_dur2_eq]
  simp only
  rw [c7_seg2_eq]
  simp only
  rw [show c7secondSt.blobBuffer.complete = c7bytes2 from by decide]

def c7afterSt : MuxState :=
  { c4stF with
    clusterFrameBuffer := [{ frame := [7], duration := 40, trackNumber := 1, timecode := 0 }],
    clusterDuration := qAdd 0 40 }

theorem c7_counterexample :
    complete c4runSt = .ok (c4stF, c4bytes) ∧
    addFrame c4stF [7] 2 2 none = .ok c7afterSt ∧
    complete c4stF = .ok (c7secondSt, c7bytes2) :=
  ⟨c4_complete_eq, by decide, c7_complete2_eq⟩

theorem c7_witness :
    c4stF.writtenHeader = true ∧ ∃ st3, addFrame c4stF [7] 2 2 none = .ok st3 :=
  ⟨(c7_after_complete c4runSt c4stF c4bytes c4_complete_eq).1,
   (c7_after_complete c4runSt c4stF c4bytes c4_complete_eq).2 [7] 2 2
     (by show (0 : Rat) + 40 < 5000; norm_num)⟩

theorem c8_counterexample :
    validateOptions { frameDuration := some 40, frameRate := some 30 } =
      .ok { quality := mkRat 19 20, transparent := false, alphaQuality := some (mkRat 19 20),
            frameDuration := some 40, frameRate := some 30 } := by
  decide

theorem c8_witness :
    jsTruthyQ (some (40 : Rat)) = true ∧
    (∃ o2, validateOptions { frameDuration := some 40, frameRate := some 30 } = .ok o2 ∧
      o2.frameDuration = some (40 : Rat)) :=
  ⟨by decide, (c8_frame_timing_validation { frameDuration := some 40, frameRate := some 30 }).2.1
    (by decide)⟩
end WebmWriter
